import Mathlib

/-! nndab: framing, flush and retry engine of the DAB bridge.

A shallow embedding of `src/nndab.c`.  The program bridges a request/reply
socket to an I2C device that speaks a length-prefixed packet protocol.

* bytes are natural numbers; a cast to `unsigned char` is `% 256`;
* a `char*` is either an offset into the backing array of the function in
  scope or a position inside a string literal (`Ptr`);
* the I2C device is an arbitrary environment (`Bus`): a state type with the
  answers it gives to `read` and `write`;
* a memory access outside the backing array, or a store into a string
  literal, has no defined behaviour: the functions return `none` / `fault`;
* `stderr` is modelled for `read_dab_packet` by the error diagnostics it
  prints; of the informational output only the reads that the hex dumps
  (`hex_print`, lines 82 and 159) make of their buffer are modelled;
* which calls a function makes on the bus is read off the bus `logged B`,
  which answers as `B` does and keeps a record of the calls.
-/

namespace Nndab

/-! ## Constants -/

/-- The value of `EAGAIN` (Linux `errno.h`); only its sign and the fact that
`-EAGAIN` differs from `0`, `11`, `22` and `33` matter. -/
def EAGAIN : Int := 11

/-- Line 19: `#define DAB_PACKET_MAX 4096`. -/
def DAB_PACKET_MAX : Nat := 4096

/-! ## Memory -/

/-- A `char*`: `arr off` is `&array[off]` for the backing array in scope,
`lit s off` points `off` bytes into the string literal `s`. -/
inductive Ptr where
  | arr (off : Nat)
  | lit (s : String) (off : Nat)
  deriving DecidableEq, Repr

/-- Lines 21-26: `struct mybuff`. -/
structure mybuff where
  data : Ptr
  len : Int
  deriving DecidableEq, Repr

/-- The bytes of a string literal (UTF-8, without the terminating NUL). -/
def litBytes (s : String) : List Nat :=
  s.data.flatMap (fun c => (String.utf8EncodeChar c).map UInt8.toNat)

/-- The C library `strlen` applied to a string literal without embedded NUL. -/
def strlen (s : String) : Int := ((litBytes s).length : Nat)

/-- Conversion of an `int` to `size_t` (64-bit) at a call of `read`, `write`
or `nn_send`. -/
def size_t (n : Int) : Nat := (n % 18446744073709551616).toNat

/-- Pointer arithmetic `&p[k]`. -/
def Ptr.add : Ptr → Nat → Ptr
  | .arr off, k => .arr (off + k)
  | .lit s off, k => .lit s (off + k)

/-- Storing the bytes `bs` at `p`.  Nothing is stored when `bs` is empty; a
store that leaves the backing array or targets a string literal is `none`. -/
def store (mem : List Nat) (p : Ptr) (bs : List Nat) : Option (List Nat) :=
  if bs = [] then some mem
  else
    match p with
    | .arr off =>
      if off + bs.length ≤ mem.length then
        some (mem.take off ++ bs ++ mem.drop (off + bs.length))
      else none
    | .lit _ _ => none

/-- Reading the byte `p[i]`; `none` outside the array or the literal. -/
def load (mem : List Nat) (p : Ptr) (i : Nat) : Option Nat :=
  match p with
  | .arr off => mem[off + i]?
  | .lit s off => (litBytes s ++ [0])[off + i]?

/-- Lines 28-33: `hex_print(buff, len)` reads `buff[0]`, ..., `buff[len - 1]`
and prints them on `stderr`; it reads nothing when `len ≤ 0`.  `none` when a
byte it reads lies outside the array or the literal `buff` points into. -/
def hex_print (mem : List Nat) (buff : Ptr) (len : Int) : Option Unit :=
  match buff with
  | .arr off =>
    if ((off : Nat) : Int) + len ≤ ((mem.length : Nat) : Int) then some () else none
  | .lit s off =>
    if ((off : Nat) : Int) + len ≤ (((litBytes s ++ [0]).length : Nat) : Int) then some ()
    else none

/-- The `len` bytes starting at `data`, as `nn_send(socket, data, len, 0)`
transmits them; `none` when they are not all inside one object. -/
def view_bytes (mem : List Nat) (b : mybuff) : Option (List Nat) :=
  match b.data with
  | .arr off =>
    if off + size_t b.len ≤ mem.length then some ((mem.drop off).take (size_t b.len))
    else none
  | .lit s off =>
    if off + size_t b.len ≤ (litBytes s ++ [0]).length then
      some (((litBytes s ++ [0]).drop off).take (size_t b.len))
    else none

/-- An uninitialised `char[n]`: `n` cells of indeterminate content `junk`. -/
def uninit (n : Nat) (junk : Nat → Nat) : List Nat := (List.range n).map junk

/-! ## The bus -/

/-- The device behind `venice_fd`.  `rd fd count` is what the device has to
offer to a `read` of `count` bytes (`none`: the call fails) and the device
state after the call; `wr fd bytes count` is the value a `write` of the
`count` bytes `bytes` returns. -/
structure Bus (σ : Type) where
  rd : σ → Nat → Option (List Nat) × σ
  wr : σ → List Nat → Nat → Int × σ

/-- The system call `read(fd, dst, count)`: the return value, the bytes
delivered (never more than `count`) and the new device state. -/
def read {σ : Type} (B : Bus σ) (fd : σ) (count : Nat) : Int × List Nat × σ :=
  match B.rd fd count with
  | (none, fd1) => (-1, [], fd1)
  | (some bs, fd1) => ((((bs.take count).length : Nat) : Int), bs.take count, fd1)

/-- The system call `write(fd, src, count)` with `src` the array `buf` and
`count` an `int`, converted to `size_t` by the call: the value returned and
the new device state.  The call has no defined behaviour (`none`) when the
`count` bytes at `src` are not all inside the array; a negative `count`
converts to a `size_t` larger than every array. -/
def write {σ : Type} (B : Bus σ) (fd : σ) (buf : List Nat) (count : Int) : Option (Int × σ) :=
  if 0 ≤ count ∧ count ≤ ((buf.length : Nat) : Int) then
    some (B.wr fd (buf.take (size_t count)) (size_t count))
  else none

/-! ## read_dab_packet -/

/-- The error diagnostics `read_dab_packet` prints on `stderr`. -/
inductive Diag where
  | io_ac564230315f
  | buffer_not_large_enough
  | len_ne_packet_size (len : Int)
  | mismatch_396c73005fe1
  deriving DecidableEq, Repr

/-- The expression `(b0 << 8) + (b1 << 0)` on two `unsigned char` values
(lines 63-65 and 96-97). -/
def hdr16 (b0 b1 : Nat) : Nat := ((b0 % 256) <<< 8) + ((b1 % 256) <<< 0)

/-- What a call of `read_dab_packet` leaves behind: its return value, the
`struct mybuff`, the backing array, the device and the diagnostics printed. -/
structure Result (σ : Type) where
  ret : Int
  buff : mybuff
  mem : List Nat
  fd : σ
  err : List Diag

/-- Lines 71-75: the byte count of the consuming read. -/
def to_read (buff_len packet_size : Int) : Int :=
  if buff_len < packet_size + 2 then buff_len else packet_size + 2

/-- Lines 54-109.  The consuming `read` stores the bytes it delivers at
`buff->data`; the hex dump of line 82 then reads `to_read` bytes there. -/
def read_dab_packet {σ : Type} (B : Bus σ) (fd : σ) (mem : List Nat) (buff : mybuff) :
    Option (Result σ) :=
  match read B fd 2 with
  | (len, size, fd1) =>
    if len ≠ 2 then some ⟨11, buff, mem, fd1, [Diag.io_ac564230315f]⟩
    else
      let packet_size : Int := ((hdr16 (size.getD 0 0) (size.getD 1 0) : Nat) : Int)
      if packet_size ≤ 0 then some ⟨-EAGAIN, buff, mem, fd1, []⟩
      else
        let warn := if buff.len < packet_size + 2 then [Diag.buffer_not_large_enough] else []
        match read B fd1 (size_t (to_read buff.len packet_size)) with
        | (len2, bytes, fd2) =>
          match store mem buff.data bytes with
          | none => none
          | some mem2 =>
            match hex_print mem2 buff.data (to_read buff.len packet_size) with
            | none => none
            | some _ =>
              if len2 ≠ to_read buff.len packet_size then
                some ⟨22, ⟨Ptr.lit "error b398993f07ab len ≠ packet_size" 0,
                           strlen "error b398993f07ab len ≠ packet_size"⟩, mem2, fd2,
                      warn ++ [Diag.len_ne_packet_size len2]⟩
              else
                match load mem2 buff.data 0, load mem2 buff.data 1 with
                | some h0, some h1 =>
                  if packet_size ≠ ((hdr16 h0 h1 : Nat) : Int) then
                    some ⟨33, ⟨Ptr.lit "error 1175a1c05466 packet size mismatch" 0,
                               strlen "error 1175a1c05466 packet size mismatch"⟩, mem2, fd2,
                          warn ++ [Diag.mismatch_396c73005fe1]⟩
                  else
                    some ⟨0, ⟨buff.data.add 2, packet_size⟩, mem2, fd2, warn⟩
                | _, _ => none

/-! ## dab_flush -/

/-- One call of `read_dab_packet` as seen from a loop: the buffer passed in
and the value returned (`none` when the call has no defined behaviour). -/
abbrev Call := mybuff × Option Int

/-- How a loop over the bus ends: it returns, it runs into undefined
behaviour, or it is still running when the fuel is used up. -/
inductive Run (α : Type) where
  | done (a : α)
  | fault
  | more
  deriving DecidableEq, Repr

/-- Line 115: `while(read_dab_packet(fd, &buff) != -EAGAIN) { };`, with the
calls made so far in `calls`. -/
def flush_loop {σ : Type} (B : Bus σ) :
    Nat → σ → List Nat → mybuff → List Call → List Call × Run σ
  | 0, _, _, _, calls => (calls, Run.more)
  | fuel + 1, fd, mem, buff, calls =>
    match read_dab_packet B fd mem buff with
    | none => (calls ++ [(buff, none)], Run.fault)
    | some r =>
      if r.ret ≠ -EAGAIN then flush_loop B fuel r.fd r.mem r.buff (calls ++ [(buff, some r.ret)])
      else (calls ++ [(buff, some r.ret)], Run.done r.fd)

/-- Lines 111-116.  `_data` is an uninitialised local array; the function
returns nothing, so only the device state reaches the caller.  The first
component lists the calls of `read_dab_packet` it made. -/
def dab_flush {σ : Type} (B : Bus σ) (fuel : Nat) (fd : σ) (junk : Nat → Nat) :
    List Call × Run σ :=
  flush_loop B fuel fd (uninit 1024 junk) ⟨Ptr.arr 0, 1024⟩ []

/-! ## main -/

/-- Lines 173-176: `while(retries > 0 && (ret = read_dab_packet(venice_fd, buff)) == -EAGAIN) retries--;`
The result carries the final `ret`, buffer, array and device. -/
def await_loop {σ : Type} (B : Bus σ) :
    Nat → Int → σ → List Nat → mybuff → List Call → List Call × Option (Result σ)
  | 0, ret, fd, mem, buff, calls => (calls, some ⟨ret, buff, mem, fd, []⟩)
  | retries + 1, _, fd, mem, buff, calls =>
    match read_dab_packet B fd mem buff with
    | none => (calls ++ [(buff, none)], none)
    | some r =>
      if r.ret = -EAGAIN then
        await_loop B retries r.ret r.fd r.mem r.buff (calls ++ [(buff, some r.ret)])
      else (calls ++ [(buff, some r.ret)], some r)

/-- The variables of `main` that live across iterations of `while (1)`:
the device, `_dab_data[DAB_PACKET_MAX]` and `nnbuf[2048]`. -/
structure MainState (σ : Type) where
  fd : σ
  dab_data : List Nat
  nnbuf : List Nat

/-- What one iteration of `while (1)` hands to `nn_send`, with the trace of
the iteration: the bytes and count given to `write`, and the calls of
`read_dab_packet` made by the flush and by the retry loop. -/
structure Reply (σ : Type) where
  buff : mybuff
  payload : List Nat
  st : MainState σ
  wrote : List Nat
  count : Nat
  flush_calls : List Call
  await_calls : List Call

/-- How one iteration of `while (1)` ends. -/
inductive Step (σ : Type) where
  | abort
  | fault
  | more
  | reply (r : Reply σ)

/-- The library call `nn_recv(socket, &nnbuf[2], 2048 - 2, 0)`: `none` is a
failed receive (return value `-1`); for a message `m` it returns the length
of `m` and copies at most `2046` bytes of it. -/
def nn_recv (nnbuf : List Nat) (msg : Option (List Nat)) : Int × List Nat :=
  match msg with
  | none => (-1, nnbuf)
  | some m =>
    (((m.length : Nat) : Int),
      nnbuf.take 2 ++ m.take 2046 ++ nnbuf.drop (2 + (m.take 2046).length))

/-- Lines 178-185: the reply after the retry loop. -/
def finish {σ : Type} (st : MainState σ) (wrote : List Nat) (count : Nat)
    (fl aw : List Call) (ret : Int) (buff : mybuff) (mem : List Nat) (fd : σ) : Step σ :=
  let buff1 : mybuff :=
    if ret ≠ 0 then
      ⟨Ptr.lit "error: e0f172e4bf58 could not read dab packet" 0,
       strlen "error: e0f172e4bf58 could not read dab packet"⟩
    else buff
  match view_bytes mem buff1 with
  | none => Step.fault
  | some p => Step.reply ⟨buff1, p, ⟨fd, mem, st.nnbuf⟩, wrote, count, fl, aw⟩

/-- Lines 147-155: receive the request into `&nnbuf[2]` and prepend the
header.  `none` is the failed `assert(bytes >= 0)`; otherwise the new
content of `nnbuf` and the value of `bytes` after `bytes += 2`.  The shifts
are taken on the non-negative `bytes`; `bytes += 2` is taken without
wrap-around, a message being shorter than `2^31 - 2` bytes. -/
def recv_request (nnbuf : List Nat) (msg : Option (List Nat)) : Option (List Nat × Int) :=
  match nn_recv nnbuf msg with
  | (bytes, nnbuf1) =>
    if ¬ (bytes ≥ 0) then none
    else
      some ((nnbuf1.set 0 ((bytes.toNat >>> 8) &&& 0xFF)).set 1 ((bytes.toNat >>> 0) &&& 0xFF),
            bytes + 2)

/-- How lines 147-163 end: the assertion fails, the behaviour is undefined,
the flush is still running when the fuel is used up, or `write` has been
called on `nnbuf` with `bytes` and has returned `err`, the flush having made
the calls `fl`. -/
inductive Sent (σ : Type) where
  | abort
  | fault
  | more
  | wrote (nnbuf : List Nat) (bytes : Int) (fl : List Call) (err : Int) (fd : σ)

/-- Lines 147-163: the request is received and framed, dumped on `stderr`
(line 159), the device is flushed and the frame is written to it. -/
def send_request {σ : Type} (B : Bus σ) (fuel : Nat) (junk : Nat → Nat)
    (st : MainState σ) (msg : Option (List Nat)) : Sent σ :=
  match recv_request st.nnbuf msg with
  | none => Sent.abort
  | some (nnbuf, bytes) =>
    match hex_print nnbuf (Ptr.arr 0) bytes with
    | none => Sent.fault
    | some _ =>
      match dab_flush B fuel st.fd junk with
      | (_, Run.fault) => Sent.fault
      | (_, Run.more) => Sent.more
      | (fl, Run.done fd1) =>
        match write B fd1 nnbuf bytes with
        | none => Sent.fault
        | some (err, fd2) => Sent.wrote nnbuf bytes fl err fd2

/-- Lines 141-188: one iteration of `while (1)`.  `msg` is what arrives on
the socket, `fuel` bounds the flush loop, `junk` is the content of the
flusher's uninitialised array.  `ret` of line 172 is uninitialised; it is
assigned before it is read because `retries` starts at `10000`. -/
def main_iter {σ : Type} (B : Bus σ) (fuel : Nat) (junk : Nat → Nat)
    (st : MainState σ) (msg : Option (List Nat)) : Step σ :=
  let _dbuff : mybuff := ⟨Ptr.arr 0, DAB_PACKET_MAX⟩
  match send_request B fuel junk st msg with
  | Sent.abort => Step.abort
  | Sent.fault => Step.fault
  | Sent.more => Step.more
  | Sent.wrote nnbuf bytes fl err fd2 =>
    let wrote := nnbuf.take (size_t bytes)
    if err ≠ bytes then
      let buff1 : mybuff := ⟨Ptr.lit "error 676b897e8412" 0, strlen "error 676b897e8412"⟩
      match view_bytes st.dab_data buff1 with
      | none => Step.fault
      | some p =>
        Step.reply ⟨buff1, p, ⟨fd2, st.dab_data, nnbuf⟩, wrote, size_t bytes, fl, []⟩
    else
      match await_loop B 10000 0 fd2 st.dab_data _dbuff [] with
      | (_, none) => Step.fault
      | (aw, some r) =>
        finish ⟨fd2, st.dab_data, nnbuf⟩ wrote (size_t bytes) fl aw r.ret r.buff r.mem r.fd

/-- The reply of an iteration, when it sends one. -/
def Step.reply? {σ : Type} : Step σ → Option (Reply σ)
  | Step.reply r => some r
  | _ => none

/-! ## Two concrete devices -/

/-- A device that replays a script: every `read` takes the next entry of
`reads` (a failed call once the script is used up), every `write` returns
the next entry of `writes` (`-1` once used up). -/
structure Script where
  reads : List (Option (List Nat))
  writes : List Int
  deriving DecidableEq, Repr

/-- The bus of a `Script`. -/
def scriptBus : Bus Script where
  rd := fun s _ =>
    match s.reads with
    | [] => (none, s)
    | r :: rest => (r, ⟨rest, s.writes⟩)
  wr := fun s _ _ =>
    match s.writes with
    | [] => (-1, s)
    | w :: rest => (w, ⟨s.reads, rest⟩)

/-- The packet queue of the I2C device as lines 17-18 and 47-53 describe it:
a `read` returns the leading bytes of the packet at the head of the queue
and removes that packet only when it is read entirely; an empty queue
answers with the header `00 00`.  A `write` accepts every byte. -/
def queueBus : Bus (List (List Nat)) where
  rd := fun q count =>
    match q with
    | [] => (some [0, 0], [])
    | f :: rest => if f.length ≤ count then (some f, rest) else (some (f.take count), f :: rest)
  wr := fun q _ count => (((count : Nat) : Int), q)

/-- The frame `main` builds for the request `P` (lines 153-155): the two
header bytes followed by `P`. -/
def frame (P : List Nat) : List Nat :=
  [(P.length >>> 8) &&& 0xFF, (P.length >>> 0) &&& 0xFF] ++ P

/-! ## Recording the calls on the bus -/

/-- A call on the bus: a `read` with its byte count, or a `write` with the
bytes handed over and its byte count. -/
inductive Ev where
  | read (count : Nat)
  | write (bytes : List Nat) (count : Nat)
  deriving DecidableEq, Repr

/-- The bus `B` with a record of the calls made on it: every call answers as
`B` does and is appended to the record. -/
def logged {σ : Type} (B : Bus σ) : Bus (σ × List Ev) where
  rd := fun s count => ((B.rd s.1 count).1, ((B.rd s.1 count).2, s.2 ++ [Ev.read count]))
  wr := fun s bytes count =>
    ((B.wr s.1 bytes count).1, ((B.wr s.1 bytes count).2, s.2 ++ [Ev.write bytes count]))

/-! ## The return codes are distinct -/

theorem neg_EAGAIN_ne_zero : -EAGAIN ≠ 0 := by decide

theorem zero_ne_neg_EAGAIN : (0 : Int) ≠ -EAGAIN := by decide

theorem zero_ne_11 : (0 : Int) ≠ 11 := by decide

theorem c11_ne_zero : (11 : Int) ≠ 0 := by decide

theorem c11_ne_neg_EAGAIN : (11 : Int) ≠ -EAGAIN := by decide

theorem c22_ne_zero : (22 : Int) ≠ 0 := by decide

theorem c22_ne_neg_EAGAIN : (22 : Int) ≠ -EAGAIN := by decide

theorem c22_ne_11 : (22 : Int) ≠ 11 := by decide

theorem c33_ne_zero : (33 : Int) ≠ 0 := by decide

theorem c33_ne_neg_EAGAIN : (33 : Int) ≠ -EAGAIN := by decide

theorem c33_ne_11 : (33 : Int) ≠ 11 := by decide

/-! ## Basic facts -/

theorem size_t_natCast (n : Nat) (h : n < 18446744073709551616) : size_t (n : Int) = n := by
  unfold size_t; omega

theorem hdr16_eq (b0 b1 : Nat) : hdr16 b0 b1 = (b0 % 256) * 256 + b1 % 256 := by
  simp [hdr16, Nat.shiftLeft_eq]

theorem hdr16_lt (b0 b1 : Nat) : hdr16 b0 b1 < 65536 := by
  rw [hdr16_eq]; omega

theorem frame_hdr (n : Nat) (h : n < 65536) :
    hdr16 ((n >>> 8) &&& 0xFF) ((n >>> 0) &&& 0xFF) = n := by
  have h1 : (n >>> 8) &&& 0xFF = n / 256 % 256 := by
    rw [Nat.shiftRight_eq_div_pow]; exact Nat.and_pow_two_sub_one_eq_mod _ 8
  have h2 : (n >>> 0) &&& 0xFF = n % 256 := by
    simpa using Nat.and_pow_two_sub_one_eq_mod n 8
  rw [hdr16_eq, h1, h2]; omega

/-! ## read_dab_packet, case by case -/

theorem read_dab_packet_short_peek {σ : Type} (B : Bus σ) (fd fd1 : σ) (mem : List Nat)
    (buff : mybuff) (len : Int) (size : List Nat)
    (hpeek : read B fd 2 = (len, size, fd1)) (hlen : len ≠ 2) :
    read_dab_packet B fd mem buff = some ⟨11, buff, mem, fd1, [Diag.io_ac564230315f]⟩ := by
  simp [read_dab_packet, hpeek, hlen]

theorem read_dab_packet_nodata {σ : Type} (B : Bus σ) (fd fd1 : σ) (mem : List Nat)
    (buff : mybuff) (size : List Nat)
    (hpeek : read B fd 2 = (2, size, fd1))
    (hz : hdr16 (size.getD 0 0) (size.getD 1 0) = 0) :
    read_dab_packet B fd mem buff = some ⟨-EAGAIN, buff, mem, fd1, []⟩ := by
  simp only [read_dab_packet, hpeek, hz]
  simp

theorem read_dab_packet_body {σ : Type} (B : Bus σ) (fd fd1 fd2 : σ) (mem mem2 : List Nat)
    (buff : mybuff) (size bytes : List Nat) (len2 : Int)
    (hpeek : read B fd 2 = (2, size, fd1))
    (hpos : 0 < hdr16 (size.getD 0 0) (size.getD 1 0))
    (hread : read B fd1 (size_t (to_read buff.len (hdr16 (size.getD 0 0) (size.getD 1 0) : Nat)))
      = (len2, bytes, fd2))
    (hstore : store mem buff.data bytes = some mem2)
    (hdump : hex_print mem2 buff.data
      (to_read buff.len (hdr16 (size.getD 0 0) (size.getD 1 0) : Nat)) = some ()) :
    read_dab_packet B fd mem buff =
      if len2 ≠ to_read buff.len (hdr16 (size.getD 0 0) (size.getD 1 0) : Nat) then
        some ⟨22, ⟨Ptr.lit "error b398993f07ab len ≠ packet_size" 0,
                   strlen "error b398993f07ab len ≠ packet_size"⟩, mem2, fd2,
              (if buff.len < (hdr16 (size.getD 0 0) (size.getD 1 0) : Nat) + 2
                then [Diag.buffer_not_large_enough] else []) ++ [Diag.len_ne_packet_size len2]⟩
      else
        match load mem2 buff.data 0, load mem2 buff.data 1 with
        | some h0, some h1 =>
          if ((hdr16 (size.getD 0 0) (size.getD 1 0) : Nat) : Int) ≠ ((hdr16 h0 h1 : Nat) : Int) then
            some ⟨33, ⟨Ptr.lit "error 1175a1c05466 packet size mismatch" 0,
                       strlen "error 1175a1c05466 packet size mismatch"⟩, mem2, fd2,
                  (if buff.len < (hdr16 (size.getD 0 0) (size.getD 1 0) : Nat) + 2
                    then [Diag.buffer_not_large_enough] else []) ++ [Diag.mismatch_396c73005fe1]⟩
          else
            some ⟨0, ⟨buff.data.add 2, (hdr16 (size.getD 0 0) (size.getD 1 0) : Nat)⟩, mem2, fd2,
                  (if buff.len < (hdr16 (size.getD 0 0) (size.getD 1 0) : Nat) + 2
                    then [Diag.buffer_not_large_enough] else [])⟩
        | _, _ => none := by
  have hp : ¬ (((hdr16 (size.getD 0 0) (size.getD 1 0) : Nat) : Int) ≤ 0) := by omega
  simp only [read_dab_packet, hpeek, hread, hstore, hdump, hp]
  simp

/-! ## Memory lemmas -/

theorem hex_print_arr (mem : List Nat) (off : Nat) (len : Int)
    (h : ((off : Nat) : Int) + len ≤ ((mem.length : Nat) : Int)) :
    hex_print mem (Ptr.arr off) len = some () := by
  simp only [hex_print, if_pos h]

theorem stored_length (mem : List Nat) (off : Nat) (bs : List Nat)
    (h : off + bs.length ≤ mem.length) :
    (mem.take off ++ bs ++ mem.drop (off + bs.length)).length = mem.length := by
  simp; omega

theorem hex_print_stored (mem : List Nat) (off : Nat) (bs : List Nat) (len : Int)
    (hfit : off + bs.length ≤ mem.length)
    (h : ((off : Nat) : Int) + len ≤ ((mem.length : Nat) : Int)) :
    hex_print (mem.take off ++ bs ++ mem.drop (off + bs.length)) (Ptr.arr off) len = some () := by
  apply hex_print_arr
  rw [stored_length mem off bs hfit]
  exact h

theorem hex_print_stored_view (mem : List Nat) (off n L : Nat) (bs : List Nat)
    (hfit : off + bs.length ≤ mem.length) (hview : off + n ≤ mem.length) :
    hex_print (mem.take off ++ bs ++ mem.drop (off + bs.length)) (Ptr.arr off)
      (to_read (n : Int) (L : Int)) = some () := by
  apply hex_print_stored mem off bs _ hfit
  unfold to_read
  split <;> omega

theorem store_arr (mem : List Nat) (off : Nat) (bs : List Nat)
    (h : off + bs.length ≤ mem.length) :
    store mem (Ptr.arr off) bs = some (mem.take off ++ bs ++ mem.drop (off + bs.length)) := by
  unfold store
  by_cases hb : bs = []
  · subst hb; simp
  · simp [hb, h]

theorem load_stored (mem : List Nat) (off i : Nat) (bs : List Nat)
    (h : off ≤ mem.length) (hi : i < bs.length) :
    load (mem.take off ++ bs ++ mem.drop (off + bs.length)) (Ptr.arr off) i = bs[i]? := by
  have hl : (mem.take off).length = off := by simp [h]
  show (mem.take off ++ bs ++ mem.drop (off + bs.length))[off + i]? = bs[i]?
  rw [List.append_assoc, List.getElem?_append_right (by omega)]
  rw [hl, Nat.add_sub_cancel_left, List.getElem?_append_left hi]

theorem view_stored (mem : List Nat) (off L : Nat) (h0 h1 : Nat) (pl : List Nat)
    (hL : pl.length = L) (hfit : off + L + 2 ≤ mem.length) (hsz : L < 18446744073709551616) :
    view_bytes (mem.take off ++ (h0 :: h1 :: pl) ++ mem.drop (off + (h0 :: h1 :: pl).length))
      ⟨Ptr.arr (off + 2), (L : Int)⟩ = some pl := by
  have hl : (mem.take off).length = off := by simp; omega
  have hlen : (mem.take off ++ (h0 :: h1 :: pl) ++
      mem.drop (off + (h0 :: h1 :: pl).length)).length = mem.length := by
    simp; omega
  simp only [view_bytes, size_t_natCast L hsz, hlen]
  rw [if_pos (by omega)]
  congr 1
  have e : mem.take off ++ (h0 :: h1 :: pl) ++ mem.drop (off + (h0 :: h1 :: pl).length)
      = (mem.take off ++ [h0, h1]) ++ (pl ++ mem.drop (off + (h0 :: h1 :: pl).length)) := by
    simp
  rw [e, List.drop_left' (by simp [hl]), List.take_left' hL]

/-! ## A frame that fits -/

theorem read_dab_packet_frame {σ : Type} (B : Bus σ) (fd fd1 fd2 : σ) (mem : List Nat)
    (off : Nat) (len : Int) (size : List Nat) (L h0 h1 : Nat) (pl : List Nat)
    (hpeek : read B fd 2 = (2, size, fd1))
    (hL : hdr16 (size.getD 0 0) (size.getD 1 0) = L) (hpos : 0 < L)
    (hlen : (L : Int) + 2 ≤ len)
    (hread : read B fd1 (L + 2) = (((L + 2 : Nat) : Int), h0 :: h1 :: pl, fd2))
    (hpl : pl.length = L) (hhdr : hdr16 h0 h1 = L)
    (hfit : off + L + 2 ≤ mem.length) :
    read_dab_packet B fd mem ⟨Ptr.arr off, len⟩ =
      some ⟨0, ⟨Ptr.arr (off + 2), (L : Int)⟩,
        mem.take off ++ (h0 :: h1 :: pl) ++ mem.drop (off + (h0 :: h1 :: pl).length), fd2, []⟩ := by
  have hL16 : L < 65536 := hL ▸ hdr16_lt _ _
  have htr : to_read len (L : Int) = ((L + 2 : Nat) : Int) := by
    unfold to_read; rw [if_neg (by omega)]; push_cast; rfl
  have hst : store mem (Ptr.arr off) (h0 :: h1 :: pl) =
      some (mem.take off ++ (h0 :: h1 :: pl) ++ mem.drop (off + (h0 :: h1 :: pl).length)) :=
    store_arr mem off _ (by simp; omega)
  have hbody := read_dab_packet_body B fd fd1 fd2 mem _ ⟨Ptr.arr off, len⟩ size (h0 :: h1 :: pl)
    ((L + 2 : Nat) : Int) hpeek (by omega)
    (by rw [hL]; simp only []; rw [htr, size_t_natCast _ (by omega)]; exact hread)
    hst
    (by
      rw [hL]
      show hex_print _ (Ptr.arr off) (to_read len (L : Int)) = some ()
      rw [htr]
      exact hex_print_stored mem off _ _ (by simp; omega) (by simp; omega))
  rw [hbody, hL]
  simp only []
  rw [htr, if_neg (by simp)]
  rw [load_stored mem off 0 _ (by omega) (by simp), load_stored mem off 1 _ (by omega) (by simp)]
  simp only [List.getElem?_cons_zero, List.getElem?_cons_succ, hhdr]
  rw [if_neg (by simp), if_neg (by omega)]
  rfl

theorem uninit_length (n : Nat) (junk : Nat → Nat) : (uninit n junk).length = n := by
  simp [uninit]

theorem read_length_le {σ : Type} (B : Bus σ) (fd : σ) (count : Nat) :
    (read B fd count).2.1.length ≤ count := by
  unfold read
  split <;> simp

theorem load_arr_some (mem : List Nat) (off i : Nat) (h : off + i < mem.length) :
    ∃ b, load mem (Ptr.arr off) i = some b :=
  ⟨mem[off + i], by simp [load, h]⟩

theorem size_t_to_read_le (n L : Nat) : size_t (to_read (n : Int) (L : Int)) ≤ n := by
  unfold size_t to_read
  split <;> omega

theorem read_dab_packet_mismatch {σ : Type} (B : Bus σ) (fd fd1 fd2 : σ) (mem : List Nat)
    (off n : Nat) (size : List Nat) (h0 h1 : Nat) (rest : List Nat)
    (hpeek : read B fd 2 = (2, size, fd1))
    (hpos : 0 < hdr16 (size.getD 0 0) (size.getD 1 0))
    (hview : off + n ≤ mem.length)
    (hread : read B fd1 (size_t (to_read (n : Int) (hdr16 (size.getD 0 0) (size.getD 1 0) : Nat)))
      = (to_read (n : Int) (hdr16 (size.getD 0 0) (size.getD 1 0) : Nat), h0 :: h1 :: rest, fd2))
    (hne : hdr16 h0 h1 ≠ hdr16 (size.getD 0 0) (size.getD 1 0)) :
    read_dab_packet B fd mem ⟨Ptr.arr off, (n : Int)⟩ =
      some ⟨33, ⟨Ptr.lit "error 1175a1c05466 packet size mismatch" 0,
                 strlen "error 1175a1c05466 packet size mismatch"⟩,
        mem.take off ++ (h0 :: h1 :: rest) ++ mem.drop (off + (h0 :: h1 :: rest).length), fd2,
        (if (n : Int) < (hdr16 (size.getD 0 0) (size.getD 1 0) : Nat) + 2
          then [Diag.buffer_not_large_enough] else []) ++ [Diag.mismatch_396c73005fe1]⟩ := by
  have hbl := read_length_le B fd1
    (size_t (to_read (n : Int) (hdr16 (size.getD 0 0) (size.getD 1 0) : Nat)))
  rw [hread] at hbl
  have hle := size_t_to_read_le n (hdr16 (size.getD 0 0) (size.getD 1 0))
  have hfit : off + (h0 :: h1 :: rest).length ≤ mem.length := by
    have : (h0 :: h1 :: rest).length ≤ n := Nat.le_trans hbl hle
    omega
  rw [read_dab_packet_body B fd fd1 fd2 mem _ ⟨Ptr.arr off, (n : Int)⟩ size (h0 :: h1 :: rest) _
    hpeek hpos hread (store_arr mem off _ hfit) (hex_print_stored_view mem off n _ _ hfit hview)]
  rw [if_neg (by simp)]
  simp only []
  rw [load_stored mem off 0 _ (by omega) (by simp), load_stored mem off 1 _ (by omega) (by simp)]
  simp only [List.getElem?_cons_zero, List.getElem?_cons_succ]
  rw [if_pos (by omega)]

theorem load_stored_beyond (mem : List Nat) (off i : Nat) (bs : List Nat)
    (h : off + bs.length ≤ mem.length) (hi : bs.length ≤ i) :
    load (mem.take off ++ bs ++ mem.drop (off + bs.length)) (Ptr.arr off) i = mem[off + i]? := by
  have hl : (mem.take off ++ bs).length = off + bs.length := by simp; omega
  show (mem.take off ++ bs ++ mem.drop (off + bs.length))[off + i]? = mem[off + i]?
  rw [List.getElem?_append_right (by omega), hl, List.getElem?_drop]
  congr 1; omega

theorem uninit_getElem? (n i : Nat) (junk : Nat → Nat) (h : i < n) :
    (uninit n junk)[i]? = some (junk i) := by
  simp [uninit, h]

theorem read_dab_packet_store_fault {σ : Type} (B : Bus σ) (fd fd1 : σ) (mem : List Nat)
    (buff : mybuff) (size : List Nat)
    (hpeek : read B fd 2 = (2, size, fd1))
    (hpos : 0 < hdr16 (size.getD 0 0) (size.getD 1 0))
    (hstore : store mem buff.data
      (read B fd1 (size_t (to_read buff.len (hdr16 (size.getD 0 0) (size.getD 1 0) : Nat)))).2.1
      = none) :
    read_dab_packet B fd mem buff = none := by
  have hp : ¬ (((hdr16 (size.getD 0 0) (size.getD 1 0) : Nat) : Int) ≤ 0) := by omega
  simp only [read_dab_packet, hpeek, hstore, hp]
  simp

/-! ## The request and the write -/

theorem view_lit (mem : List Nat) (s : String) (h : (litBytes s).length < 18446744073709551616) :
    view_bytes mem ⟨Ptr.lit s 0, strlen s⟩ = some (litBytes s) := by
  simp only [view_bytes, strlen, size_t_natCast _ h]
  rw [if_pos (by simp)]
  simp

theorem recv_request_some (nnbuf : List Nat) (m : List Nat) (h : 2 ≤ nnbuf.length) :
    recv_request nnbuf (some m) =
      some ([(m.length >>> 8) &&& 0xFF, (m.length >>> 0) &&& 0xFF] ++ m.take 2046 ++
              nnbuf.drop (2 + (m.take 2046).length), (m.length : Int) + 2) := by
  match nnbuf, h with
  | a :: b :: rest, _ =>
    simp [recv_request, nn_recv]

theorem recv_request_none (nnbuf : List Nat) : recv_request nnbuf none = none := by
  simp [recv_request, nn_recv]

theorem recv_nnbuf_length (h0 h1 : Nat) (nn m : List Nat) (hnn : nn.length = 2048) :
    ([h0, h1] ++ m.take 2046 ++ nn.drop (2 + (m.take 2046).length)).length = 2048 := by
  simp only [List.length_append, List.length_drop, List.length_take, List.length_cons,
    List.length_nil, hnn]
  omega

theorem write_some {σ : Type} (B : Bus σ) (fd : σ) (buf : List Nat) (count : Int)
    (h0 : 0 ≤ count) (h : count ≤ ((buf.length : Nat) : Int)) :
    write B fd buf count = some (B.wr fd (buf.take (size_t count)) (size_t count)) := by
  simp only [write, if_pos (And.intro h0 h)]

theorem write_none {σ : Type} (B : Bus σ) (fd : σ) (buf : List Nat) (count : Int)
    (h : ((buf.length : Nat) : Int) < count) : write B fd buf count = none := by
  have hn : ¬ (0 ≤ count ∧ count ≤ ((buf.length : Nat) : Int)) := by omega
  simp only [write, if_neg hn]

theorem write_inv {σ : Type} (B : Bus σ) (fd : σ) (buf : List Nat) (count : Int) (x : Int × σ)
    (hw : write B fd buf count = some x) :
    0 ≤ count ∧ count ≤ ((buf.length : Nat) : Int) ∧
      x = B.wr fd (buf.take (size_t count)) (size_t count) := by
  unfold write at hw
  split at hw
  · rename_i hb
    simp only [Option.some.injEq] at hw
    exact ⟨hb.1, hb.2, hw.symm⟩
  · exact absurd hw (by simp)

theorem hex_print_some (buf : List Nat) (len : Int) (h : len ≤ ((buf.length : Nat) : Int)) :
    hex_print buf (Ptr.arr 0) len = some () :=
  hex_print_arr buf 0 len (by omega)

theorem send_request_wrote {σ : Type} (B : Bus σ) (fuel : Nat) (junk : Nat → Nat)
    (st : MainState σ) (msg : Option (List Nat)) (nnbuf : List Nat) (bytes err : Int)
    (fl : List Call) (fd1 fd2 : σ)
    (hrecv : recv_request st.nnbuf msg = some (nnbuf, bytes))
    (hflush : dab_flush B fuel st.fd junk = (fl, Run.done fd1))
    (hwrite : write B fd1 nnbuf bytes = some (err, fd2)) :
    send_request B fuel junk st msg = Sent.wrote nnbuf bytes fl err fd2 := by
  have hhex := hex_print_some nnbuf bytes (write_inv B fd1 nnbuf bytes _ hwrite).2.1
  simp only [send_request, hrecv, hhex, hflush, hwrite]

theorem send_request_inv {σ : Type} (B : Bus σ) (fuel : Nat) (junk : Nat → Nat)
    (st : MainState σ) (msg : Option (List Nat)) (nnbuf : List Nat) (bytes err : Int)
    (fl : List Call) (fd2 : σ)
    (h : send_request B fuel junk st msg = Sent.wrote nnbuf bytes fl err fd2) :
    recv_request st.nnbuf msg = some (nnbuf, bytes) ∧
      hex_print nnbuf (Ptr.arr 0) bytes = some () ∧
      ∃ fd1, dab_flush B fuel st.fd junk = (fl, Run.done fd1) ∧
        write B fd1 nnbuf bytes = some (err, fd2) := by
  simp only [send_request] at h
  rcases hrecv : recv_request st.nnbuf msg with _ | ⟨nnbuf1, bytes1⟩
  · simp only [hrecv] at h
    exact absurd h (by simp)
  · simp only [hrecv] at h
    rcases hhex : hex_print nnbuf1 (Ptr.arr 0) bytes1 with _ | u
    · simp only [hhex] at h
      exact absurd h (by simp)
    · simp only [hhex] at h
      rcases hfl : dab_flush B fuel st.fd junk with ⟨fl1, run⟩
      cases run with
      | fault => simp only [hfl] at h; exact absurd h (by simp)
      | more => simp only [hfl] at h; exact absurd h (by simp)
      | done fd1 =>
        simp only [hfl] at h
        rcases hw : write B fd1 nnbuf1 bytes1 with _ | ⟨err1, fd3⟩
        · simp only [hw] at h
          exact absurd h (by simp)
        · simp only [hw, Sent.wrote.injEq] at h
          obtain ⟨h1, h2, h3, h4, h5⟩ := h
          subst h1 h2 h3 h4 h5
          exact ⟨rfl, hhex, fd1, rfl, hw⟩

theorem send_request_abort {σ : Type} (B : Bus σ) (fuel : Nat) (junk : Nat → Nat)
    (st : MainState σ) (msg : Option (List Nat))
    (h : send_request B fuel junk st msg = Sent.abort) : recv_request st.nnbuf msg = none := by
  simp only [send_request] at h
  rcases hrecv : recv_request st.nnbuf msg with _ | ⟨nnbuf1, bytes1⟩
  · rfl
  · simp only [hrecv] at h
    rcases hhex : hex_print nnbuf1 (Ptr.arr 0) bytes1 with _ | u
    · simp only [hhex] at h
      exact absurd h (by simp)
    · simp only [hhex] at h
      rcases hfl : dab_flush B fuel st.fd junk with ⟨fl1, run⟩
      cases run with
      | fault => simp only [hfl] at h; exact absurd h (by simp)
      | more => simp only [hfl] at h; exact absurd h (by simp)
      | done fd1 =>
        simp only [hfl] at h
        rcases hw : write B fd1 nnbuf1 bytes1 with _ | ⟨err1, fd3⟩
        · simp only [hw] at h
          exact absurd h (by simp)
        · simp only [hw] at h
          exact absurd h (by simp)

theorem size_t_request (n : Nat) (h : n ≤ 2046) : size_t ((n : Int) + 2) = n + 2 := by
  have := size_t_natCast (n + 2) (by omega)
  simpa using this

theorem write_script_request (reads : List (Option (List Nat))) (w : Int) (rest : List Int)
    (nn m : List Nat) (hnn : nn.length = 2048) (hm : m.length ≤ 2046) :
    write scriptBus ⟨reads, w :: rest⟩
        ([(m.length >>> 8) &&& 0xFF, (m.length >>> 0) &&& 0xFF] ++ m.take 2046 ++
          nn.drop (2 + (m.take 2046).length)) ((m.length : Int) + 2)
      = some (w, ⟨reads, rest⟩) := by
  rw [write_some _ _ _ _ (by omega) (by rw [recv_nnbuf_length _ _ nn m hnn]; omega)]
  rfl

theorem write_queue_request (q : List (List Nat)) (nn m : List Nat) (hnn : nn.length = 2048)
    (hm : m.length ≤ 2046) :
    write queueBus q
        ([(m.length >>> 8) &&& 0xFF, (m.length >>> 0) &&& 0xFF] ++ m.take 2046 ++
          nn.drop (2 + (m.take 2046).length)) ((m.length : Int) + 2)
      = some ((m.length : Int) + 2, q) := by
  rw [write_some _ _ _ _ (by omega) (by rw [recv_nnbuf_length _ _ nn m hnn]; omega),
    size_t_request _ hm]
  show some ((((m.length + 2 : Nat) : Int)), q) = some ((m.length : Int) + 2, q)
  rw [Nat.cast_add]
  rfl

theorem main_iter_write_failed {σ : Type} (B : Bus σ) (fuel : Nat) (junk : Nat → Nat)
    (st : MainState σ) (msg : Option (List Nat)) (nnbuf : List Nat) (bytes err : Int)
    (fl : List Call) (fd1 fd2 : σ)
    (hrecv : recv_request st.nnbuf msg = some (nnbuf, bytes))
    (hflush : dab_flush B fuel st.fd junk = (fl, Run.done fd1))
    (hwrite : write B fd1 nnbuf bytes = some (err, fd2))
    (herr : err ≠ bytes) :
    main_iter B fuel junk st msg =
      Step.reply ⟨⟨Ptr.lit "error 676b897e8412" 0, strlen "error 676b897e8412"⟩,
        litBytes "error 676b897e8412", ⟨fd2, st.dab_data, nnbuf⟩,
        nnbuf.take (size_t bytes), size_t bytes, fl, []⟩ := by
  simp only [main_iter,
    send_request_wrote B fuel junk st msg nnbuf bytes err fl fd1 fd2 hrecv hflush hwrite]
  rw [if_pos herr, view_lit _ _ (by decide)]

theorem main_iter_written {σ : Type} (B : Bus σ) (fuel : Nat) (junk : Nat → Nat)
    (st : MainState σ) (msg : Option (List Nat)) (nnbuf : List Nat) (bytes : Int)
    (fl aw : List Call) (fd1 fd2 : σ) (r : Result σ)
    (hrecv : recv_request st.nnbuf msg = some (nnbuf, bytes))
    (hflush : dab_flush B fuel st.fd junk = (fl, Run.done fd1))
    (hwrite : write B fd1 nnbuf bytes = some (bytes, fd2))
    (hawait : await_loop B 10000 0 fd2 st.dab_data ⟨Ptr.arr 0, (DAB_PACKET_MAX : Nat)⟩ []
      = (aw, some r)) :
    main_iter B fuel junk st msg =
      finish ⟨fd2, st.dab_data, nnbuf⟩ (nnbuf.take (size_t bytes)) (size_t bytes) fl aw
        r.ret r.buff r.mem r.fd := by
  simp only [main_iter,
    send_request_wrote B fuel junk st msg nnbuf bytes bytes fl fd1 fd2 hrecv hflush hwrite,
    hawait]
  simp

theorem finish_error {σ : Type} (st : MainState σ) (wrote : List Nat) (count : Nat)
    (fl aw : List Call) (ret : Int) (buff : mybuff) (mem : List Nat) (fd : σ) (h : ret ≠ 0) :
    finish st wrote count fl aw ret buff mem fd =
      Step.reply ⟨⟨Ptr.lit "error: e0f172e4bf58 could not read dab packet" 0,
          strlen "error: e0f172e4bf58 could not read dab packet"⟩,
        litBytes "error: e0f172e4bf58 could not read dab packet",
        ⟨fd, mem, st.nnbuf⟩, wrote, count, fl, aw⟩ := by
  simp only [finish, if_pos h]
  rw [view_lit _ _ (by decide)]

theorem finish_ok {σ : Type} (st : MainState σ) (wrote : List Nat) (count : Nat)
    (fl aw : List Call) (buff : mybuff) (mem : List Nat) (fd : σ) (p : List Nat)
    (h : view_bytes mem buff = some p) :
    finish st wrote count fl aw 0 buff mem fd =
      Step.reply ⟨buff, p, ⟨fd, mem, st.nnbuf⟩, wrote, count, fl, aw⟩ := by
  simp [finish, h]

/-! ## The retry loop -/

theorem await_loop_stop {σ : Type} (B : Bus σ) (k : Nat) (ret : Int) (fd : σ) (mem : List Nat)
    (buff : mybuff) (calls : List Call) (r : Result σ)
    (h : read_dab_packet B fd mem buff = some r) (hr : r.ret ≠ -EAGAIN) :
    await_loop B (k + 1) ret fd mem buff calls = (calls ++ [(buff, some r.ret)], some r) := by
  simp [await_loop, h, hr]

theorem await_loop_nodata {σ : Type} (B : Bus σ) (N : Nat) :
    ∀ (s : Nat → σ) (k : Nat) (ret : Int) (mem : List Nat) (buff : mybuff) (calls : List Call),
    (∀ i, i < N → read B (s i) 2 = (2, [0, 0], s (i + 1))) →
    await_loop B (N + k) ret (s 0) mem buff calls =
      await_loop B k (if N = 0 then ret else -EAGAIN) (s N) mem buff
        (calls ++ List.replicate N (buff, some (-EAGAIN))) := by
  induction N with
  | zero => intro s k ret mem buff calls _; simp
  | succ N ih =>
    intro s k ret mem buff calls hN
    have h0 : read_dab_packet B (s 0) mem buff = some ⟨-EAGAIN, buff, mem, s 1, []⟩ :=
      read_dab_packet_nodata B (s 0) (s 1) mem buff [0, 0] (hN 0 (by omega)) (by decide)
    have e : N + 1 + k = (N + k) + 1 := by omega
    rw [e]
    simp only [await_loop, h0, if_true]
    rw [ih (fun i => s (i + 1)) k (-EAGAIN) mem buff _ (fun i hi => hN (i + 1) (by omega))]
    simp [List.replicate_succ]

theorem await_loop_timeout {σ : Type} (B : Bus σ) (N : Nat) (s : Nat → σ) (ret : Int)
    (mem : List Nat) (buff : mybuff) (hpos : 0 < N)
    (hN : ∀ i, i < N → read B (s i) 2 = (2, [0, 0], s (i + 1))) :
    await_loop B N ret (s 0) mem buff [] =
      (List.replicate N (buff, some (-EAGAIN)), some ⟨-EAGAIN, buff, mem, s N, []⟩) := by
  have h := await_loop_nodata B N s 0 ret mem buff [] hN
  rw [Nat.add_zero] at h
  rw [h, if_neg (by omega)]
  simp [await_loop]

theorem await_loop_after_nodata {σ : Type} (B : Bus σ) (N : Nat) (s : Nat → σ)
    (mem : List Nat) (buff : mybuff) (r : Result σ) (hlt : N < 10000)
    (hN : ∀ i, i < N → read B (s i) 2 = (2, [0, 0], s (i + 1)))
    (h : read_dab_packet B (s N) mem buff = some r) (hr : r.ret ≠ -EAGAIN) :
    await_loop B 10000 0 (s 0) mem buff [] =
      (List.replicate N (buff, some (-EAGAIN)) ++ [(buff, some r.ret)], some r) := by
  have e : 10000 = N + ((10000 - N - 1) + 1) := by omega
  rw [e, await_loop_nodata B N s _ 0 mem buff [] hN, await_loop_stop B _ _ _ _ _ _ r h hr]
  simp

/-! ## Unfolding the flush loop -/

theorem flush_loop_continue {σ : Type} (B : Bus σ) (fuel : Nat) (fd : σ) (mem : List Nat)
    (buff : mybuff) (calls : List Call) (r : Result σ)
    (h : read_dab_packet B fd mem buff = some r) (hr : r.ret ≠ -EAGAIN) :
    flush_loop B (fuel + 1) fd mem buff calls =
      flush_loop B fuel r.fd r.mem r.buff (calls ++ [(buff, some r.ret)]) := by
  simp only [flush_loop, h, hr, if_true, ne_eq, not_false_eq_true]

theorem flush_loop_done {σ : Type} (B : Bus σ) (fuel : Nat) (fd : σ) (mem : List Nat)
    (buff : mybuff) (calls : List Call) (r : Result σ)
    (h : read_dab_packet B fd mem buff = some r) (hr : r.ret = -EAGAIN) :
    flush_loop B (fuel + 1) fd mem buff calls = (calls ++ [(buff, some r.ret)], Run.done r.fd) := by
  simp only [flush_loop, h, hr, ne_eq, not_true_eq_false, if_false]

theorem flush_loop_fault {σ : Type} (B : Bus σ) (fuel : Nat) (fd : σ) (mem : List Nat)
    (buff : mybuff) (calls : List Call)
    (h : read_dab_packet B fd mem buff = none) :
    flush_loop B (fuel + 1) fd mem buff calls = (calls ++ [(buff, none)], Run.fault) := by
  simp only [flush_loop, h]

/-! ## The flusher on an empty queue -/

theorem dab_flush_nodata {σ : Type} (B : Bus σ) (fuel : Nat) (fd fd1 : σ) (junk : Nat → Nat)
    (h : read B fd 2 = (2, [0, 0], fd1)) :
    dab_flush B (fuel + 1) fd junk =
      ([(⟨Ptr.arr 0, 1024⟩, some (-EAGAIN))], Run.done fd1) := by
  simp [dab_flush, flush_loop, read_dab_packet_nodata B fd fd1 _ _ [0, 0] h (by decide)]

theorem strlen_timeout : strlen "error: e0f172e4bf58 could not read dab packet" = 45 := by decide

theorem strlen_write_failed : strlen "error 676b897e8412" = 18 := by decide

theorem main_iter_success {σ : Type} (B : Bus σ) (fuel : Nat) (junk : Nat → Nat)
    (fd0 : σ) (dab_data nn : List Nat) (msg : Option (List Nat)) (nnbuf : List Nat) (bytes : Int)
    (fl : List Call) (fd1 t u : σ) (s : Nat → σ) (N h0 h1 : Nat) (pl : List Nat)
    (hrecv : recv_request nn msg = some (nnbuf, bytes))
    (hflush : dab_flush B fuel fd0 junk = (fl, Run.done fd1))
    (hwrite : write B fd1 nnbuf bytes = some (bytes, s 0))
    (hmem : dab_data.length = DAB_PACKET_MAX)
    (hN : N < 10000)
    (hnodata : ∀ i, i < N → read B (s i) 2 = (2, [0, 0], s (i + 1)))
    (hpos : 0 < pl.length) (hhdr : hdr16 h0 h1 = pl.length)
    (hfit : pl.length + 2 ≤ DAB_PACKET_MAX)
    (hpeek : read B (s N) 2 = (2, [h0, h1], t))
    (hread : read B t (pl.length + 2) = (((pl.length + 2 : Nat) : Int), h0 :: h1 :: pl, u)) :
    main_iter B fuel junk ⟨fd0, dab_data, nn⟩ msg =
      Step.reply ⟨⟨Ptr.arr (0 + 2), (pl.length : Int)⟩, pl,
        ⟨u, dab_data.take 0 ++ (h0 :: h1 :: pl) ++ dab_data.drop (0 + (h0 :: h1 :: pl).length),
          nnbuf⟩,
        nnbuf.take (size_t bytes), size_t bytes, fl,
        List.replicate N (⟨Ptr.arr 0, (DAB_PACKET_MAX : Nat)⟩, some (-EAGAIN)) ++
          [(⟨Ptr.arr 0, (DAB_PACKET_MAX : Nat)⟩, some 0)]⟩ := by
  have hfit2 : 0 + pl.length + 2 ≤ dab_data.length := by rw [hmem]; omega
  have hcall := read_dab_packet_frame B (s N) t u dab_data 0 (DAB_PACKET_MAX : Nat) [h0, h1]
    pl.length h0 h1 pl hpeek (by simpa using hhdr) hpos
    (by have := hfit; simp only [DAB_PACKET_MAX] at this ⊢; omega) hread rfl hhdr hfit2
  have haw := await_loop_after_nodata B N s dab_data ⟨Ptr.arr 0, (DAB_PACKET_MAX : Nat)⟩ _ hN
    hnodata hcall zero_ne_neg_EAGAIN
  have hview := view_stored dab_data 0 pl.length h0 h1 pl rfl hfit2
    (by have := hfit; simp only [DAB_PACKET_MAX] at this; omega)
  rw [main_iter_written B fuel junk ⟨fd0, dab_data, nn⟩ msg nnbuf bytes fl _ fd1 (s 0) _ hrecv
    hflush hwrite haw]
  rw [finish_ok _ _ _ _ _ _ _ _ pl hview]

theorem take_frame (h0 h1 : Nat) (m rest : List Nat) (k : Nat) (hk : k = m.length + 2) :
    ([h0, h1] ++ m ++ rest).take k = [h0, h1] ++ m := by
  subst hk
  exact List.take_left' (by simp)

theorem main_iter_abort {σ : Type} (B : Bus σ) (fuel : Nat) (junk : Nat → Nat)
    (st : MainState σ) : main_iter B fuel junk st none = Step.abort := by
  simp only [main_iter, send_request, recv_request_none]

theorem main_iter_not_abort {σ : Type} (B : Bus σ) (fuel : Nat) (junk : Nat → Nat)
    (st : MainState σ) (msg : Option (List Nat)) (nnbuf : List Nat) (bytes : Int)
    (hrecv : recv_request st.nnbuf msg = some (nnbuf, bytes)) :
    main_iter B fuel junk st msg ≠ Step.abort := by
  intro h
  simp only [main_iter] at h
  rcases hs : send_request B fuel junk st msg with _ | _ | _ | ⟨nnbuf1, bytes1, fl, err, fd2⟩
  · have hn := send_request_abort B fuel junk st msg hs
    rw [hrecv] at hn
    exact absurd hn (by simp)
  · simp only [hs] at h
    exact absurd h (by simp)
  · simp only [hs] at h
    exact absurd h (by simp)
  · simp only [hs] at h
    split at h
    · split at h
      · exact absurd h (by simp)
      · exact absurd h (by simp)
    · split at h
      · exact absurd h (by simp)
      · simp only [finish] at h
        split at h
        · exact absurd h (by simp)
        · exact absurd h (by simp)

theorem main_iter_mismatch {σ : Type} (B : Bus σ) (fuel : Nat) (junk : Nat → Nat)
    (fd0 : σ) (dab_data nn : List Nat) (msg : Option (List Nat)) (nnbuf : List Nat) (bytes : Int)
    (fl : List Call) (fd1 t u : σ) (s : Nat → σ) (N : Nat) (size : List Nat) (h0 h1 : Nat)
    (rest : List Nat)
    (hrecv : recv_request nn msg = some (nnbuf, bytes))
    (hflush : dab_flush B fuel fd0 junk = (fl, Run.done fd1))
    (hwrite : write B fd1 nnbuf bytes = some (bytes, s 0))
    (hmem : dab_data.length = DAB_PACKET_MAX)
    (hN : N < 10000)
    (hnodata : ∀ i, i < N → read B (s i) 2 = (2, [0, 0], s (i + 1)))
    (hpeek : read B (s N) 2 = (2, size, t))
    (hpos : 0 < hdr16 (size.getD 0 0) (size.getD 1 0))
    (hread : read B t (size_t (to_read ((DAB_PACKET_MAX : Nat) : Int)
        (hdr16 (size.getD 0 0) (size.getD 1 0) : Nat)))
      = (to_read ((DAB_PACKET_MAX : Nat) : Int) (hdr16 (size.getD 0 0) (size.getD 1 0) : Nat),
          h0 :: h1 :: rest, u))
    (hne : hdr16 h0 h1 ≠ hdr16 (size.getD 0 0) (size.getD 1 0)) :
    main_iter B fuel junk ⟨fd0, dab_data, nn⟩ msg =
      Step.reply ⟨⟨Ptr.lit "error: e0f172e4bf58 could not read dab packet" 0,
          strlen "error: e0f172e4bf58 could not read dab packet"⟩,
        litBytes "error: e0f172e4bf58 could not read dab packet",
        ⟨u, dab_data.take 0 ++ (h0 :: h1 :: rest) ++
            dab_data.drop (0 + (h0 :: h1 :: rest).length), nnbuf⟩,
        nnbuf.take (size_t bytes), size_t bytes, fl,
        List.replicate N (⟨Ptr.arr 0, (DAB_PACKET_MAX : Nat)⟩, some (-EAGAIN)) ++
          [(⟨Ptr.arr 0, (DAB_PACKET_MAX : Nat)⟩, some 33)]⟩ := by
  have hcall := read_dab_packet_mismatch B (s N) t u dab_data 0 DAB_PACKET_MAX size h0 h1 rest
    hpeek hpos (by rw [hmem]; omega) hread hne
  have haw := await_loop_after_nodata B N s dab_data ⟨Ptr.arr 0, (DAB_PACKET_MAX : Nat)⟩ _ hN
    hnodata hcall c33_ne_neg_EAGAIN
  rw [main_iter_written B fuel junk ⟨fd0, dab_data, nn⟩ msg nnbuf bytes fl _ fd1 (s 0) _ hrecv
    hflush hwrite haw]
  rw [finish_error _ _ _ _ _ _ _ _ _ c33_ne_zero]

/-! ## The flusher on a view narrowed to one byte -/

theorem read_dab_packet_one_byte_view (mem : List Nat) (off : Nat) (h : off + 2 ≤ mem.length) :
    ∃ r, read_dab_packet queueBus [[0, 1, 0xAA]] mem ⟨Ptr.arr off, 1⟩ = some r ∧
      r.fd = [[0, 1, 0xAA]] ∧ r.mem.length = mem.length ∧
      ((r.ret = 0 ∧ r.buff = ⟨Ptr.arr (off + 2), 1⟩) ∨
        (r.ret = 33 ∧ r.buff = ⟨Ptr.lit "error 1175a1c05466 packet size mismatch" 0, 39⟩)) := by
  have hfit : off + ([0] : List Nat).length ≤ mem.length := by
    show off + 1 ≤ mem.length
    omega
  have hlen := stored_length mem off [0] hfit
  obtain ⟨b1, hb1⟩ := load_arr_some (mem.take off ++ [0] ++ mem.drop (off + ([0] : List Nat).length))
    off 1 (by rw [hlen]; omega)
  have hb0 := load_stored mem off 0 [0] (by omega) (by decide)
  have htr1 : to_read (1 : Int) ((hdr16 ([0, 1].getD 0 0) ([0, 1].getD 1 0) : Nat) : Int) = 1 := by
    decide
  have hdump : hex_print (mem.take off ++ [0] ++ mem.drop (off + ([0] : List Nat).length))
      (Ptr.arr off) (to_read (1 : Int) ((hdr16 ([0, 1].getD 0 0) ([0, 1].getD 1 0) : Nat) : Int))
      = some () :=
    hex_print_stored mem off [0] _ hfit (by rw [htr1]; omega)
  rw [read_dab_packet_body queueBus [[0, 1, 0xAA]] [[0, 1, 0xAA]] [[0, 1, 0xAA]] mem _
    ⟨Ptr.arr off, 1⟩ [0, 1] [0] 1 rfl (by decide) rfl (store_arr mem off [0] hfit) hdump]
  have htr : ¬ ((1 : Int) ≠ to_read (1 : Int) ((hdr16 ([0, 1].getD 0 0) ([0, 1].getD 1 0) : Nat) : Int)) := by
    decide
  rw [if_neg htr]
  simp only []
  rw [hb0, hb1]
  simp only [List.getElem?_cons_zero]
  by_cases hh : ((hdr16 ([0, 1].getD 0 0) ([0, 1].getD 1 0) : Nat) : Int) ≠ ((hdr16 0 b1 : Nat) : Int)
  · rw [if_pos hh]
    exact ⟨_, rfl, rfl, hlen, Or.inr ⟨rfl, rfl⟩⟩
  · rw [if_neg hh]
    exact ⟨_, rfl, rfl, hlen, Or.inl ⟨rfl, rfl⟩⟩

theorem flush_two_equal_packets_stuck (junk : Nat → Nat) :
    (dab_flush queueBus 3 [[0, 1, 0xAA], [0, 1, 0xAA]] junk).2 = Run.fault ∨
    (dab_flush queueBus 3 [[0, 1, 0xAA], [0, 1, 0xAA]] junk).2 = Run.more := by
  have hlen0 : (uninit 1024 junk).length = 1024 := uninit_length _ _
  have hfit1 : 0 + ([0, 1, 0xAA] : List Nat).length ≤ (uninit 1024 junk).length := by
    rw [hlen0]; decide
  have hlen1 := (stored_length _ 0 [0, 1, 0xAA] hfit1).trans hlen0
  have hcall1 : read_dab_packet queueBus [[0, 1, 0xAA], [0, 1, 0xAA]] (uninit 1024 junk)
      ⟨Ptr.arr 0, 1024⟩ = some ⟨0, ⟨Ptr.arr 2, 1⟩,
        (uninit 1024 junk).take 0 ++ [0, 1, 0xAA] ++
          (uninit 1024 junk).drop (0 + ([0, 1, 0xAA] : List Nat).length), [[0, 1, 0xAA]], []⟩ :=
    read_dab_packet_frame queueBus _ [[0, 1, 0xAA], [0, 1, 0xAA]] [[0, 1, 0xAA]] _ 0 1024
      [0, 1] 1 0 1 [0xAA] rfl (by decide) (by decide) (by decide) rfl rfl (by decide)
      (by rw [hlen0]; decide)
  obtain ⟨r2, hcall2, hfd2, hmem2, hcase2⟩ := read_dab_packet_one_byte_view
    ((uninit 1024 junk).take 0 ++ [0, 1, 0xAA] ++
      (uninit 1024 junk).drop (0 + ([0, 1, 0xAA] : List Nat).length)) 2 (by rw [hlen1]; decide)
  have hne2 : r2.ret ≠ -EAGAIN := by
    rcases hcase2 with ⟨h, _⟩ | ⟨h, _⟩
    · rw [h]; exact zero_ne_neg_EAGAIN
    · rw [h]; exact c33_ne_neg_EAGAIN
  have e1 := flush_loop_continue queueBus 2 _ _ _ [] _ hcall1 zero_ne_neg_EAGAIN
  have e2 := flush_loop_continue queueBus 1 [[0, 1, 0xAA]]
    ((uninit 1024 junk).take 0 ++ [0, 1, 0xAA] ++
      (uninit 1024 junk).drop (0 + ([0, 1, 0xAA] : List Nat).length)) ⟨Ptr.arr 2, 1⟩
    ([] ++ [(⟨Ptr.arr 0, 1024⟩, some 0)]) r2 hcall2 hne2
  have e12 : dab_flush queueBus 3 [[0, 1, 0xAA], [0, 1, 0xAA]] junk =
      flush_loop queueBus 1 r2.fd r2.mem r2.buff
        ([] ++ [(⟨Ptr.arr 0, 1024⟩, some 0)] ++ [(⟨Ptr.arr 2, 1⟩, some r2.ret)]) :=
    e1.trans e2
  rw [e12, hfd2]
  rcases hcase2 with ⟨_, hb⟩ | ⟨_, hb⟩
  · obtain ⟨r3, hcall3, _, _, hcase3⟩ := read_dab_packet_one_byte_view r2.mem (2 + 2)
      (by rw [hmem2, hlen1]; decide)
    have hne3 : r3.ret ≠ -EAGAIN := by
      rcases hcase3 with ⟨h, _⟩ | ⟨h, _⟩
      · rw [h]; exact zero_ne_neg_EAGAIN
      · rw [h]; exact c33_ne_neg_EAGAIN
    rw [hb, flush_loop_continue queueBus 0 _ _ _ _ r3 hcall3 hne3]
    exact Or.inr rfl
  · have hcall3 : read_dab_packet queueBus [[0, 1, 0xAA]] r2.mem
        ⟨Ptr.lit "error 1175a1c05466 packet size mismatch" 0, 39⟩ = none :=
      read_dab_packet_store_fault queueBus _ [[0, 1, 0xAA]] _ _ [0, 1] rfl (by decide) rfl
    rw [hb, flush_loop_fault queueBus 0 _ _ _ _ hcall3]
    exact Or.inl rfl

theorem flush_two_equal_packets_zeroes :
    dab_flush queueBus 3 [[0, 1, 0xAA], [0, 1, 0xAA]] (fun _ => 0) =
      ([(⟨Ptr.arr 0, 1024⟩, some 0), (⟨Ptr.arr 2, 1⟩, some 33),
        (⟨Ptr.lit "error 1175a1c05466 packet size mismatch" 0, 39⟩, none)], Run.fault) := by
  have hlen0 : (uninit 1024 (fun _ => 0)).length = 1024 := uninit_length _ _
  have hcall1 : read_dab_packet queueBus [[0, 1, 0xAA], [0, 1, 0xAA]] (uninit 1024 (fun _ => 0))
      ⟨Ptr.arr 0, 1024⟩ = some ⟨0, ⟨Ptr.arr 2, 1⟩,
        (uninit 1024 (fun _ => 0)).take 0 ++ [0, 1, 0xAA] ++
          (uninit 1024 (fun _ => 0)).drop (0 + 3), [[0, 1, 0xAA]], []⟩ :=
    read_dab_packet_frame queueBus _ [[0, 1, 0xAA], [0, 1, 0xAA]] [[0, 1, 0xAA]] _ 0 1024
      [0, 1] 1 0 1 [0xAA] rfl (by decide) (by decide) (by decide) rfl rfl (by decide)
      (by rw [hlen0]; decide)
  have hfit1 : 0 + ([0, 1, 0xAA] : List Nat).length ≤ (uninit 1024 (fun _ => 0)).length := by
    rw [hlen0]; decide
  have hlen1 : ((uninit 1024 (fun _ => 0)).take 0 ++ [0, 1, 0xAA] ++
      (uninit 1024 (fun _ => 0)).drop (0 + 3)).length = 1024 :=
    (stored_length _ 0 [0, 1, 0xAA] hfit1).trans hlen0
  have hfit2 : 2 + ([0] : List Nat).length ≤ ((uninit 1024 (fun _ => 0)).take 0 ++ [0, 1, 0xAA] ++
      (uninit 1024 (fun _ => 0)).drop (0 + 3)).length := by
    rw [hlen1]; decide
  have hl0 := load_stored ((uninit 1024 (fun _ => 0)).take 0 ++ [0, 1, 0xAA] ++
      (uninit 1024 (fun _ => 0)).drop (0 + 3)) 2 0 [0] (by rw [hlen1]; decide) (by decide)
  have hl1 := load_stored_beyond ((uninit 1024 (fun _ => 0)).take 0 ++ [0, 1, 0xAA] ++
      (uninit 1024 (fun _ => 0)).drop (0 + 3)) 2 1 [0] hfit2 (by decide)
  have hm3 : ((uninit 1024 (fun _ => 0)).take 0 ++ [0, 1, 0xAA] ++
      (uninit 1024 (fun _ => 0)).drop (0 + 3))[2 + 1]? = some 0 := by
    have h := load_stored_beyond (uninit 1024 (fun _ => 0)) 0 3 [0, 1, 0xAA] hfit1 (by decide)
    have h3 := uninit_getElem? 1024 3 (fun _ => 0) (by decide)
    exact h.trans h3
  rw [hm3] at hl1
  have hcall2 : read_dab_packet queueBus [[0, 1, 0xAA]]
      ((uninit 1024 (fun _ => 0)).take 0 ++ [0, 1, 0xAA] ++ (uninit 1024 (fun _ => 0)).drop (0 + 3))
      ⟨Ptr.arr 2, 1⟩ = some ⟨33, ⟨Ptr.lit "error 1175a1c05466 packet size mismatch" 0, 39⟩,
        ((uninit 1024 (fun _ => 0)).take 0 ++ [0, 1, 0xAA] ++
          (uninit 1024 (fun _ => 0)).drop (0 + 3)).take 2 ++ [0] ++
          ((uninit 1024 (fun _ => 0)).take 0 ++ [0, 1, 0xAA] ++
            (uninit 1024 (fun _ => 0)).drop (0 + 3)).drop (2 + 1), [[0, 1, 0xAA]],
        [Diag.buffer_not_large_enough, Diag.mismatch_396c73005fe1]⟩ := by
    have htr1 : to_read (1 : Int) ((hdr16 ([0, 1].getD 0 0) ([0, 1].getD 1 0) : Nat) : Int)
        = 1 := by decide
    have hdump : hex_print
        (((uninit 1024 (fun _ => 0)).take 0 ++ [0, 1, 0xAA] ++
          (uninit 1024 (fun _ => 0)).drop (0 + 3)).take 2 ++ [0] ++
          ((uninit 1024 (fun _ => 0)).take 0 ++ [0, 1, 0xAA] ++
            (uninit 1024 (fun _ => 0)).drop (0 + 3)).drop (2 + ([0] : List Nat).length))
        (Ptr.arr 2) (to_read (1 : Int) ((hdr16 ([0, 1].getD 0 0) ([0, 1].getD 1 0) : Nat) : Int))
        = some () :=
      hex_print_stored _ 2 [0] _ hfit2 (by rw [htr1, hlen1]; decide)
    rw [read_dab_packet_body queueBus [[0, 1, 0xAA]] [[0, 1, 0xAA]] [[0, 1, 0xAA]] _ _
      ⟨Ptr.arr 2, 1⟩ [0, 1] [0] 1
      rfl (by decide) rfl (store_arr _ 2 [0] hfit2) hdump]
    rw [if_neg (by decide)]
    simp only []
    rw [hl0, hl1]
    rfl
  have hcall3 : read_dab_packet queueBus [[0, 1, 0xAA]]
      (((uninit 1024 (fun _ => 0)).take 0 ++ [0, 1, 0xAA] ++
          (uninit 1024 (fun _ => 0)).drop (0 + 3)).take 2 ++ [0] ++
          ((uninit 1024 (fun _ => 0)).take 0 ++ [0, 1, 0xAA] ++
            (uninit 1024 (fun _ => 0)).drop (0 + 3)).drop (2 + 1))
      ⟨Ptr.lit "error 1175a1c05466 packet size mismatch" 0, 39⟩ = none :=
    read_dab_packet_store_fault queueBus _ [[0, 1, 0xAA]] _ _ [0, 1] rfl (by decide) rfl
  exact (flush_loop_continue queueBus 2 _ _ _ [] _ hcall1 zero_ne_neg_EAGAIN).trans
    ((flush_loop_continue queueBus 1 _ _ _ _ _ hcall2 c33_ne_neg_EAGAIN).trans
      (flush_loop_fault queueBus 0 _ _ _ _ hcall3))

/-! ## Facts about `read` -/

theorem read_logged {σ : Type} (B : Bus σ) (fd : σ) (log : List Ev) (count : Nat) :
    read (logged B) (fd, log) count =
      ((read B fd count).1, (read B fd count).2.1,
        ((read B fd count).2.2, log ++ [Ev.read count])) := by
  simp only [read, logged]
  rcases h : B.rd fd count with ⟨o, fd1⟩
  cases o <;> rfl

theorem read_len {σ : Type} (B : Bus σ) (fd : σ) (count : Nat) :
    ((read B fd count).1 = -1 ∧ (read B fd count).2.1 = []) ∨
      (read B fd count).1 = (((read B fd count).2.1.length : Nat) : Int) := by
  simp only [read]
  rcases h : B.rd fd count with ⟨o, fd1⟩
  cases o
  · exact Or.inl ⟨rfl, rfl⟩
  · exact Or.inr rfl

theorem to_read_eq_min (n L : Nat) : to_read (n : Int) (L : Int) = ((min (L + 2) n : Nat) : Int) := by
  unfold to_read
  split <;> omega

theorem size_t_to_read (n L : Nat) (hL : L < 65536) :
    size_t (to_read (n : Int) (L : Int)) = min (L + 2) n := by
  rw [to_read_eq_min]
  exact size_t_natCast _ (by omega)

theorem store_length (mem mem2 : List Nat) (p : Ptr) (bs : List Nat)
    (h : store mem p bs = some mem2) : mem2.length = mem.length := by
  unfold store at h
  split at h
  · simp only [Option.some.injEq] at h; rw [← h]
  · split at h
    · split at h
      · rename_i hfit
        simp only [Option.some.injEq] at h
        rw [← h]; exact stored_length mem _ bs hfit
      · exact absurd h (by simp)
    · exact absurd h (by simp)

/-! ## read_dab_packet: every way it can return -/

theorem read_dab_packet_inv {σ : Type} (B : Bus σ) (fd fd1 : σ) (mem : List Nat)
    (buff : mybuff) (r : Result σ) (len : Int) (size : List Nat)
    (hp : read B fd 2 = (len, size, fd1))
    (hr : read_dab_packet B fd mem buff = some r) :
    (len ≠ 2 ∧ r = ⟨11, buff, mem, fd1, [Diag.io_ac564230315f]⟩) ∨
    (len = 2 ∧ hdr16 (size.getD 0 0) (size.getD 1 0) = 0 ∧ r = ⟨-EAGAIN, buff, mem, fd1, []⟩) ∨
    (len = 2 ∧ 0 < hdr16 (size.getD 0 0) (size.getD 1 0) ∧
      (r.ret = 0 ∨ r.ret = 22 ∨ r.ret = 33) ∧
      r.fd = (read B fd1
        (size_t (to_read buff.len (hdr16 (size.getD 0 0) (size.getD 1 0) : Nat)))).2.2 ∧
      store mem buff.data (read B fd1
        (size_t (to_read buff.len (hdr16 (size.getD 0 0) (size.getD 1 0) : Nat)))).2.1
        = some r.mem) := by
  simp only [read_dab_packet, hp] at hr
  by_cases hlen : len = 2
  · subst hlen
    rw [if_neg (by simp)] at hr
    by_cases hz : ((hdr16 (size.getD 0 0) (size.getD 1 0) : Nat) : Int) ≤ 0
    · rw [if_pos hz] at hr
      simp only [Option.some.injEq] at hr
      exact Or.inr (Or.inl ⟨rfl, by omega, hr.symm⟩)
    · rw [if_neg hz] at hr
      refine Or.inr (Or.inr ⟨rfl, by omega, ?_⟩)
      rcases hc : read B fd1 (size_t (to_read buff.len (hdr16 (size.getD 0 0) (size.getD 1 0) : Nat)))
        with ⟨len2, bytes, fd2⟩
      simp only [hc] at hr
      split at hr
      · exact absurd hr (by simp)
      · rename_i mem2 hst
        split at hr
        · exact absurd hr (by simp)
        by_cases hl2 : len2 ≠ to_read buff.len (hdr16 (size.getD 0 0) (size.getD 1 0) : Nat)
        · rw [if_pos hl2] at hr
          simp only [Option.some.injEq] at hr
          subst hr
          exact ⟨Or.inr (Or.inl rfl), rfl, hst⟩
        · rw [if_neg hl2] at hr
          split at hr
          · rename_i b0 b1 _ _
            by_cases hh : ((hdr16 (size.getD 0 0) (size.getD 1 0) : Nat) : Int)
                ≠ ((hdr16 b0 b1 : Nat) : Int)
            · rw [if_pos hh] at hr
              simp only [Option.some.injEq] at hr
              subst hr
              exact ⟨Or.inr (Or.inr rfl), rfl, hst⟩
            · rw [if_neg hh] at hr
              simp only [Option.some.injEq] at hr
              subst hr
              exact ⟨Or.inl rfl, rfl, hst⟩
          · exact absurd hr (by simp)
  · rw [if_pos hlen] at hr
    simp only [Option.some.injEq] at hr
    exact Or.inl ⟨hlen, hr.symm⟩

theorem read_dab_packet_valid {σ : Type} (B : Bus σ) (fd fd1 fd2 : σ) (mem : List Nat)
    (off n : Nat) (size bytes : List Nat) (len2 : Int)
    (hview : off + n ≤ mem.length) (hhdr : off + 2 ≤ mem.length)
    (hp : read B fd 2 = (2, size, fd1))
    (hpos : 0 < hdr16 (size.getD 0 0) (size.getD 1 0))
    (hc : read B fd1 (size_t (to_read (n : Int) (hdr16 (size.getD 0 0) (size.getD 1 0) : Nat)))
      = (len2, bytes, fd2)) :
    off + bytes.length ≤ mem.length ∧ bytes.length ≤ n ∧
    ∃ h0 h1,
      load (mem.take off ++ bytes ++ mem.drop (off + bytes.length)) (Ptr.arr off) 0 = some h0 ∧
      load (mem.take off ++ bytes ++ mem.drop (off + bytes.length)) (Ptr.arr off) 1 = some h1 ∧
      read_dab_packet B fd mem ⟨Ptr.arr off, (n : Int)⟩ =
        if len2 ≠ to_read (n : Int) (hdr16 (size.getD 0 0) (size.getD 1 0) : Nat) then
          some ⟨22, ⟨Ptr.lit "error b398993f07ab len ≠ packet_size" 0,
                     strlen "error b398993f07ab len ≠ packet_size"⟩,
            mem.take off ++ bytes ++ mem.drop (off + bytes.length), fd2,
            (if (n : Int) < (hdr16 (size.getD 0 0) (size.getD 1 0) : Nat) + 2
              then [Diag.buffer_not_large_enough] else []) ++ [Diag.len_ne_packet_size len2]⟩
        else if ((hdr16 (size.getD 0 0) (size.getD 1 0) : Nat) : Int) ≠ ((hdr16 h0 h1 : Nat) : Int)
        then
          some ⟨33, ⟨Ptr.lit "error 1175a1c05466 packet size mismatch" 0,
                     strlen "error 1175a1c05466 packet size mismatch"⟩,
            mem.take off ++ bytes ++ mem.drop (off + bytes.length), fd2,
            (if (n : Int) < (hdr16 (size.getD 0 0) (size.getD 1 0) : Nat) + 2
              then [Diag.buffer_not_large_enough] else []) ++ [Diag.mismatch_396c73005fe1]⟩
        else
          some ⟨0, ⟨Ptr.arr (off + 2), (hdr16 (size.getD 0 0) (size.getD 1 0) : Nat)⟩,
            mem.take off ++ bytes ++ mem.drop (off + bytes.length), fd2,
            (if (n : Int) < (hdr16 (size.getD 0 0) (size.getD 1 0) : Nat) + 2
              then [Diag.buffer_not_large_enough] else [])⟩ := by
  have hbl := read_length_le B fd1
    (size_t (to_read (n : Int) (hdr16 (size.getD 0 0) (size.getD 1 0) : Nat)))
  rw [hc] at hbl
  have hle := size_t_to_read_le n (hdr16 (size.getD 0 0) (size.getD 1 0))
  have hbn : bytes.length ≤ n := Nat.le_trans hbl hle
  have hfit : off + bytes.length ≤ mem.length := by omega
  have hlen := stored_length mem off bytes hfit
  obtain ⟨h0, hh0⟩ := load_arr_some (mem.take off ++ bytes ++ mem.drop (off + bytes.length))
    off 0 (by omega)
  obtain ⟨h1, hh1⟩ := load_arr_some (mem.take off ++ bytes ++ mem.drop (off + bytes.length))
    off 1 (by omega)
  refine ⟨hfit, hbn, h0, h1, hh0, hh1, ?_⟩
  rw [read_dab_packet_body B fd fd1 fd2 mem _ ⟨Ptr.arr off, (n : Int)⟩ size bytes len2 hp hpos hc
    (store_arr mem off bytes hfit) (hex_print_stored_view mem off n _ bytes hfit hview)]
  simp only [hh0, hh1]
  rfl

/-! ## Calls on a view inside the array are defined -/

theorem read_dab_packet_defined {σ : Type} (B : Bus σ) (fd : σ) (mem : List Nat) (off n : Nat)
    (hview : off + n ≤ mem.length) (hhdr : off + 2 ≤ mem.length) :
    ∃ r, read_dab_packet B fd mem ⟨Ptr.arr off, (n : Int)⟩ = some r ∧
      r.mem.length = mem.length ∧
      (r.ret = -EAGAIN → r.buff = ⟨Ptr.arr off, (n : Int)⟩ ∧ r.mem = mem) ∧
      (r.ret = 0 → ∃ L : Nat, L < 65536 ∧ r.buff = ⟨Ptr.arr (off + 2), (L : Int)⟩) := by
  rcases hp : read B fd 2 with ⟨len, size, fd1⟩
  by_cases hlen : len = 2
  · subst hlen
    by_cases hz : hdr16 (size.getD 0 0) (size.getD 1 0) = 0
    · exact ⟨_, read_dab_packet_nodata B fd fd1 mem _ size hp hz, rfl, fun _ => ⟨rfl, rfl⟩,
        fun h => absurd h neg_EAGAIN_ne_zero⟩
    · rcases hc : read B fd1
        (size_t (to_read (n : Int) (hdr16 (size.getD 0 0) (size.getD 1 0) : Nat)))
        with ⟨len2, bytes, fd2⟩
      obtain ⟨hfit, _, h0, h1, _, _, hcall⟩ := read_dab_packet_valid B fd fd1 fd2 mem off n size
        bytes len2 hview hhdr hp (by omega) hc
      have hlen := stored_length mem off bytes hfit
      rw [hcall]
      split
      · exact ⟨_, rfl, hlen, fun h => absurd h c22_ne_neg_EAGAIN, fun h => absurd h c22_ne_zero⟩
      · split
        · exact ⟨_, rfl, hlen, fun h => absurd h c33_ne_neg_EAGAIN,
            fun h => absurd h c33_ne_zero⟩
        · exact ⟨_, rfl, hlen, fun h => absurd h zero_ne_neg_EAGAIN,
            fun _ => ⟨_, hdr16_lt _ _, rfl⟩⟩
  · exact ⟨_, read_dab_packet_short_peek B fd fd1 mem _ len size hp hlen, rfl,
      fun h => absurd h c11_ne_neg_EAGAIN, fun h => absurd h c11_ne_zero⟩

theorem await_loop_defined {σ : Type} (B : Bus σ) (n : Nat) (hn : 2 ≤ n) (retries : Nat) :
    ∀ (ret : Int) (fd : σ) (mem : List Nat) (calls : List Call), mem.length = n →
    (ret ≠ 0 ∨ 0 < retries) →
    ∃ aw res, await_loop B retries ret fd mem ⟨Ptr.arr 0, (n : Int)⟩ calls = (aw, some res) ∧
      res.mem.length = n ∧
      (res.ret = 0 → ∃ L : Nat, L < 65536 ∧ res.buff = ⟨Ptr.arr (0 + 2), (L : Int)⟩ ∧
        ∃ fd1 mem1, read_dab_packet B fd1 mem1 ⟨Ptr.arr 0, (n : Int)⟩ = some res) := by
  induction retries with
  | zero =>
    intro ret fd mem calls hmem hret
    have hne : ret ≠ 0 := hret.elim id (fun h => absurd h (by omega))
    exact ⟨_, _, rfl, hmem, fun h => absurd h hne⟩
  | succ k ih =>
    intro ret fd mem calls hmem _
    obtain ⟨r, hcall, hlen, hnd, hok⟩ := read_dab_packet_defined B fd mem 0 n (by omega) (by omega)
    simp only [await_loop, hcall]
    by_cases he : r.ret = -EAGAIN
    · rw [if_pos he]
      obtain ⟨hb, hm⟩ := hnd he
      rw [hb, hm]
      exact ih r.ret r.fd mem (calls ++ [(⟨Ptr.arr 0, (n : Int)⟩, some r.ret)]) hmem
        (Or.inl (by rw [he]; exact neg_EAGAIN_ne_zero))
    · rw [if_neg he]
      refine ⟨_, r, rfl, hlen.trans hmem, fun h0 => ?_⟩
      obtain ⟨L, hL, hb⟩ := hok h0
      exact ⟨L, hL, hb, fd, mem, hcall⟩

/-! ## Every received request is answered -/

theorem view_arr (mem : List Nat) (off L : Nat) (hL : L < 65536) :
    view_bytes mem ⟨Ptr.arr off, (L : Int)⟩ =
      if off + L ≤ mem.length then some ((mem.drop off).take L) else none := by
  simp only [view_bytes, size_t_natCast L (by omega)]

theorem main_iter_answers {σ : Type} (B : Bus σ) (fuel : Nat) (junk : Nat → Nat)
    (fd0 : σ) (dab_data nn m : List Nat) (fl : List Call) (fd1 : σ)
    (hnn : nn.length = 2048) (hm : m.length ≤ 2046) (hmem : dab_data.length = DAB_PACKET_MAX)
    (hflush : dab_flush B fuel fd0 junk = (fl, Run.done fd1)) :
    ∃ nnbuf err fd2,
      recv_request nn (some m) = some (nnbuf, (m.length : Int) + 2) ∧
      write B fd1 nnbuf ((m.length : Int) + 2) = some (err, fd2) ∧
      ((∃ r, main_iter B fuel junk ⟨fd0, dab_data, nn⟩ (some m) = Step.reply r) ∨
        (main_iter B fuel junk ⟨fd0, dab_data, nn⟩ (some m) = Step.fault ∧
          err = (m.length : Int) + 2 ∧
          ∃ aw res,
            await_loop B 10000 0 fd2 dab_data ⟨Ptr.arr 0, (DAB_PACKET_MAX : Nat)⟩ []
              = (aw, some res) ∧
            res.ret = 0 ∧ ((DAB_PACKET_MAX : Nat) : Int) < res.buff.len + 2)) := by
  have hrecv := recv_request_some nn m (by omega)
  have hlen2 := recv_nnbuf_length ((m.length >>> 8) &&& 0xFF) ((m.length >>> 0) &&& 0xFF) nn m hnn
  have hws := write_some B fd1 ([(m.length >>> 8) &&& 0xFF, (m.length >>> 0) &&& 0xFF] ++
      m.take 2046 ++ nn.drop (2 + (m.take 2046).length)) ((m.length : Int) + 2) (by omega)
      (by rw [hlen2]; omega)
  rcases hwr : B.wr fd1 (([(m.length >>> 8) &&& 0xFF, (m.length >>> 0) &&& 0xFF] ++
      m.take 2046 ++ nn.drop (2 + (m.take 2046).length)).take (size_t ((m.length : Int) + 2)))
      (size_t ((m.length : Int) + 2)) with ⟨err, fd2⟩
  rw [hwr] at hws
  refine ⟨_, err, fd2, hrecv, hws, ?_⟩
  by_cases herr : err ≠ (m.length : Int) + 2
  · exact Or.inl ⟨_, main_iter_write_failed B fuel junk ⟨fd0, dab_data, nn⟩ (some m) _ _ err fl
      fd1 fd2 hrecv hflush hws herr⟩
  · have herr2 : err = (m.length : Int) + 2 := not_not.mp herr
    subst herr2
    obtain ⟨aw, res, haw, hlen, hres⟩ := await_loop_defined B DAB_PACKET_MAX (by decide) 10000 0
      fd2 dab_data [] hmem (Or.inr (by decide))
    rw [main_iter_written B fuel junk ⟨fd0, dab_data, nn⟩ (some m) _ _ fl aw fd1 fd2 res hrecv
      hflush hws haw]
    by_cases h0 : res.ret = 0
    · obtain ⟨L, hL, hb, _, _, _⟩ := hres h0
      rw [h0, hb]
      by_cases hfit : 0 + 2 + L ≤ res.mem.length
      · have hv : view_bytes res.mem ⟨Ptr.arr (0 + 2), (L : Int)⟩
            = some ((res.mem.drop (0 + 2)).take L) := by
          rw [view_arr _ _ _ hL, if_pos hfit]
        exact Or.inl ⟨_, finish_ok _ _ _ _ _ _ _ _ _ hv⟩
      · refine Or.inr ⟨?_, rfl, aw, res, haw, h0, ?_⟩
        · simp only [finish, if_neg (not_not.mpr rfl), view_arr _ _ _ hL, if_neg hfit]
        · rw [hb]
          show ((DAB_PACKET_MAX : Nat) : Int) < (L : Int) + 2
          rw [hlen] at hfit
          omega
    · exact Or.inl ⟨_, finish_error _ _ _ _ _ _ _ _ _ h0⟩

/-! ## The peek -/

theorem read_logged_eq {σ : Type} (B : Bus σ) (fd fd1 : σ) (log : List Ev) (count : Nat)
    (len : Int) (bytes : List Nat) (h : read B fd count = (len, bytes, fd1)) :
    read (logged B) (fd, log) count = (len, bytes, (fd1, log ++ [Ev.read count])) := by
  rw [read_logged, h]

theorem peek_two_bytes {σ : Type} (B : Bus σ) (fd fd1 : σ) (size : List Nat)
    (h : read B fd 2 = (2, size, fd1)) : ∃ a b, size = [a, b] := by
  have hl := read_len B fd 2
  rw [h] at hl
  rcases hl with ⟨h1, _⟩ | h2
  · have h1' : (2 : Int) = -1 := h1
    exact absurd h1' (by decide)
  · have h3 : size.length = 2 := by
      have : ((2 : Nat) : Int) = ((size.length : Nat) : Int) := h2
      omega
    match size, h3 with
    | [a, b], _ => exact ⟨a, b, rfl⟩

theorem hdr16_eq_zero (a b : Nat) (ha : a < 256) (hb : b < 256) (h : hdr16 a b = 0) :
    a = 0 ∧ b = 0 := by
  rw [hdr16_eq] at h
  omega

theorem strlen_short_read : strlen "error b398993f07ab len ≠ packet_size" = 38 := by decide

/-! ## The flusher after a failed consuming read -/

theorem store_nil (mem : List Nat) (p : Ptr) : store mem p [] = some mem := by
  simp [store]

theorem flush_loop_after_failed_read (mem : List Nat) (hmem : 3 ≤ mem.length) :
    flush_loop scriptBus 2 ⟨[some [0, 1], none, some [0, 0]], []⟩ mem ⟨Ptr.arr 0, 1024⟩ [] =
      ([(⟨Ptr.arr 0, 1024⟩, some 22),
        (⟨Ptr.lit "error b398993f07ab len ≠ packet_size" 0, 38⟩, some (-EAGAIN))],
        Run.done ⟨[], []⟩) := by
  have hcall1 : read_dab_packet scriptBus ⟨[some [0, 1], none, some [0, 0]], []⟩ mem
      ⟨Ptr.arr 0, 1024⟩
      = some ⟨22, ⟨Ptr.lit "error b398993f07ab len ≠ packet_size" 0, 38⟩,
          mem, ⟨[some [0, 0]], []⟩, [Diag.len_ne_packet_size (-1)]⟩ := by
    rw [read_dab_packet_body scriptBus ⟨[some [0, 1], none, some [0, 0]], []⟩
      ⟨[none, some [0, 0]], []⟩ ⟨[some [0, 0]], []⟩ mem mem ⟨Ptr.arr 0, 1024⟩ [0, 1] [] (-1)
      rfl (by decide) rfl (store_nil _ _)
      (hex_print_arr mem 0 _ (by
        have e : to_read (1024 : Int) ((hdr16 ([0, 1].getD 0 0) ([0, 1].getD 1 0) : Nat) : Int)
            = 3 := by decide
        show ((0 : Nat) : Int) + to_read (1024 : Int)
          ((hdr16 ([0, 1].getD 0 0) ([0, 1].getD 1 0) : Nat) : Int) ≤ ((mem.length : Nat) : Int)
        rw [e]; omega))]
    have hne : (-1 : Int) ≠ to_read (1024 : Int)
        ((hdr16 ([0, 1].getD 0 0) ([0, 1].getD 1 0) : Nat) : Int) := by decide
    rw [if_pos hne, strlen_short_read]
    rfl
  have hcall2 : read_dab_packet scriptBus ⟨[some [0, 0]], []⟩ mem
      ⟨Ptr.lit "error b398993f07ab len ≠ packet_size" 0, 38⟩
      = some ⟨-EAGAIN, ⟨Ptr.lit "error b398993f07ab len ≠ packet_size" 0, 38⟩,
          mem, ⟨[], []⟩, []⟩ :=
    read_dab_packet_nodata scriptBus _ ⟨[], []⟩ _ _ [0, 0] rfl (by decide)
  exact (flush_loop_continue scriptBus 1 _ _ _ [] _ hcall1 c22_ne_neg_EAGAIN).trans
    (flush_loop_done scriptBus 0 _ _ _ _ _ hcall2 rfl)

theorem flush_after_failed_read :
    dab_flush scriptBus 2 ⟨[some [0, 1], none, some [0, 0]], []⟩ (fun _ => 0) =
      ([(⟨Ptr.arr 0, 1024⟩, some 22),
        (⟨Ptr.lit "error b398993f07ab len ≠ packet_size" 0, 38⟩, some (-EAGAIN))],
        Run.done ⟨[], []⟩) :=
  flush_loop_after_failed_read (uninit 1024 (fun _ => 0)) (by rw [uninit_length]; decide)

/-! ## The shape of the retry loop -/

theorem read_dab_packet_eagain {σ : Type} (B : Bus σ) (fd : σ) (mem : List Nat) (buff : mybuff)
    (r : Result σ) (hr : read_dab_packet B fd mem buff = some r) (he : r.ret = -EAGAIN) :
    r.buff = buff ∧ r.mem = mem := by
  rcases hp : read B fd 2 with ⟨len, size, fd1⟩
  rcases read_dab_packet_inv B fd fd1 mem buff r len size hp hr with
    ⟨_, h⟩ | ⟨_, _, h⟩ | ⟨_, _, hcodes, _⟩
  · rw [h] at he; exact absurd he c11_ne_neg_EAGAIN
  · rw [h]; exact ⟨rfl, rfl⟩
  · rcases hcodes with h | h | h
    · rw [h] at he; exact absurd he zero_ne_neg_EAGAIN
    · rw [h] at he; exact absurd he c22_ne_neg_EAGAIN
    · rw [h] at he; exact absurd he c33_ne_neg_EAGAIN

theorem read_dab_packet_mem_length {σ : Type} (B : Bus σ) (fd : σ) (mem : List Nat)
    (buff : mybuff) (r : Result σ) (hr : read_dab_packet B fd mem buff = some r) :
    r.mem.length = mem.length := by
  rcases hp : read B fd 2 with ⟨len, size, fd1⟩
  rcases read_dab_packet_inv B fd fd1 mem buff r len size hp hr with
    ⟨_, h⟩ | ⟨_, _, h⟩ | ⟨_, _, _, _, hst⟩
  · rw [h]
  · rw [h]
  · exact store_length _ _ _ _ hst

theorem await_loop_shape {σ : Type} (B : Bus σ) (retries : Nat) :
    ∀ (ret : Int) (fd : σ) (mem : List Nat) (buff : mybuff) (calls aw : List Call)
      (out : Option (Result σ)),
    await_loop B retries ret fd mem buff calls = (aw, out) →
    ∃ k, k ≤ retries ∧
      ((k = retries ∧ aw = calls ++ List.replicate k (buff, some (-EAGAIN)) ∧
          ∃ fd1, out = some ⟨if k = 0 then ret else -EAGAIN, buff, mem, fd1, []⟩) ∨
        (aw = calls ++ List.replicate k (buff, some (-EAGAIN)) ++ [(buff, none)] ∧ out = none) ∨
        (∃ fd1 res, aw = calls ++ List.replicate k (buff, some (-EAGAIN)) ++
            [(buff, some res.ret)] ∧ out = some res ∧ res.ret ≠ -EAGAIN ∧
          read_dab_packet B fd1 mem buff = some res)) := by
  induction retries with
  | zero =>
    intro ret fd mem buff calls aw out h
    simp only [await_loop, Prod.mk.injEq] at h
    exact ⟨0, Nat.le_refl _, Or.inl ⟨rfl, by simp [h.1], fd, by simp [h.2]⟩⟩
  | succ n ih =>
    intro ret fd mem buff calls aw out h
    simp only [await_loop] at h
    rcases hc : read_dab_packet B fd mem buff with _ | r
    · simp only [hc, Prod.mk.injEq] at h
      exact ⟨0, Nat.zero_le _, Or.inr (Or.inl ⟨by simp [h.1], h.2.symm⟩)⟩
    · simp only [hc] at h
      by_cases he : r.ret = -EAGAIN
      · rw [if_pos he] at h
        obtain ⟨hb, hm⟩ := read_dab_packet_eagain B fd mem buff r hc he
        rw [hb, hm, he] at h
        obtain ⟨k, hk, hcase⟩ := ih _ _ _ _ _ _ _ h
        refine ⟨k + 1, by omega, ?_⟩
        rcases hcase with ⟨hkn, haw, fd1, hout⟩ | ⟨haw, hout⟩ | ⟨fd1, res, haw, hout, hne, hcall⟩
        · refine Or.inl ⟨by omega, ?_, fd1, ?_⟩
          · rw [haw, List.replicate_succ]; simp
          · rw [hout]; simp
        · refine Or.inr (Or.inl ⟨?_, hout⟩)
          rw [haw, List.replicate_succ]; simp
        · refine Or.inr (Or.inr ⟨fd1, res, ?_, hout, hne, hcall⟩)
          rw [haw, List.replicate_succ]; simp
      · rw [if_neg he] at h
        simp only [Prod.mk.injEq] at h
        exact ⟨0, Nat.zero_le _, Or.inr (Or.inr ⟨fd, r, by simp [h.1], h.2.symm, he, hc⟩)⟩

/-! ## Where a reply comes from -/

theorem main_iter_reply_inv {σ : Type} (B : Bus σ) (fuel : Nat) (junk : Nat → Nat)
    (st : MainState σ) (msg : Option (List Nat)) (r : Reply σ)
    (h : main_iter B fuel junk st msg = Step.reply r) :
    ∃ nnbuf bytes fl fd1 err fd2,
      recv_request st.nnbuf msg = some (nnbuf, bytes) ∧
      dab_flush B fuel st.fd junk = (fl, Run.done fd1) ∧
      write B fd1 nnbuf bytes = some (err, fd2) ∧
      r.flush_calls = fl ∧
      ((err ≠ bytes ∧
          r.buff = ⟨Ptr.lit "error 676b897e8412" 0, strlen "error 676b897e8412"⟩ ∧
          r.await_calls = [] ∧ r.st = ⟨fd2, st.dab_data, nnbuf⟩) ∨
        (err = bytes ∧ ∃ res,
          await_loop B 10000 0 fd2 st.dab_data ⟨Ptr.arr 0, (DAB_PACKET_MAX : Nat)⟩ []
            = (r.await_calls, some res) ∧
          r.st = ⟨res.fd, res.mem, nnbuf⟩ ∧
          view_bytes res.mem r.buff = some r.payload ∧
          ((res.ret ≠ 0 ∧
              r.buff = ⟨Ptr.lit "error: e0f172e4bf58 could not read dab packet" 0,
                        strlen "error: e0f172e4bf58 could not read dab packet"⟩) ∨
            (res.ret = 0 ∧ r.buff = res.buff)))) := by
  simp only [main_iter] at h
  rcases hs : send_request B fuel junk st msg with _ | _ | _ | ⟨nnbuf, bytes, fl, err, fd2⟩
  · simp only [hs] at h
    exact absurd h (by simp)
  · simp only [hs] at h
    exact absurd h (by simp)
  · simp only [hs] at h
    exact absurd h (by simp)
  · simp only [hs] at h
    obtain ⟨hrecv, _, fd1, hfl, hw⟩ := send_request_inv B fuel junk st msg nnbuf bytes err fl fd2 hs
    refine ⟨nnbuf, bytes, fl, fd1, err, fd2, hrecv, hfl, hw, ?_⟩
    by_cases herr : err ≠ bytes
    · rw [if_pos herr] at h
      split at h
      · exact absurd h (by simp)
      · simp only [Step.reply.injEq] at h
        subst h
        exact ⟨rfl, Or.inl ⟨herr, rfl, rfl, rfl⟩⟩
    · rw [if_neg herr] at h
      rcases haw : await_loop B 10000 0 fd2 st.dab_data ⟨Ptr.arr 0, (DAB_PACKET_MAX : Nat)⟩ []
        with ⟨aw, out⟩
      cases out with
      | none => simp only [haw] at h; exact absurd h (by simp)
      | some res =>
        simp only [haw, finish] at h
        split at h
        · exact absurd h (by simp)
        · rename_i p hv
          simp only [Step.reply.injEq] at h
          subst h
          refine ⟨rfl, Or.inr ⟨not_not.mp herr, res, rfl, rfl, hv, ?_⟩⟩
          by_cases h0 : res.ret = 0
          · exact Or.inr ⟨h0, by simp [h0]⟩
          · exact Or.inl ⟨h0, by simp [h0]⟩

/-! ## The record of the bus during the retry loop -/

theorem read_dab_packet_log {σ : Type} (B : Bus σ) (fd : σ) (log : List Ev) (mem : List Nat)
    (buff : mybuff) (r : Result (σ × List Ev))
    (hr : read_dab_packet (logged B) (fd, log) mem buff = some r) :
    ∃ rs, r.fd.2 = log ++ rs ∧ ∀ e ∈ rs, ∃ c, e = Ev.read c := by
  have hp := read_logged B fd log 2
  rcases read_dab_packet_inv (logged B) (fd, log) _ mem buff r _ _ hp hr with
    ⟨_, h⟩ | ⟨_, _, h⟩ | ⟨_, _, _, hfd, _⟩
  · rw [h]
    exact ⟨[Ev.read 2], rfl, fun e he => ⟨2, List.mem_singleton.mp he⟩⟩
  · rw [h]
    exact ⟨[Ev.read 2], rfl, fun e he => ⟨2, List.mem_singleton.mp he⟩⟩
  · rw [hfd, read_logged]
    refine ⟨[Ev.read 2, Ev.read _], List.append_assoc _ _ _, ?_⟩
    intro e he
    rcases List.mem_cons.mp he with h1 | h2
    · exact ⟨_, h1⟩
    · exact ⟨_, List.mem_singleton.mp h2⟩

theorem await_loop_log {σ : Type} (B : Bus σ) (retries : Nat) :
    ∀ (ret : Int) (fd : σ) (log : List Ev) (mem : List Nat) (buff : mybuff)
      (calls aw : List Call) (res : Result (σ × List Ev)),
    await_loop (logged B) retries ret (fd, log) mem buff calls = (aw, some res) →
    ∃ rs, res.fd.2 = log ++ rs ∧ ∀ e ∈ rs, ∃ c, e = Ev.read c := by
  induction retries with
  | zero =>
    intro ret fd log mem buff calls aw res h
    simp only [await_loop, Prod.mk.injEq, Option.some.injEq] at h
    rw [← h.2]
    exact ⟨[], by simp, fun e he => absurd he (List.not_mem_nil e)⟩
  | succ n ih =>
    intro ret fd log mem buff calls aw res h
    simp only [await_loop] at h
    rcases hc : read_dab_packet (logged B) (fd, log) mem buff with _ | r
    · simp only [hc, Prod.mk.injEq] at h
      exact absurd h.2 (by simp)
    · simp only [hc] at h
      obtain ⟨rs1, h1, h2⟩ := read_dab_packet_log B fd log mem buff r hc
      by_cases he : r.ret = -EAGAIN
      · rw [if_pos he] at h
        obtain ⟨rs2, h3, h4⟩ := ih r.ret r.fd.1 r.fd.2 r.mem r.buff _ aw res h
        refine ⟨rs1 ++ rs2, by rw [h3, h1, List.append_assoc], ?_⟩
        intro e hmem
        rcases List.mem_append.mp hmem with ha | hb
        · exact h2 e ha
        · exact h4 e hb
      · rw [if_neg he] at h
        simp only [Prod.mk.injEq, Option.some.injEq] at h
        rw [← h.2]
        exact ⟨rs1, h1, h2⟩

theorem write_logged {σ : Type} (B : Bus σ) (fd : σ) (log : List Ev) (buf : List Nat)
    (count : Int) (x : Int × (σ × List Ev))
    (h : write (logged B) (fd, log) buf count = some x) :
    x = ((B.wr fd (buf.take (size_t count)) (size_t count)).1,
      ((B.wr fd (buf.take (size_t count)) (size_t count)).2,
        log ++ [Ev.write (buf.take (size_t count)) (size_t count)])) :=
  (write_inv (logged B) (fd, log) buf count x h).2.2

/-! ## The result codes and the buffer they come with -/

theorem read_dab_packet_codes {σ : Type} (B : Bus σ) (fd : σ) (mem : List Nat) (buff : mybuff)
    (r : Result σ) (hr : read_dab_packet B fd mem buff = some r) :
    (r.ret = 11 ∧ r.buff = buff) ∨ (r.ret = -EAGAIN ∧ r.buff = buff) ∨
    (r.ret = 0 ∧ r.buff.data = buff.data.add 2) ∨
    (r.ret = 22 ∧ r.buff.data = Ptr.lit "error b398993f07ab len ≠ packet_size" 0) ∨
    (r.ret = 33 ∧ r.buff.data = Ptr.lit "error 1175a1c05466 packet size mismatch" 0) := by
  rcases hp : read B fd 2 with ⟨len, size, fd1⟩
  simp only [read_dab_packet, hp] at hr
  by_cases hlen : len ≠ 2
  · rw [if_pos hlen] at hr
    simp only [Option.some.injEq] at hr
    subst hr
    exact Or.inl ⟨rfl, rfl⟩
  · rw [if_neg hlen] at hr
    by_cases hz : ((hdr16 (size.getD 0 0) (size.getD 1 0) : Nat) : Int) ≤ 0
    · rw [if_pos hz] at hr
      simp only [Option.some.injEq] at hr
      subst hr
      exact Or.inr (Or.inl ⟨rfl, rfl⟩)
    · rw [if_neg hz] at hr
      rcases hc : read B fd1 (size_t (to_read buff.len (hdr16 (size.getD 0 0) (size.getD 1 0) : Nat)))
        with ⟨len2, bytes, fd2⟩
      simp only [hc] at hr
      split at hr
      · exact absurd hr (by simp)
      · split at hr
        · exact absurd hr (by simp)
        by_cases hl2 : len2 ≠ to_read buff.len (hdr16 (size.getD 0 0) (size.getD 1 0) : Nat)
        · rw [if_pos hl2] at hr
          simp only [Option.some.injEq] at hr
          subst hr
          exact Or.inr (Or.inr (Or.inr (Or.inl ⟨rfl, rfl⟩)))
        · rw [if_neg hl2] at hr
          split at hr
          · rename_i b0 b1 _ _
            by_cases hh : ((hdr16 (size.getD 0 0) (size.getD 1 0) : Nat) : Int)
                ≠ ((hdr16 b0 b1 : Nat) : Int)
            · rw [if_pos hh] at hr
              simp only [Option.some.injEq] at hr
              subst hr
              exact Or.inr (Or.inr (Or.inr (Or.inr ⟨rfl, rfl⟩)))
            · rw [if_neg hh] at hr
              simp only [Option.some.injEq] at hr
              subst hr
              exact Or.inr (Or.inr (Or.inl ⟨rfl, rfl⟩))
          · exact absurd hr (by simp)

/-! ## Where the reply buffer points -/

theorem flush_loop_shape {σ : Type} (B : Bus σ) (fuel : Nat) :
    ∀ (fd : σ) (mem : List Nat) (buff : mybuff) (calls out : List Call) (run : Run σ),
    flush_loop B fuel fd mem buff calls = (out, run) →
    ∃ pre : List Call, (∀ c ∈ pre, ∃ v, c.2 = some v ∧ v ≠ -EAGAIN) ∧
      ((run = Run.more ∧ out = calls ++ pre ∧ pre.length = fuel) ∨
        (run = Run.fault ∧ pre.length < fuel ∧ ∃ b, out = calls ++ pre ++ [(b, none)]) ∨
        (∃ fd1, run = Run.done fd1 ∧ pre.length < fuel ∧
          ∃ b, out = calls ++ pre ++ [(b, some (-EAGAIN))])) := by
  induction fuel with
  | zero =>
    intro fd mem buff calls out run h
    simp only [flush_loop, Prod.mk.injEq] at h
    exact ⟨[], by simp, Or.inl ⟨h.2.symm, by simp [h.1], rfl⟩⟩
  | succ n ih =>
    intro fd mem buff calls out run h
    simp only [flush_loop] at h
    rcases hc : read_dab_packet B fd mem buff with _ | r
    · simp only [hc, Prod.mk.injEq] at h
      exact ⟨[], by simp, Or.inr (Or.inl ⟨h.2.symm, by simp, buff, by simp [h.1]⟩)⟩
    · simp only [hc] at h
      by_cases he : r.ret ≠ -EAGAIN
      · rw [if_pos he] at h
        obtain ⟨pre, hpre, hcase⟩ := ih _ _ _ _ _ _ h
        refine ⟨(buff, some r.ret) :: pre, ?_, ?_⟩
        · intro c hc'
          rcases List.mem_cons.mp hc' with h1 | h1
          · exact ⟨r.ret, by rw [h1], he⟩
          · exact hpre c h1
        · rcases hcase with ⟨hrun, hout, hlen⟩ | ⟨hrun, hlen, b, hout⟩ | ⟨fd1, hrun, hlen, b, hout⟩
          · exact Or.inl ⟨hrun, by rw [hout]; simp, by simp [hlen]⟩
          · exact Or.inr (Or.inl ⟨hrun, by simp; omega, b, by rw [hout]; simp⟩)
          · exact Or.inr (Or.inr ⟨fd1, hrun, by simp; omega, b, by rw [hout]; simp⟩)
      · rw [if_neg he] at h
        simp only [Prod.mk.injEq] at h
        have he' : r.ret = -EAGAIN := not_not.mp he
        exact ⟨[], by simp, Or.inr (Or.inr ⟨r.fd, h.2.symm, by simp, buff,
          by rw [← h.1, he']; simp⟩)⟩

theorem flush_loop_stable {σ : Type} (B : Bus σ) (fuel : Nat) :
    ∀ (fd : σ) (mem : List Nat) (buff : mybuff) (calls out : List Call) (fd1 : σ) (k : Nat),
    flush_loop B fuel fd mem buff calls = (out, Run.done fd1) →
    flush_loop B (fuel + k) fd mem buff calls = (out, Run.done fd1) := by
  induction fuel with
  | zero =>
    intro fd mem buff calls out fd1 k h
    simp only [flush_loop, Prod.mk.injEq] at h
    exact absurd h.2 (by simp)
  | succ n ih =>
    intro fd mem buff calls out fd1 k h
    have e : n + 1 + k = (n + k) + 1 := by omega
    rw [e]
    simp only [flush_loop] at h ⊢
    rcases hc : read_dab_packet B fd mem buff with _ | r
    · simp only [hc, Prod.mk.injEq] at h
      exact absurd h.2 (by simp)
    · simp only [hc] at h ⊢
      by_cases he : r.ret ≠ -EAGAIN
      · rw [if_pos he] at h ⊢
        exact ih _ _ _ _ _ _ k h
      · rw [if_neg he] at h ⊢
        exact h

theorem flush_loop_short_peeks {σ : Type} (B : Bus σ) (fuel : Nat) :
    ∀ (s : Nat → σ) (mem : List Nat) (buff : mybuff) (calls : List Call),
    (∀ i, i < fuel → (read B (s i) 2).1 ≠ 2 ∧ (read B (s i) 2).2.2 = s (i + 1)) →
    flush_loop B fuel (s 0) mem buff calls =
      (calls ++ List.replicate fuel (buff, some 11), Run.more) := by
  induction fuel with
  | zero => intro s mem buff calls _; simp [flush_loop]
  | succ n ih =>
    intro s mem buff calls hs
    obtain ⟨h1, h2⟩ := hs 0 (by omega)
    have hcall := read_dab_packet_short_peek B (s 0) (read B (s 0) 2).2.2 mem buff
      (read B (s 0) 2).1 (read B (s 0) 2).2.1 rfl h1
    rw [flush_loop_continue B n _ _ _ _ _ hcall c11_ne_neg_EAGAIN]
    simp only []
    rw [h2, ih (fun i => s (i + 1)) mem buff _ (fun i hi => hs (i + 1) (by omega))]
    simp [List.replicate_succ]

/-! ## The texts are distinct -/

theorem write_failed_ne_short_read :
    Ptr.lit "error 676b897e8412" 0 ≠ Ptr.lit "error b398993f07ab len ≠ packet_size" 0 := by
  decide

theorem write_failed_ne_mismatch :
    Ptr.lit "error 676b897e8412" 0 ≠ Ptr.lit "error 1175a1c05466 packet size mismatch" 0 := by
  decide

theorem timeout_ne_short_read :
    Ptr.lit "error: e0f172e4bf58 could not read dab packet" 0
      ≠ Ptr.lit "error b398993f07ab len ≠ packet_size" 0 := by
  decide

theorem timeout_ne_mismatch :
    Ptr.lit "error: e0f172e4bf58 could not read dab packet" 0
      ≠ Ptr.lit "error 1175a1c05466 packet size mismatch" 0 := by
  decide

theorem arr_ne_lit (off : Nat) (t : String) (k : Nat) : Ptr.arr off ≠ Ptr.lit t k := by
  intro h
  cases h

/-! ## The claims -/

/-- C1 as stated fails for the empty payload: the frame of `[]` is `00 00`,
the bus holds it as the claim requires, and `read_dab_packet` answers
`-EAGAIN` instead of `0`. -/
theorem C1_empty_payload_counterexample :
    ([] : List Nat).length ≤ 2046 ∧
    read scriptBus ⟨[some (frame []), some (frame [])], []⟩ 2
      = (2, (frame []).take 2, ⟨[some (frame [])], []⟩) ∧
    read scriptBus ⟨[some (frame [])], []⟩ (([] : List Nat).length + 2)
      = (2, frame [], ⟨[], []⟩) ∧
    (read_dab_packet scriptBus ⟨[some (frame []), some (frame [])], []⟩
      (uninit 4096 (fun _ => 0)) ⟨Ptr.arr 0, (DAB_PACKET_MAX : Nat)⟩).map Result.ret
      = some (-EAGAIN) := by
  refine ⟨by decide, rfl, rfl, ?_⟩
  rw [read_dab_packet_nodata scriptBus ⟨[some (frame []), some (frame [])], []⟩
    ⟨[some (frame [])], []⟩ _ _ [0, 0] rfl rfl]
  rfl

/-- C1 (amended): round trip.  For every payload `P` with
`1 ≤ len(P) ≤ 2046`, when the bus holds the frame `main` builds for `P` (the
2-byte peek returns its first two bytes, the consuming read all of its
`len(P) + 2` bytes), `read_dab_packet` on a fresh 4096-byte buffer returns
`0` and leaves a view of length `len(P)` whose bytes are exactly `P`. -/
theorem C1_round_trip {σ : Type} (B : Bus σ) (fd fd1 fd2 : σ) (mem : List Nat) (P : List Nat)
    (hne : 1 ≤ P.length) (hmax : P.length ≤ 2046) (hmem : mem.length = DAB_PACKET_MAX)
    (hpeek : read B fd 2 = (2, (frame P).take 2, fd1))
    (hread : read B fd1 (P.length + 2) = (((P.length + 2 : Nat) : Int), frame P, fd2)) :
    ∃ r, read_dab_packet B fd mem ⟨Ptr.arr 0, (DAB_PACKET_MAX : Nat)⟩ = some r ∧ r.ret = 0 ∧
      r.buff.len = (P.length : Int) ∧ view_bytes r.mem r.buff = some P := by
  have hdr : hdr16 (((frame P).take 2).getD 0 0) (((frame P).take 2).getD 1 0) = P.length := by
    simpa [frame] using frame_hdr P.length (by omega)
  have hd2 : hdr16 ((P.length >>> 8) &&& 0xFF) ((P.length >>> 0) &&& 0xFF) = P.length :=
    frame_hdr P.length (by omega)
  have hfit : 0 + P.length + 2 ≤ mem.length := by rw [hmem]; simp [DAB_PACKET_MAX]; omega
  have h := read_dab_packet_frame B fd fd1 fd2 mem 0 (DAB_PACKET_MAX : Nat) _ P.length
    ((P.length >>> 8) &&& 0xFF) ((P.length >>> 0) &&& 0xFF) P hpeek hdr hne
    (by simp [DAB_PACKET_MAX]; omega) hread rfl hd2 hfit
  refine ⟨_, h, rfl, rfl, ?_⟩
  exact view_stored mem 0 P.length _ _ P rfl hfit (by omega)

/-- C1, witness: the request `[1, 2, 3]` on a scripted bus. -/
theorem C1_round_trip_witness :
    ∃ r, read_dab_packet scriptBus ⟨[some [0, 3], some [0, 3, 1, 2, 3]], []⟩
        (uninit 4096 (fun _ => 0)) ⟨Ptr.arr 0, (DAB_PACKET_MAX : Nat)⟩ = some r ∧ r.ret = 0 ∧
      r.buff.len = 3 ∧ view_bytes r.mem r.buff = some [1, 2, 3] :=
  C1_round_trip scriptBus ⟨[some [0, 3], some [0, 3, 1, 2, 3]], []⟩
    ⟨[some [0, 3, 1, 2, 3]], []⟩ ⟨[], []⟩ (uninit 4096 (fun _ => 0)) [1, 2, 3]
    (by decide) (by decide) (uninit_length 4096 _) rfl rfl

/-- C3 as stated fails.  (1) A 4-byte view at offset 0 meets a packet of
declared length 5: the clamped read returns 4 bytes, that is 2 payload
bytes, yet the call returns `0` with `len = 5` and a view that ends at
offset `2 + 5 = 7`, outside the view `0 .. 4` passed in and larger than it.
(2) A 3-byte view meets a packet of declared length 1 whose consuming read
comes back short: the call returns `22` and the view becomes the 38-byte
diagnostic text. -/
theorem C3_view_grows_counterexample :
    (read scriptBus ⟨[some [0, 5, 1, 2, 3, 4, 5]], []⟩ 4 = (4, [0, 5, 1, 2], ⟨[], []⟩) ∧
      (read_dab_packet scriptBus ⟨[some [0, 5], some [0, 5, 1, 2, 3, 4, 5]], []⟩
        [7, 7, 7, 7, 7, 7, 7, 7] ⟨Ptr.arr 0, 4⟩).map (fun r => (r.ret, r.buff, r.mem))
        = some (0, ⟨Ptr.arr 2, 5⟩, [0, 5, 1, 2, 7, 7, 7, 7])) ∧
    (read_dab_packet scriptBus ⟨[some [0, 1], some [0, 1]], []⟩
        [7, 7, 7, 7, 7, 7, 7, 7] ⟨Ptr.arr 0, 3⟩).map (fun r => (r.ret, r.buff))
      = some (22, ⟨Ptr.lit "error b398993f07ab len ≠ packet_size" 0, 38⟩) := by
  refine ⟨⟨rfl, ?_⟩, ?_⟩
  · decide
  · decide

/-- C3 (amended): frame invariant.  Whenever `read_dab_packet` returns `0`
on a view with `declared_length + 2 ≤ buff.len` (the read is not clamped),
the `len` it stores is the declared length and equals the number of bytes
returned by the consuming read minus the 2 header bytes, and the resulting
view starts 2 bytes further and lies inside the view passed in; a call that
returns NoData or `11` leaves view and array as they were. -/
theorem C3_frame_invariant {σ : Type} (B : Bus σ) (fd : σ) (mem : List Nat) (off : Nat)
    (n : Int) (r : Result σ)
    (hr : read_dab_packet B fd mem ⟨Ptr.arr off, n⟩ = some r) :
    (r.ret = 0 →
      ((hdr16 ((read B fd 2).2.1.getD 0 0) ((read B fd 2).2.1.getD 1 0) : Nat) : Int) + 2 ≤ n →
      r.buff.data = Ptr.arr (off + 2) ∧
      r.buff.len = ((hdr16 ((read B fd 2).2.1.getD 0 0) ((read B fd 2).2.1.getD 1 0) : Nat) : Int) ∧
      r.buff.len = (read B (read B fd 2).2.2
        (hdr16 ((read B fd 2).2.1.getD 0 0) ((read B fd 2).2.1.getD 1 0) + 2)).1 - 2 ∧
      0 < r.buff.len ∧ ((off + 2 : Nat) : Int) + r.buff.len ≤ (off : Int) + n) ∧
    (r.ret = -EAGAIN ∨ r.ret = 11 → r.buff = ⟨Ptr.arr off, n⟩ ∧ r.mem = mem) := by
  rcases hp : read B fd 2 with ⟨len, size, fd1⟩
  simp only [read_dab_packet, hp] at hr
  simp only []
  have hL16 := hdr16_lt (size.getD 0 0) (size.getD 1 0)
  by_cases hlen : len = 2
  · subst hlen
    rw [if_neg (by simp)] at hr
    by_cases hz : ((hdr16 (size.getD 0 0) (size.getD 1 0) : Nat) : Int) ≤ 0
    · rw [if_pos hz] at hr
      simp only [Option.some.injEq] at hr
      subst hr
      exact ⟨fun h0 => absurd h0 neg_EAGAIN_ne_zero, fun _ => ⟨rfl, rfl⟩⟩
    · rw [if_neg hz] at hr
      rcases hc : read B fd1 (size_t (to_read n (hdr16 (size.getD 0 0) (size.getD 1 0) : Nat)))
        with ⟨len2, bytes, fd2⟩
      simp only [hc] at hr
      split at hr
      · exact absurd hr (by simp)
      · split at hr
        · exact absurd hr (by simp)
        by_cases hl2 : len2 ≠ to_read n (hdr16 (size.getD 0 0) (size.getD 1 0) : Nat)
        · rw [if_pos hl2] at hr
          simp only [Option.some.injEq] at hr
          subst hr
          exact ⟨fun h0 => absurd h0 c22_ne_zero,
            fun h => h.elim (fun h => absurd h c22_ne_neg_EAGAIN) (fun h => absurd h c22_ne_11)⟩
        · rw [if_neg hl2] at hr
          split at hr
          · rename_i b0 b1 _ _
            by_cases hh : ((hdr16 (size.getD 0 0) (size.getD 1 0) : Nat) : Int)
                ≠ ((hdr16 b0 b1 : Nat) : Int)
            · rw [if_pos hh] at hr
              simp only [Option.some.injEq] at hr
              subst hr
              exact ⟨fun h0 => absurd h0 c33_ne_zero,
                fun h => h.elim (fun h => absurd h c33_ne_neg_EAGAIN) (fun h => absurd h c33_ne_11)⟩
            · rw [if_neg hh] at hr
              simp only [Option.some.injEq] at hr
              subst hr
              refine ⟨fun _ hfit => ?_,
                fun h => h.elim (fun h => absurd h zero_ne_neg_EAGAIN) (fun h => absurd h zero_ne_11)⟩
              have htr : to_read n (hdr16 (size.getD 0 0) (size.getD 1 0) : Nat)
                  = ((hdr16 (size.getD 0 0) (size.getD 1 0) + 2 : Nat) : Int) := by
                unfold to_read; rw [if_neg (by omega)]; push_cast; rfl
              have hsz : size_t (to_read n (hdr16 (size.getD 0 0) (size.getD 1 0) : Nat))
                  = hdr16 (size.getD 0 0) (size.getD 1 0) + 2 := by
                rw [htr]; exact size_t_natCast _ (by omega)
              rw [hsz] at hc
              have hl2 : len2 = ((hdr16 (size.getD 0 0) (size.getD 1 0) + 2 : Nat) : Int) := by
                rw [← htr]; exact not_not.mp hl2
              refine ⟨rfl, rfl, ?_, ?_, ?_⟩
              · show ((hdr16 (size.getD 0 0) (size.getD 1 0) : Nat) : Int) = _
                rw [hc]; simp only []; rw [hl2]; push_cast; omega
              · show 0 < ((hdr16 (size.getD 0 0) (size.getD 1 0) : Nat) : Int)
                omega
              · show ((off + 2 : Nat) : Int) + ((hdr16 (size.getD 0 0) (size.getD 1 0) : Nat) : Int)
                  ≤ (off : Int) + n
                push_cast; omega
          · exact absurd hr (by simp)
  · rw [if_pos hlen] at hr
    simp only [Option.some.injEq] at hr
    subst hr
    exact ⟨fun h0 => absurd h0 c11_ne_zero, fun _ => ⟨rfl, rfl⟩⟩

/-- C3, witness: a fresh 8-byte view and the packet `00 02 AA BB`. -/
theorem C3_frame_invariant_witness :
    read_dab_packet scriptBus ⟨[some [0, 2], some [0, 2, 0xAA, 0xBB]], []⟩ [7, 7, 7, 7, 7, 7, 7, 7]
        ⟨Ptr.arr 0, 8⟩
      = some ⟨0, ⟨Ptr.arr 2, 2⟩, [0, 2, 0xAA, 0xBB, 7, 7, 7, 7], ⟨[], []⟩, []⟩ ∧
    ((⟨Ptr.arr 2, 2⟩ : mybuff).data = Ptr.arr (0 + 2) ∧
      (⟨Ptr.arr 2, 2⟩ : mybuff).len = ((2 : Nat) : Int) ∧
      (⟨Ptr.arr 2, 2⟩ : mybuff).len = (4 : Int) - 2 ∧
      0 < (⟨Ptr.arr 2, 2⟩ : mybuff).len ∧
      ((0 + 2 : Nat) : Int) + (⟨Ptr.arr 2, 2⟩ : mybuff).len ≤ ((0 : Nat) : Int) + 8) :=
  ⟨rfl,
    (C3_frame_invariant scriptBus ⟨[some [0, 2], some [0, 2, 0xAA, 0xBB]], []⟩
      [7, 7, 7, 7, 7, 7, 7, 7] 0 8
      ⟨0, ⟨Ptr.arr 2, 2⟩, [0, 2, 0xAA, 0xBB, 7, 7, 7, 7], ⟨[], []⟩, []⟩ rfl).1 rfl
      (by decide)⟩

/-- C5: request framing.  For every received request of `n` bytes with
`0 ≤ n ≤ 2046`, the receive step leaves `bytes = n + 2` and a buffer whose
first `n + 2` bytes are `[(n >> 8) & 0xFF, n & 0xFF]` followed by the request
bytes.  On the bus that records its calls, once the flush has returned with
the record `log1`, `main` calls `write` and the call recorded is the write of
exactly those `n + 2` bytes with the length `n + 2`; it is the only write of
the iteration: every iteration that replies leaves the record `log1`, that
write, and reads.  The iteration replies, unless the retry loop has returned
`0` for a packet whose declared length plus 2 exceeds the 4096 bytes of the
buffer. -/
theorem C5_request_framing {σ : Type} (B : Bus σ) (fuel : Nat) (junk : Nat → Nat)
    (fd0 fd1 : σ) (log0 log1 : List Ev) (dab_data nn m : List Nat) (fl : List Call)
    (hnn : nn.length = 2048) (hm : m.length ≤ 2046) (hmem : dab_data.length = DAB_PACKET_MAX)
    (hflush : dab_flush (logged B) fuel (fd0, log0) junk = (fl, Run.done (fd1, log1))) :
    ∃ nnbuf err fd2,
      recv_request nn (some m) = some (nnbuf, (m.length : Int) + 2) ∧
      nnbuf.take (m.length + 2) = [(m.length >>> 8) &&& 0xFF, m.length &&& 0xFF] ++ m ∧
      B.wr fd1 ([(m.length >>> 8) &&& 0xFF, m.length &&& 0xFF] ++ m) (m.length + 2)
        = (err, fd2) ∧
      send_request (logged B) fuel junk ⟨(fd0, log0), dab_data, nn⟩ (some m) =
        Sent.wrote nnbuf ((m.length : Int) + 2) fl err
          (fd2, log1 ++
            [Ev.write ([(m.length >>> 8) &&& 0xFF, m.length &&& 0xFF] ++ m) (m.length + 2)]) ∧
      ((∃ r rs, main_iter (logged B) fuel junk ⟨(fd0, log0), dab_data, nn⟩ (some m)
            = Step.reply r ∧
          r.st.fd.2 = log1 ++
            Ev.write ([(m.length >>> 8) &&& 0xFF, m.length &&& 0xFF] ++ m) (m.length + 2) :: rs ∧
          ∀ e ∈ rs, ∃ c, e = Ev.read c) ∨
        (main_iter (logged B) fuel junk ⟨(fd0, log0), dab_data, nn⟩ (some m) = Step.fault ∧
          ∃ aw res,
            await_loop (logged B) 10000 0
                (fd2, log1 ++
                  [Ev.write ([(m.length >>> 8) &&& 0xFF, m.length &&& 0xFF] ++ m)
                    (m.length + 2)])
                dab_data ⟨Ptr.arr 0, (DAB_PACKET_MAX : Nat)⟩ [] = (aw, some res) ∧
            res.ret = 0 ∧ ((DAB_PACKET_MAX : Nat) : Int) < res.buff.len + 2)) := by
  have hrecv := recv_request_some nn m (by omega)
  have hsz := size_t_request m.length hm
  have htake : m.take 2046 = m := List.take_of_length_le hm
  have hfr : ([(m.length >>> 8) &&& 0xFF, (m.length >>> 0) &&& 0xFF] ++ m.take 2046 ++
      nn.drop (2 + (m.take 2046).length)).take (m.length + 2)
      = [(m.length >>> 8) &&& 0xFF, m.length &&& 0xFF] ++ m := by
    rw [htake, take_frame _ _ m _ _ rfl, Nat.shiftRight_zero]
  obtain ⟨nnbuf, err, fd2, hrecv2, hw, hcases⟩ := main_iter_answers (logged B) fuel junk
    (fd0, log0) dab_data nn m fl (fd1, log1) hnn hm hmem hflush
  have hnb : nnbuf = [(m.length >>> 8) &&& 0xFF, (m.length >>> 0) &&& 0xFF] ++ m.take 2046 ++
      nn.drop (2 + (m.take 2046).length) := by
    rw [hrecv] at hrecv2
    simp only [Option.some.injEq, Prod.mk.injEq] at hrecv2
    exact hrecv2.1.symm
  have hx := write_logged B fd1 log1 nnbuf _ _ hw
  rw [hsz, hnb, hfr] at hx
  rw [← hnb] at hfr
  simp only [Prod.mk.injEq] at hx
  obtain ⟨herr, hfd2⟩ := hx
  refine ⟨nnbuf, err, _, hrecv2, hfr, Prod.ext herr.symm rfl, ?_, ?_⟩
  · rw [← hfd2]
    exact send_request_wrote (logged B) fuel junk ⟨(fd0, log0), dab_data, nn⟩ (some m) nnbuf _
      err fl (fd1, log1) fd2 hrecv2 hflush hw
  · rcases hcases with ⟨r, hr⟩ | ⟨hf, _, aw, res, haw, h0, hbig⟩
    · left
      obtain ⟨nnbuf3, bytes3, fl3, fd13, err3, fd23, hrecv3, hfl3, hw3, _, hcase3⟩ :=
        main_iter_reply_inv (logged B) fuel junk ⟨(fd0, log0), dab_data, nn⟩ (some m) r hr
      have hrecv4 : recv_request nn (some m) = some (nnbuf3, bytes3) := hrecv3
      rw [hrecv2] at hrecv4
      simp only [Option.some.injEq, Prod.mk.injEq] at hrecv4
      obtain ⟨e1, e2⟩ := hrecv4
      subst e1 e2
      have hfl4 : dab_flush (logged B) fuel (fd0, log0) junk = (fl3, Run.done fd13) := hfl3
      rw [hflush] at hfl4
      simp only [Prod.mk.injEq, Run.done.injEq] at hfl4
      obtain ⟨_, e3⟩ := hfl4
      subst e3
      rw [hw] at hw3
      simp only [Option.some.injEq, Prod.mk.injEq] at hw3
      obtain ⟨_, e4⟩ := hw3
      subst e4
      rcases hcase3 with ⟨_, _, _, hst⟩ | ⟨_, res, haw, hst, _⟩
      · refine ⟨r, [], hr, ?_, fun e he => absurd he (List.not_mem_nil e)⟩
        rw [hst]
        show fd2.2 = _
        rw [hfd2]
      · obtain ⟨rs, hlog, hreads⟩ := await_loop_log B 10000 0 fd2.1 fd2.2 dab_data _ [] _ res haw
        refine ⟨r, rs, hr, ?_, hreads⟩
        rw [hst]
        show res.fd.2 = _
        rw [hlog, hfd2]
        simp
    · right
      refine ⟨hf, aw, res, ?_, h0, hbig⟩
      rw [← hfd2]
      exact haw

/-- C5, witness: the request `[0x01, 0x02, 0x03]` on a device whose queue is
empty produces the bus write `[0x00, 0x03, 0x01, 0x02, 0x03]` of length 5,
after the read of the flush. -/
theorem C5_request_framing_witness :
    ∃ nnbuf err fd2,
      recv_request (uninit 2048 (fun _ => 0)) (some [0x01, 0x02, 0x03]) = some (nnbuf, 5) ∧
      nnbuf.take 5 = [0x00, 0x03, 0x01, 0x02, 0x03] ∧
      queueBus.wr [] [0x00, 0x03, 0x01, 0x02, 0x03] 5 = (err, fd2) ∧
      send_request (logged queueBus) 1 (fun _ => 0)
          ⟨([], []), uninit 4096 (fun _ => 0), uninit 2048 (fun _ => 0)⟩
          (some [0x01, 0x02, 0x03]) =
        Sent.wrote nnbuf 5 [(⟨Ptr.arr 0, 1024⟩, some (-EAGAIN))] err
          (fd2, [Ev.read 2, Ev.write [0x00, 0x03, 0x01, 0x02, 0x03] 5]) ∧
      ((∃ r rs, main_iter (logged queueBus) 1 (fun _ => 0)
            ⟨([], []), uninit 4096 (fun _ => 0), uninit 2048 (fun _ => 0)⟩
            (some [0x01, 0x02, 0x03]) = Step.reply r ∧
          r.st.fd.2 = [Ev.read 2] ++ Ev.write [0x00, 0x03, 0x01, 0x02, 0x03] 5 :: rs ∧
          ∀ e ∈ rs, ∃ c, e = Ev.read c) ∨
        (main_iter (logged queueBus) 1 (fun _ => 0)
            ⟨([], []), uninit 4096 (fun _ => 0), uninit 2048 (fun _ => 0)⟩
            (some [0x01, 0x02, 0x03]) = Step.fault ∧
          ∃ aw res,
            await_loop (logged queueBus) 10000 0
                (fd2, [Ev.read 2, Ev.write [0x00, 0x03, 0x01, 0x02, 0x03] 5])
                (uninit 4096 (fun _ => 0)) ⟨Ptr.arr 0, (DAB_PACKET_MAX : Nat)⟩ []
              = (aw, some res) ∧
            res.ret = 0 ∧ ((DAB_PACKET_MAX : Nat) : Int) < res.buff.len + 2)) :=
  C5_request_framing queueBus 1 (fun _ => 0) [] [] [] [Ev.read 2]
    (uninit 4096 (fun _ => 0)) (uninit 2048 (fun _ => 0)) [0x01, 0x02, 0x03]
    [(⟨Ptr.arr 0, 1024⟩, some (-EAGAIN))] (uninit_length 2048 _) (by decide)
    (uninit_length 4096 _) (dab_flush_nodata (logged queueBus) 0 ([], []) ([], [Ev.read 2]) _ rfl)

/-- C6: retry success.  After a successful write, if the bus answers the
first `N < 10000` polls with NoData (peek `00 00`) and the next poll with a
valid frame that fits the 4096-byte buffer, the retry loop makes exactly
`N + 1` calls of `read_dab_packet` and the reply handed to `nn_send` is
exactly the payload of that frame, with `len = declared_length`. -/
theorem C6_retry_success {σ : Type} (B : Bus σ) (fuel : Nat) (junk : Nat → Nat)
    (fd0 : σ) (dab_data nn : List Nat) (msg : Option (List Nat)) (nnbuf : List Nat) (bytes : Int)
    (fl : List Call) (fd1 t u : σ) (s : Nat → σ) (N h0 h1 : Nat) (pl : List Nat)
    (hrecv : recv_request nn msg = some (nnbuf, bytes))
    (hflush : dab_flush B fuel fd0 junk = (fl, Run.done fd1))
    (hwrite : write B fd1 nnbuf bytes = some (bytes, s 0))
    (hmem : dab_data.length = DAB_PACKET_MAX)
    (hN : N < 10000)
    (hnodata : ∀ i, i < N → read B (s i) 2 = (2, [0, 0], s (i + 1)))
    (hpos : 0 < pl.length) (hhdr : hdr16 h0 h1 = pl.length)
    (hfit : pl.length + 2 ≤ DAB_PACKET_MAX)
    (hpeek : read B (s N) 2 = (2, [h0, h1], t))
    (hread : read B t (pl.length + 2) = (((pl.length + 2 : Nat) : Int), h0 :: h1 :: pl, u)) :
    ∃ r, main_iter B fuel junk ⟨fd0, dab_data, nn⟩ msg = Step.reply r ∧
      r.await_calls.length = N + 1 ∧
      r.payload = pl ∧ r.buff.len = (pl.length : Int) := by
  refine ⟨_, main_iter_success B fuel junk fd0 dab_data nn msg nnbuf bytes fl fd1 t u s N h0 h1 pl
    hrecv hflush hwrite hmem hN hnodata hpos hhdr hfit hpeek hread, ?_, rfl, rfl⟩
  show (List.replicate N _ ++ [_]).length = N + 1
  rw [List.length_append, List.length_replicate]; rfl

/-- C6, witness: the request `[1, 2, 3]`, one empty poll, then peek
`00 02` and consuming read `00 02 AA BB`: two calls, reply `AA BB`. -/
theorem C6_retry_success_witness :
    ∃ r, main_iter scriptBus 1 (fun _ => 0)
        ⟨⟨[some [0, 0], some [0, 0], some [0, 2], some [0, 2, 0xAA, 0xBB]], [5]⟩,
          uninit 4096 (fun _ => 0), uninit 2048 (fun _ => 0)⟩ (some [1, 2, 3]) = Step.reply r ∧
      r.await_calls.length = 1 + 1 ∧
      r.payload = [0xAA, 0xBB] ∧ r.buff.len = (([0xAA, 0xBB] : List Nat).length : Int) := by
  have hrecv := recv_request_some (uninit 2048 (fun _ => 0)) [1, 2, 3]
    (by rw [uninit_length]; decide)
  exact C6_retry_success scriptBus 1 (fun _ => 0)
    ⟨[some [0, 0], some [0, 0], some [0, 2], some [0, 2, 0xAA, 0xBB]], [5]⟩
    (uninit 4096 (fun _ => 0)) (uninit 2048 (fun _ => 0)) (some [1, 2, 3]) _ _ _
    ⟨[some [0, 0], some [0, 2], some [0, 2, 0xAA, 0xBB]], [5]⟩
    ⟨[some [0, 2, 0xAA, 0xBB]], []⟩ ⟨[], []⟩
    (fun i => ⟨List.drop i [some [0, 0], some [0, 2], some [0, 2, 0xAA, 0xBB]], []⟩)
    1 0 2 [0xAA, 0xBB] hrecv
    (dab_flush_nodata scriptBus 0 _ _ _ rfl)
    (write_script_request _ 5 [] (uninit 2048 (fun _ => 0)) [1, 2, 3] (uninit_length 2048 _)
      (by decide))
    (uninit_length 4096 _) (by decide)
    (fun i hi => by
      have hi0 : i = 0 := by omega
      subst hi0; rfl)
    (by decide) (by decide) (by decide) rfl rfl

/-- C7: retry exhaustion.  After a successful write, if every one of the
`10000` polls is answered with NoData, the retry loop ends after exactly
`10000` calls of `read_dab_packet`, all returning `-EAGAIN`, and the reply is
the timeout text `error: e0f172e4bf58 could not read dab packet` with `len`
its string length (45). -/
theorem C7_retry_exhaustion {σ : Type} (B : Bus σ) (fuel : Nat) (junk : Nat → Nat)
    (fd0 : σ) (dab_data nn : List Nat) (msg : Option (List Nat)) (nnbuf : List Nat) (bytes : Int)
    (fl : List Call) (fd1 : σ) (s : Nat → σ)
    (hrecv : recv_request nn msg = some (nnbuf, bytes))
    (hflush : dab_flush B fuel fd0 junk = (fl, Run.done fd1))
    (hwrite : write B fd1 nnbuf bytes = some (bytes, s 0))
    (hnodata : ∀ i, i < 10000 → read B (s i) 2 = (2, [0, 0], s (i + 1))) :
    ∃ r, main_iter B fuel junk ⟨fd0, dab_data, nn⟩ msg = Step.reply r ∧
      r.await_calls.length = 10000 ∧
      (∀ c ∈ r.await_calls, c.2 = some (-EAGAIN)) ∧
      r.buff = ⟨Ptr.lit "error: e0f172e4bf58 could not read dab packet" 0, 45⟩ ∧
      r.buff.len = strlen "error: e0f172e4bf58 could not read dab packet" ∧
      r.payload = litBytes "error: e0f172e4bf58 could not read dab packet" := by
  have haw := await_loop_timeout B 10000 s 0 dab_data ⟨Ptr.arr 0, (DAB_PACKET_MAX : Nat)⟩
    (by omega) hnodata
  rw [main_iter_written B fuel junk ⟨fd0, dab_data, nn⟩ msg nnbuf bytes fl _ fd1 (s 0) _ hrecv hflush hwrite haw]
  rw [finish_error _ _ _ _ _ _ _ _ _ neg_EAGAIN_ne_zero]
  refine ⟨_, rfl, List.length_replicate _ _, ?_, ?_, rfl, rfl⟩
  · intro c hc
    rw [(List.mem_replicate.mp hc).2]
  · show (⟨_, strlen _⟩ : mybuff) = ⟨_, 45⟩
    rw [strlen_timeout]

/-- C7, witness: the request `[1, 2, 3]` on a device whose queue stays empty. -/
theorem C7_retry_exhaustion_witness :
    ∃ r, main_iter queueBus 1 (fun _ => 0)
        ⟨[], uninit 4096 (fun _ => 0), uninit 2048 (fun _ => 0)⟩ (some [1, 2, 3]) = Step.reply r ∧
      r.await_calls.length = 10000 ∧
      (∀ c ∈ r.await_calls, c.2 = some (-EAGAIN)) ∧
      r.buff = ⟨Ptr.lit "error: e0f172e4bf58 could not read dab packet" 0, 45⟩ ∧
      r.buff.len = strlen "error: e0f172e4bf58 could not read dab packet" ∧
      r.payload = litBytes "error: e0f172e4bf58 could not read dab packet" := by
  have hrecv := recv_request_some (uninit 2048 (fun _ => 0)) [1, 2, 3]
    (by rw [uninit_length]; decide)
  exact C7_retry_exhaustion queueBus 1 (fun _ => 0)
    [] (uninit 4096 (fun _ => 0)) (uninit 2048 (fun _ => 0)) (some [1, 2, 3]) _ _ _ []
    (fun _ => []) hrecv (dab_flush_nodata queueBus 0 _ _ _ rfl)
    (write_queue_request [] (uninit 2048 (fun _ => 0)) [1, 2, 3] (uninit_length 2048 _)
      (by decide))
    (fun _ _ => rfl)

/-- C8 as stated fails: with peek `00 02` and consuming read `00 03 AA BB`
the reply of the transaction is the text
`error: e0f172e4bf58 could not read dab packet`, which is not the mismatch
text `error 1175a1c05466 packet size mismatch`. -/
theorem C8_reply_text_counterexample :
    (main_iter scriptBus 1 (fun _ => 0)
      ⟨⟨[some [0, 0], some [0, 2], some [0, 3, 0xAA, 0xBB]], [5]⟩, uninit 4096 (fun _ => 0),
        uninit 2048 (fun _ => 0)⟩ (some [1, 2, 3])).reply?.map (fun r => (r.buff, r.payload))
      = some (⟨Ptr.lit "error: e0f172e4bf58 could not read dab packet" 0, 45⟩,
              litBytes "error: e0f172e4bf58 could not read dab packet") ∧
    litBytes "error: e0f172e4bf58 could not read dab packet"
      ≠ litBytes "error 1175a1c05466 packet size mismatch" := by
  have hrecv := recv_request_some (uninit 2048 (fun _ => 0)) [1, 2, 3]
    (by rw [uninit_length]; decide)
  refine ⟨?_, by decide⟩
  rw [main_iter_mismatch scriptBus 1 (fun _ => 0)
    ⟨[some [0, 0], some [0, 2], some [0, 3, 0xAA, 0xBB]], [5]⟩
    (uninit 4096 (fun _ => 0)) (uninit 2048 (fun _ => 0)) (some [1, 2, 3]) _ _ _
    ⟨[some [0, 2], some [0, 3, 0xAA, 0xBB]], [5]⟩
    ⟨[some [0, 3, 0xAA, 0xBB]], []⟩ ⟨[], []⟩
    (fun _ => ⟨[some [0, 2], some [0, 3, 0xAA, 0xBB]], []⟩)
    0 [0, 2] 0 3 [0xAA, 0xBB] hrecv
    (dab_flush_nodata scriptBus 0 _ _ _ rfl)
    (write_script_request _ 5 [] (uninit 2048 (fun _ => 0)) [1, 2, 3] (uninit_length 2048 _)
      (by decide))
    (uninit_length 4096 _) (by decide)
    (fun i hi => absurd hi (by omega)) rfl (by decide) rfl (by decide)]
  simp only [Step.reply?, Option.map, strlen_timeout]

/-- C8 (amended): header mismatch.  If, after `N < 10000` empty polls, the
consuming read returns all `to_read` bytes but its first two bytes decode to
a value different from the declared length of the peek, `read_dab_packet`
fails with code `33` and stores the text
`error 1175a1c05466 packet size mismatch` in the buffer; the Dispatcher then
overwrites it, and its reply for that transaction is the text
`error: e0f172e4bf58 could not read dab packet`. -/
theorem C8_header_mismatch {σ : Type} (B : Bus σ) (fuel : Nat) (junk : Nat → Nat)
    (fd0 : σ) (dab_data nn : List Nat) (msg : Option (List Nat)) (nnbuf : List Nat) (bytes : Int)
    (fl : List Call) (fd1 t u : σ) (s : Nat → σ) (N : Nat) (size : List Nat) (h0 h1 : Nat)
    (rest : List Nat)
    (hrecv : recv_request nn msg = some (nnbuf, bytes))
    (hflush : dab_flush B fuel fd0 junk = (fl, Run.done fd1))
    (hwrite : write B fd1 nnbuf bytes = some (bytes, s 0))
    (hmem : dab_data.length = DAB_PACKET_MAX)
    (hN : N < 10000)
    (hnodata : ∀ i, i < N → read B (s i) 2 = (2, [0, 0], s (i + 1)))
    (hpeek : read B (s N) 2 = (2, size, t))
    (hpos : 0 < hdr16 (size.getD 0 0) (size.getD 1 0))
    (hread : read B t (size_t (to_read ((DAB_PACKET_MAX : Nat) : Int)
        (hdr16 (size.getD 0 0) (size.getD 1 0) : Nat)))
      = (to_read ((DAB_PACKET_MAX : Nat) : Int) (hdr16 (size.getD 0 0) (size.getD 1 0) : Nat),
          h0 :: h1 :: rest, u))
    (hne : hdr16 h0 h1 ≠ hdr16 (size.getD 0 0) (size.getD 1 0)) :
    (∃ r0, read_dab_packet B (s N) dab_data ⟨Ptr.arr 0, (DAB_PACKET_MAX : Nat)⟩ = some r0 ∧
      r0.ret = 33 ∧
      r0.buff = ⟨Ptr.lit "error 1175a1c05466 packet size mismatch" 0,
                 strlen "error 1175a1c05466 packet size mismatch"⟩) ∧
    ∃ r, main_iter B fuel junk ⟨fd0, dab_data, nn⟩ msg = Step.reply r ∧
      r.buff = ⟨Ptr.lit "error: e0f172e4bf58 could not read dab packet" 0,
                strlen "error: e0f172e4bf58 could not read dab packet"⟩ ∧
      r.payload = litBytes "error: e0f172e4bf58 could not read dab packet" ∧
      r.await_calls.length = N + 1 := by
  refine ⟨⟨_, read_dab_packet_mismatch B (s N) t u dab_data 0 DAB_PACKET_MAX size h0 h1 rest
    hpeek hpos (by rw [hmem]; omega) hread hne, rfl, rfl⟩, ?_⟩
  refine ⟨_, main_iter_mismatch B fuel junk fd0 dab_data nn msg nnbuf bytes fl fd1 t u s N size
    h0 h1 rest hrecv hflush hwrite hmem hN hnodata hpeek hpos hread hne, rfl, rfl, ?_⟩
  show (List.replicate N _ ++ [_]).length = N + 1
  rw [List.length_append, List.length_replicate]; rfl

/-- C8, witness: one empty poll, then peek `00 02` and a consuming read
`00 03 AA BB` of the 4 bytes asked for. -/
theorem C8_header_mismatch_witness :
    (∃ r0, read_dab_packet scriptBus ⟨[some [0, 2], some [0, 3, 0xAA, 0xBB]], []⟩
        (uninit 4096 (fun _ => 0)) ⟨Ptr.arr 0, (DAB_PACKET_MAX : Nat)⟩ = some r0 ∧
      r0.ret = 33 ∧
      r0.buff = ⟨Ptr.lit "error 1175a1c05466 packet size mismatch" 0,
                 strlen "error 1175a1c05466 packet size mismatch"⟩) ∧
    ∃ r, main_iter scriptBus 1 (fun _ => 0)
        ⟨⟨[some [0, 0], some [0, 0], some [0, 2], some [0, 3, 0xAA, 0xBB]], [5]⟩,
          uninit 4096 (fun _ => 0), uninit 2048 (fun _ => 0)⟩ (some [1, 2, 3]) = Step.reply r ∧
      r.buff = ⟨Ptr.lit "error: e0f172e4bf58 could not read dab packet" 0,
                strlen "error: e0f172e4bf58 could not read dab packet"⟩ ∧
      r.payload = litBytes "error: e0f172e4bf58 could not read dab packet" ∧
      r.await_calls.length = 1 + 1 := by
  have hrecv := recv_request_some (uninit 2048 (fun _ => 0)) [1, 2, 3]
    (by rw [uninit_length]; decide)
  exact C8_header_mismatch scriptBus 1 (fun _ => 0)
    ⟨[some [0, 0], some [0, 0], some [0, 2], some [0, 3, 0xAA, 0xBB]], [5]⟩
    (uninit 4096 (fun _ => 0)) (uninit 2048 (fun _ => 0)) (some [1, 2, 3]) _ _ _
    ⟨[some [0, 0], some [0, 2], some [0, 3, 0xAA, 0xBB]], [5]⟩
    ⟨[some [0, 3, 0xAA, 0xBB]], []⟩ ⟨[], []⟩
    (fun i => ⟨List.drop i [some [0, 0], some [0, 2], some [0, 3, 0xAA, 0xBB]], []⟩)
    1 [0, 2] 0 3 [0xAA, 0xBB] hrecv
    (dab_flush_nodata scriptBus 0 _ _ _ rfl)
    (write_script_request _ 5 [] (uninit 2048 (fun _ => 0)) [1, 2, 3] (uninit_length 2048 _)
      (by decide))
    (uninit_length 4096 _) (by decide)
    (fun i hi => by
      have hi0 : i = 0 := by omega
      subst hi0; rfl)
    rfl (by decide) rfl (by decide)

/-- C9, the code at the failing input: two stale packets `00 01 AA` are
queued.  With the flusher's array holding zeroes, the first call reads the
first packet and leaves the view at offset 2 with `len = 1`; the second call
therefore clamps its read to 1 byte, which does not remove the second packet,
and fails with `33`, leaving `data` at a string literal; the third call
stores the packet into that literal.  Whatever the array holds, the flush has
not returned after `K + 1 = 3` calls: it has run into undefined behaviour or
is still looping. -/
theorem C9_flush_two_equal_packets :
    dab_flush queueBus 3 [[0, 1, 0xAA], [0, 1, 0xAA]] (fun _ => 0) =
      ([(⟨Ptr.arr 0, 1024⟩, some 0), (⟨Ptr.arr 2, 1⟩, some 33),
        (⟨Ptr.lit "error 1175a1c05466 packet size mismatch" 0, 39⟩, none)], Run.fault) ∧
    ∀ junk : Nat → Nat,
      (dab_flush queueBus 3 [[0, 1, 0xAA], [0, 1, 0xAA]] junk).2 = Run.fault ∨
      (dab_flush queueBus 3 [[0, 1, 0xAA], [0, 1, 0xAA]] junk).2 = Run.more :=
  ⟨flush_two_equal_packets_zeroes, flush_two_equal_packets_stuck⟩

/-- C10: write failure.  For every request, if `write` on the bus returns a
count different from the frame length `n + 2`, the reply is exactly the text
`error 676b897e8412` and the retry loop makes no call of `read_dab_packet`:
the only reads of the transaction are those of the preceding flush. -/
theorem C10_write_failure {σ : Type} (B : Bus σ) (fuel : Nat) (junk : Nat → Nat)
    (fd0 : σ) (dab_data nn : List Nat) (m : List Nat) (nnbuf : List Nat) (bytes err : Int)
    (fl : List Call) (fd1 fd2 : σ)
    (hrecv : recv_request nn (some m) = some (nnbuf, bytes))
    (hflush : dab_flush B fuel fd0 junk = (fl, Run.done fd1))
    (hwrite : write B fd1 nnbuf bytes = some (err, fd2))
    (herr : err ≠ bytes) :
    bytes = (m.length : Int) + 2 ∧
    ∃ r, main_iter B fuel junk ⟨fd0, dab_data, nn⟩ (some m) = Step.reply r ∧
      r.buff = ⟨Ptr.lit "error 676b897e8412" 0, 18⟩ ∧
      r.payload = litBytes "error 676b897e8412" ∧
      r.await_calls = [] ∧ r.flush_calls = fl ∧ r.st.fd = fd2 := by
  constructor
  · simp only [recv_request, nn_recv] at hrecv
    split at hrecv
    · exact absurd hrecv (by simp)
    · simp only [Option.some.injEq, Prod.mk.injEq] at hrecv
      exact hrecv.2.symm
  · rw [main_iter_write_failed B fuel junk ⟨fd0, dab_data, nn⟩ (some m) nnbuf bytes err fl fd1 fd2 hrecv hflush
      hwrite herr]
    refine ⟨_, rfl, ?_, rfl, rfl, rfl, rfl⟩
    show (⟨_, strlen _⟩ : mybuff) = ⟨_, 18⟩
    rw [strlen_write_failed]

/-- C10, witness: the request `[1, 2, 3]` and a `write` that returns `2`
instead of `5`. -/
theorem C10_write_failure_witness :
    (2 : Int) ≠ (([1, 2, 3] : List Nat).length : Int) + 2 ∧
    ∃ r, main_iter scriptBus 1 (fun _ => 0)
        ⟨⟨[some [0, 0]], [2]⟩, uninit 4096 (fun _ => 0), uninit 2048 (fun _ => 0)⟩
        (some [1, 2, 3]) = Step.reply r ∧
      r.buff = ⟨Ptr.lit "error 676b897e8412" 0, 18⟩ ∧
      r.payload = litBytes "error 676b897e8412" ∧
      r.await_calls = [] ∧ r.flush_calls = [(⟨Ptr.arr 0, 1024⟩, some (-EAGAIN))] ∧
      r.st.fd = ⟨[], []⟩ := by
  have hrecv := recv_request_some (uninit 2048 (fun _ => 0)) [1, 2, 3]
    (by rw [uninit_length]; decide)
  exact ⟨by decide, (C10_write_failure scriptBus 1 (fun _ => 0)
    ⟨[some [0, 0]], [2]⟩ (uninit 4096 (fun _ => 0)) (uninit 2048 (fun _ => 0))
    [1, 2, 3] _ _ 2 _ ⟨[], [2]⟩ ⟨[], []⟩ hrecv
    (dab_flush_nodata scriptBus 0 _ _ _ rfl)
    (write_script_request _ 2 [] (uninit 2048 (fun _ => 0)) [1, 2, 3] (uninit_length 2048 _)
      (by decide))
    (by decide)).2⟩

/-- C11 as stated fails: a failed receive (`nn_recv` returns `-1`) fails
`assert(bytes >= 0)`; the iteration sends no reply and the loop is left. -/
theorem C11_failed_receive_counterexample :
    main_iter scriptBus 1 (fun _ => 0)
      ⟨⟨[some [0, 0]], [5]⟩, uninit 4096 (fun _ => 0), uninit 2048 (fun _ => 0)⟩ none
      = Step.abort :=
  main_iter_abort scriptBus 1 (fun _ => 0) _

/-- C11 (amended): a failed receive fails `assert(bytes >= 0)` and ends the
process.  For every received request of at most 2046 bytes and every outcome
of the bus write and the bus reads the iteration does not abort, and when the
flush returns it calls `write` and ends by sending one reply and handing over
the state for the next iteration; the one exception is undefined behaviour,
which only arises when the write was complete and the retry loop of this
iteration has returned `0` for a packet whose declared length plus 2 exceeds
the 4096 bytes of the buffer. -/
theorem C11_received_request_answered {σ : Type} (B : Bus σ) (fuel : Nat) (junk : Nat → Nat)
    (fd0 : σ) (dab_data nn m : List Nat)
    (hnn : nn.length = 2048) (hm : m.length ≤ 2046) (hmem : dab_data.length = DAB_PACKET_MAX) :
    main_iter B fuel junk ⟨fd0, dab_data, nn⟩ none = Step.abort ∧
    main_iter B fuel junk ⟨fd0, dab_data, nn⟩ (some m) ≠ Step.abort ∧
    ∀ (fl : List Call) (fd1 : σ), dab_flush B fuel fd0 junk = (fl, Run.done fd1) →
      ∃ nnbuf err fd2,
        recv_request nn (some m) = some (nnbuf, (m.length : Int) + 2) ∧
        write B fd1 nnbuf ((m.length : Int) + 2) = some (err, fd2) ∧
        ((∃ r, main_iter B fuel junk ⟨fd0, dab_data, nn⟩ (some m) = Step.reply r) ∨
          (main_iter B fuel junk ⟨fd0, dab_data, nn⟩ (some m) = Step.fault ∧
            err = (m.length : Int) + 2 ∧
            ∃ aw res,
              await_loop B 10000 0 fd2 dab_data ⟨Ptr.arr 0, (DAB_PACKET_MAX : Nat)⟩ []
                = (aw, some res) ∧
              res.ret = 0 ∧ ((DAB_PACKET_MAX : Nat) : Int) < res.buff.len + 2)) := by
  refine ⟨main_iter_abort B fuel junk _, ?_, ?_⟩
  · exact main_iter_not_abort B fuel junk ⟨fd0, dab_data, nn⟩ (some m) _ _
      (recv_request_some nn m (by omega))
  · intro fl fd1 hflush
    exact main_iter_answers B fuel junk fd0 dab_data nn m fl fd1 hnn hm hmem hflush

/-- C11, witness: the request `[1, 2, 3]` on a device whose queue stays
empty. -/
theorem C11_received_request_answered_witness :
    main_iter queueBus 1 (fun _ => 0) ⟨[], uninit 4096 (fun _ => 0), uninit 2048 (fun _ => 0)⟩
      none = Step.abort ∧
    main_iter queueBus 1 (fun _ => 0) ⟨[], uninit 4096 (fun _ => 0), uninit 2048 (fun _ => 0)⟩
      (some [1, 2, 3]) ≠ Step.abort ∧
    ∃ nnbuf err fd2,
      recv_request (uninit 2048 (fun _ => 0)) (some [1, 2, 3]) = some (nnbuf, 5) ∧
      write queueBus [] nnbuf 5 = some (err, fd2) ∧
      ((∃ r, main_iter queueBus 1 (fun _ => 0)
          ⟨[], uninit 4096 (fun _ => 0), uninit 2048 (fun _ => 0)⟩ (some [1, 2, 3])
            = Step.reply r) ∨
        (main_iter queueBus 1 (fun _ => 0)
            ⟨[], uninit 4096 (fun _ => 0), uninit 2048 (fun _ => 0)⟩ (some [1, 2, 3])
              = Step.fault ∧
          err = 5 ∧
          ∃ aw res,
            await_loop queueBus 10000 0 fd2 (uninit 4096 (fun _ => 0))
                ⟨Ptr.arr 0, (DAB_PACKET_MAX : Nat)⟩ [] = (aw, some res) ∧
            res.ret = 0 ∧ ((DAB_PACKET_MAX : Nat) : Int) < res.buff.len + 2)) :=
  have h := C11_received_request_answered queueBus 1 (fun _ => 0) []
    (uninit 4096 (fun _ => 0)) (uninit 2048 (fun _ => 0)) [1, 2, 3]
    (uninit_length 2048 _) (by decide) (uninit_length 4096 _)
  ⟨h.1, h.2.1, h.2.2 _ [] (dab_flush_nodata queueBus 0 [] [] _ rfl)⟩

/-- C12: NoData.  The decoded length is always in `0 .. 65535`, so the test
`packet_size <= 0` is the test `declared_length == 0`.  With well-formed
bytes on the bus, `read_dab_packet` returns `-EAGAIN` exactly when the peek
returns 2 bytes and both are zero: it does so whenever the peek is `00 00`,
and it does so in no other case; the only call it then made on the bus is
the 2-byte peek, no consuming read. -/
theorem C12_nodata_iff {σ : Type} (B : Bus σ) (fd fd1 : σ) (log : List Ev) (mem : List Nat)
    (buff : mybuff) (len : Int) (size : List Nat)
    (hp : read B fd 2 = (len, size, fd1))
    (hbytes : ∀ b ∈ size, b < 256) :
    hdr16 (size.getD 0 0) (size.getD 1 0) ≤ 65535 ∧
    (((hdr16 (size.getD 0 0) (size.getD 1 0) : Nat) : Int) ≤ 0 ↔
      hdr16 (size.getD 0 0) (size.getD 1 0) = 0) ∧
    (len = 2 ∧ size = [0, 0] →
      read_dab_packet (logged B) (fd, log) mem buff
        = some ⟨-EAGAIN, buff, mem, (fd1, log ++ [Ev.read 2]), []⟩) ∧
    (∀ r, read_dab_packet (logged B) (fd, log) mem buff = some r → r.ret = -EAGAIN →
      len = 2 ∧ size = [0, 0] ∧ r.fd.2 = log ++ [Ev.read 2]) := by
  have hL16 := hdr16_lt (size.getD 0 0) (size.getD 1 0)
  have hp2 := read_logged_eq B fd fd1 log 2 len size hp
  refine ⟨by omega, by omega, ?_, ?_⟩
  · rintro ⟨hlen, hsize⟩
    subst hlen hsize
    exact read_dab_packet_nodata (logged B) _ _ mem buff [0, 0] hp2 (by decide)
  · intro r hr hret
    rcases read_dab_packet_inv (logged B) _ _ mem buff r len size hp2 hr with
      ⟨_, h⟩ | ⟨hlen, hz, h⟩ | ⟨_, _, hcodes, _⟩
    · rw [h] at hret
      exact absurd hret c11_ne_neg_EAGAIN
    · subst hlen
      obtain ⟨a, b, hab⟩ := peek_two_bytes B fd fd1 size hp
      subst hab
      have hz2 : hdr16 a b = 0 := hz
      obtain ⟨ha, hb⟩ := hdr16_eq_zero a b (hbytes a (by simp)) (hbytes b (by simp)) hz2
      subst ha hb
      refine ⟨rfl, rfl, ?_⟩
      rw [h]
    · rcases hcodes with h | h | h
      · rw [h] at hret; exact absurd hret zero_ne_neg_EAGAIN
      · rw [h] at hret; exact absurd hret c22_ne_neg_EAGAIN
      · rw [h] at hret; exact absurd hret c33_ne_neg_EAGAIN

/-- C12, witness: a device that answers the peek with `00 00`. -/
theorem C12_nodata_iff_witness :
    read_dab_packet (logged scriptBus) (⟨[some [0, 0]], []⟩, []) [7, 7, 7, 7] ⟨Ptr.arr 0, 4⟩
      = some ⟨-EAGAIN, ⟨Ptr.arr 0, 4⟩, [7, 7, 7, 7], (⟨[], []⟩, [] ++ [Ev.read 2]), []⟩ :=
  (C12_nodata_iff scriptBus ⟨[some [0, 0]], []⟩ ⟨[], []⟩ [] [7, 7, 7, 7] ⟨Ptr.arr 0, 4⟩ 2 [0, 0]
    rfl (by decide)).2.2.1 ⟨rfl, rfl⟩

/-- C13: short payload read.  For every view inside its array and every
non-zero declared length, if the consuming read returns a byte count
different from `to_read`, `read_dab_packet` returns `22`, and the buffer it
leaves behind is the text `error b398993f07ab len ≠ packet_size` with `len`
the length of that text (38): what `nn_send` would transmit from it are the
bytes of the text, none of the bytes read. -/
theorem C13_short_payload_read {σ : Type} (B : Bus σ) (fd fd1 fd2 : σ) (mem : List Nat)
    (off n : Nat) (size bytes : List Nat) (len2 : Int)
    (hview : off + n ≤ mem.length)
    (hp : read B fd 2 = (2, size, fd1))
    (hpos : 0 < hdr16 (size.getD 0 0) (size.getD 1 0))
    (hc : read B fd1 (size_t (to_read (n : Int) (hdr16 (size.getD 0 0) (size.getD 1 0) : Nat)))
      = (len2, bytes, fd2))
    (hne : len2 ≠ to_read (n : Int) (hdr16 (size.getD 0 0) (size.getD 1 0) : Nat)) :
    ∃ r, read_dab_packet B fd mem ⟨Ptr.arr off, (n : Int)⟩ = some r ∧
      r.ret = 22 ∧
      r.buff = ⟨Ptr.lit "error b398993f07ab len ≠ packet_size" 0,
                strlen "error b398993f07ab len ≠ packet_size"⟩ ∧
      r.buff.len = 38 ∧
      view_bytes r.mem r.buff = some (litBytes "error b398993f07ab len ≠ packet_size") := by
  have hbl := read_length_le B fd1
    (size_t (to_read (n : Int) (hdr16 (size.getD 0 0) (size.getD 1 0) : Nat)))
  rw [hc] at hbl
  have hle := size_t_to_read_le n (hdr16 (size.getD 0 0) (size.getD 1 0))
  have hfit : off + bytes.length ≤ mem.length := by
    have : bytes.length ≤ n := Nat.le_trans hbl hle
    omega
  rw [read_dab_packet_body B fd fd1 fd2 mem _ ⟨Ptr.arr off, (n : Int)⟩ size bytes len2 hp hpos hc
    (store_arr mem off bytes hfit) (hex_print_stored_view mem off n _ bytes hfit hview)]
  rw [if_pos hne]
  exact ⟨_, rfl, rfl, rfl, strlen_short_read, view_lit _ _ (by decide)⟩

/-- C13, witness: a packet of declared length 2 whose consuming read of 4
bytes returns 3. -/
theorem C13_short_payload_read_witness :
    ∃ r, read_dab_packet scriptBus ⟨[some [0, 2], some [0, 2, 0xAA]], []⟩
        [7, 7, 7, 7, 7, 7, 7, 7] ⟨Ptr.arr 0, ((8 : Nat) : Int)⟩ = some r ∧
      r.ret = 22 ∧
      r.buff = ⟨Ptr.lit "error b398993f07ab len ≠ packet_size" 0,
                strlen "error b398993f07ab len ≠ packet_size"⟩ ∧
      r.buff.len = 38 ∧
      view_bytes r.mem r.buff = some (litBytes "error b398993f07ab len ≠ packet_size") :=
  C13_short_payload_read scriptBus ⟨[some [0, 2], some [0, 2, 0xAA]], []⟩
    ⟨[some [0, 2, 0xAA]], []⟩ ⟨[], []⟩ [7, 7, 7, 7, 7, 7, 7, 7] 0 8 [0, 2] [0, 2, 0xAA] 3
    (by decide) rfl (by decide) rfl (by decide)

/-- C14: clamped read size.  For every view inside its array and every
non-zero declared length, the calls `read_dab_packet` makes on the bus are
the 2-byte peek and one consuming read whose byte count is exactly
`min(declared_length + 2, buff.len)`; that read is made also when the count
was clamped, and its count never exceeds `buff.len`. -/
theorem C14_clamped_read_size {σ : Type} (B : Bus σ) (fd fd1 : σ) (log : List Ev)
    (mem : List Nat) (off n : Nat) (size : List Nat)
    (hview : off + n ≤ mem.length) (hhdr : off + 2 ≤ mem.length)
    (hp : read B fd 2 = (2, size, fd1))
    (hpos : 0 < hdr16 (size.getD 0 0) (size.getD 1 0)) :
    ∃ r, read_dab_packet (logged B) (fd, log) mem ⟨Ptr.arr off, (n : Int)⟩ = some r ∧
      r.fd.2 = log ++ [Ev.read 2,
        Ev.read (min (hdr16 (size.getD 0 0) (size.getD 1 0) + 2) n)] ∧
      r.fd.1 = (read B fd1 (min (hdr16 (size.getD 0 0) (size.getD 1 0) + 2) n)).2.2 ∧
      min (hdr16 (size.getD 0 0) (size.getD 1 0) + 2) n ≤ n := by
  have hp2 := read_logged_eq B fd fd1 log 2 2 size hp
  obtain ⟨r, hr, _⟩ := read_dab_packet_defined (logged B) (fd, log) mem off n hview hhdr
  refine ⟨r, hr, ?_, ?_, Nat.min_le_right _ _⟩
  · rcases read_dab_packet_inv (logged B) _ _ mem _ r 2 size hp2 hr with
      ⟨h, _⟩ | ⟨_, hz, _⟩ | ⟨_, _, _, hfd, _⟩
    · exact absurd rfl h
    · omega
    · rw [hfd]
      show (read (logged B) (fd1, log ++ [Ev.read 2])
        (size_t (to_read (n : Int) (hdr16 (size.getD 0 0) (size.getD 1 0) : Nat)))).2.2.2 = _
      rw [read_logged, size_t_to_read n _ (hdr16_lt _ _)]
      simp
  · rcases read_dab_packet_inv (logged B) _ _ mem _ r 2 size hp2 hr with
      ⟨h, _⟩ | ⟨_, hz, _⟩ | ⟨_, _, _, hfd, _⟩
    · exact absurd rfl h
    · omega
    · rw [hfd]
      show (read (logged B) (fd1, log ++ [Ev.read 2])
        (size_t (to_read (n : Int) (hdr16 (size.getD 0 0) (size.getD 1 0) : Nat)))).2.2.1 = _
      rw [read_logged, size_t_to_read n _ (hdr16_lt _ _)]

/-- C14, witness: a 3-byte view and a packet of declared length 2: the
consuming read asks for `min(4, 3) = 3` bytes. -/
theorem C14_clamped_read_size_witness :
    ∃ r, read_dab_packet (logged scriptBus) (⟨[some [0, 2], some [0, 2, 0xAA, 0xBB]], []⟩, [])
        [7, 7, 7, 7, 7, 7] ⟨Ptr.arr 0, ((3 : Nat) : Int)⟩ = some r ∧
      r.fd.2 = [] ++ [Ev.read 2, Ev.read (min (hdr16 ([0, 2].getD 0 0) ([0, 2].getD 1 0) + 2) 3)] ∧
      r.fd.1 = (read scriptBus ⟨[some [0, 2, 0xAA, 0xBB]], []⟩
        (min (hdr16 ([0, 2].getD 0 0) ([0, 2].getD 1 0) + 2) 3)).2.2 ∧
      min (hdr16 ([0, 2].getD 0 0) ([0, 2].getD 1 0) + 2) 3 ≤ 3 :=
  C14_clamped_read_size scriptBus ⟨[some [0, 2], some [0, 2, 0xAA, 0xBB]], []⟩
    ⟨[some [0, 2, 0xAA, 0xBB]], []⟩ [] [7, 7, 7, 7, 7, 7] 0 3 [0, 2]
    (by decide) (by decide) rfl (by decide)

/-- C15: success postcondition.  On a view inside its array,
`read_dab_packet` returns `0` if and only if the peek returned exactly 2
bytes decoding to `L > 0`, the consuming read returned exactly
`min(L + 2, buff.len)` bytes, and the first two bytes of the buffer after
that read decode to `L`.  In that case the new view starts 2 bytes after the
old start and has `len = L`, and when `L + 2 ≤ buff.len` its contents are
the bytes `2 .. L+1` of the block the consuming read returned.  A peek that
does not return 2 bytes gives the code `11`. -/
theorem C15_success_postcondition {σ : Type} (B : Bus σ) (fd fd1 fd2 : σ) (mem : List Nat)
    (off n : Nat) (len len2 : Int) (size bytes : List Nat)
    (hview : off + n ≤ mem.length) (hhdr : off + 2 ≤ mem.length)
    (hp : read B fd 2 = (len, size, fd1))
    (hc : read B fd1 (min (hdr16 (size.getD 0 0) (size.getD 1 0) + 2) n) = (len2, bytes, fd2)) :
    ∃ r, read_dab_packet B fd mem ⟨Ptr.arr off, (n : Int)⟩ = some r ∧
      (r.ret = 0 ↔
        (len = 2 ∧ 0 < hdr16 (size.getD 0 0) (size.getD 1 0) ∧
          len2 = ((min (hdr16 (size.getD 0 0) (size.getD 1 0) + 2) n : Nat) : Int) ∧
          ∃ h0 h1, load r.mem (Ptr.arr off) 0 = some h0 ∧ load r.mem (Ptr.arr off) 1 = some h1 ∧
            hdr16 h0 h1 = hdr16 (size.getD 0 0) (size.getD 1 0))) ∧
      (r.ret = 0 →
        r.buff = ⟨Ptr.arr (off + 2), ((hdr16 (size.getD 0 0) (size.getD 1 0) : Nat) : Int)⟩ ∧
        (hdr16 (size.getD 0 0) (size.getD 1 0) + 2 ≤ n →
          view_bytes r.mem r.buff = some (bytes.drop 2) ∧
          (bytes.drop 2).length = hdr16 (size.getD 0 0) (size.getD 1 0))) ∧
      (len ≠ 2 → r.ret = 11) := by
  have hL16 := hdr16_lt (size.getD 0 0) (size.getD 1 0)
  by_cases hlen : len = 2
  · subst hlen
    by_cases hz : hdr16 (size.getD 0 0) (size.getD 1 0) = 0
    · refine ⟨_, read_dab_packet_nodata B fd fd1 mem _ size hp hz, ⟨fun h => ?_, fun h => ?_⟩,
        fun h => ?_, fun h => absurd rfl h⟩
      · exact absurd h neg_EAGAIN_ne_zero
      · omega
      · exact absurd h neg_EAGAIN_ne_zero
    · have hpos : 0 < hdr16 (size.getD 0 0) (size.getD 1 0) := by omega
      have hc2 : read B fd1
          (size_t (to_read (n : Int) (hdr16 (size.getD 0 0) (size.getD 1 0) : Nat)))
          = (len2, bytes, fd2) := by
        rw [size_t_to_read n _ hL16]; exact hc
      have htr := to_read_eq_min n (hdr16 (size.getD 0 0) (size.getD 1 0))
      obtain ⟨hfit, _, h0, h1, hh0, hh1, hcall⟩ := read_dab_packet_valid B fd fd1 fd2 mem off n
        size bytes len2 hview hhdr hp hpos hc2
      rw [hcall]
      by_cases hl2 : len2 ≠ to_read (n : Int) (hdr16 (size.getD 0 0) (size.getD 1 0) : Nat)
      · rw [if_pos hl2]
        refine ⟨_, rfl, ⟨fun h => absurd h c22_ne_zero, fun h => ?_⟩,
          fun h => absurd h c22_ne_zero, fun h => absurd rfl h⟩
        exact absurd (h.2.2.1.trans htr.symm) hl2
      · rw [if_neg hl2]
        have hl2' : len2 = to_read (n : Int) (hdr16 (size.getD 0 0) (size.getD 1 0) : Nat) :=
          not_not.mp hl2
        by_cases hh : ((hdr16 (size.getD 0 0) (size.getD 1 0) : Nat) : Int)
            ≠ ((hdr16 h0 h1 : Nat) : Int)
        · rw [if_pos hh]
          refine ⟨_, rfl, ⟨fun h => absurd h c33_ne_zero, fun h => ?_⟩,
            fun h => absurd h c33_ne_zero, fun h => absurd rfl h⟩
          obtain ⟨_, _, _, a0, a1, ha0, ha1, ha⟩ := h
          have e0 : a0 = h0 := Option.some.inj (ha0.symm.trans hh0)
          have e1 : a1 = h1 := Option.some.inj (ha1.symm.trans hh1)
          rw [e0, e1] at ha
          exact absurd (by rw [ha]) hh
        · rw [if_neg hh]
          have hh' : hdr16 h0 h1 = hdr16 (size.getD 0 0) (size.getD 1 0) := by
            have := not_not.mp hh
            omega
          refine ⟨_, rfl, ⟨fun _ => ⟨rfl, hpos, hl2'.trans htr, h0, h1, hh0, hh1, hh'⟩,
            fun _ => rfl⟩, fun _ => ⟨rfl, fun hfitn => ?_⟩, fun h => absurd rfl h⟩
          have hmin : min (hdr16 (size.getD 0 0) (size.getD 1 0) + 2) n
              = hdr16 (size.getD 0 0) (size.getD 1 0) + 2 := Nat.min_eq_left hfitn
          have hrl := read_len B fd1 (min (hdr16 (size.getD 0 0) (size.getD 1 0) + 2) n)
          rw [hc] at hrl
          have hl3 : len2 = ((hdr16 (size.getD 0 0) (size.getD 1 0) + 2 : Nat) : Int) := by
            rw [hl2', htr, hmin]
          have hblen : bytes.length = hdr16 (size.getD 0 0) (size.getD 1 0) + 2 := by
            rcases hrl with ⟨h1', _⟩ | h2
            · have h1'' : len2 = -1 := h1'
              omega
            · have h2' : len2 = ((bytes.length : Nat) : Int) := h2
              omega
          match bytes, hblen with
          | b0 :: b1 :: pl, hbl =>
            have hpl : pl.length = hdr16 (size.getD 0 0) (size.getD 1 0) := by
              simp only [List.length_cons] at hbl
              omega
            exact ⟨view_stored mem off _ b0 b1 pl hpl (by omega) (by omega), hpl⟩
  · exact ⟨_, read_dab_packet_short_peek B fd fd1 mem _ len size hp hlen,
      ⟨fun h => absurd h c11_ne_zero, fun h => absurd h.1 hlen⟩,
      fun h => absurd h c11_ne_zero, fun _ => rfl⟩

/-- C15, witness: an 8-byte view and the packet `00 02 AA BB`. -/
theorem C15_success_postcondition_witness :
    ∃ r, read_dab_packet scriptBus ⟨[some [0, 2], some [0, 2, 0xAA, 0xBB]], []⟩
        [7, 7, 7, 7, 7, 7, 7, 7] ⟨Ptr.arr 0, ((8 : Nat) : Int)⟩ = some r ∧
      (r.ret = 0 ↔
        ((2 : Int) = 2 ∧ 0 < hdr16 ([0, 2].getD 0 0) ([0, 2].getD 1 0) ∧
          (4 : Int) = ((min (hdr16 ([0, 2].getD 0 0) ([0, 2].getD 1 0) + 2) 8 : Nat) : Int) ∧
          ∃ h0 h1, load r.mem (Ptr.arr 0) 0 = some h0 ∧ load r.mem (Ptr.arr 0) 1 = some h1 ∧
            hdr16 h0 h1 = hdr16 ([0, 2].getD 0 0) ([0, 2].getD 1 0))) ∧
      (r.ret = 0 →
        r.buff = ⟨Ptr.arr (0 + 2), ((hdr16 ([0, 2].getD 0 0) ([0, 2].getD 1 0) : Nat) : Int)⟩ ∧
        (hdr16 ([0, 2].getD 0 0) ([0, 2].getD 1 0) + 2 ≤ 8 →
          view_bytes r.mem r.buff = some ([0, 2, 0xAA, 0xBB].drop 2) ∧
          ([0, 2, 0xAA, 0xBB].drop 2).length = hdr16 ([0, 2].getD 0 0) ([0, 2].getD 1 0))) ∧
      ((2 : Int) ≠ 2 → r.ret = 11) :=
  C15_success_postcondition scriptBus ⟨[some [0, 2], some [0, 2, 0xAA, 0xBB]], []⟩
    ⟨[some [0, 2, 0xAA, 0xBB]], []⟩ ⟨[], []⟩ [7, 7, 7, 7, 7, 7, 7, 7] 0 8 2 4 [0, 2]
    [0, 2, 0xAA, 0xBB] (by decide) (by decide) rfl rfl

/-- C16, the code at the failing input: one stale packet of declared length
1 is announced (peek `00 01`), its consuming read fails (`read` returns `-1`),
and the queue is empty afterwards.  The first call returns `22` and leaves
`data` pointing at the text `error b398993f07ab len ≠ packet_size` with
`len = 38`; the loop passes that buffer to the second call: a string
literal, not storage inside the 1024-byte array. -/
theorem C16_flush_passes_literal :
    dab_flush scriptBus 2 ⟨[some [0, 1], none, some [0, 0]], []⟩ (fun _ => 0) =
      ([(⟨Ptr.arr 0, 1024⟩, some 22),
        (⟨Ptr.lit "error b398993f07ab len ≠ packet_size" 0, 38⟩, some (-EAGAIN))],
        Run.done ⟨[], []⟩) :=
  flush_after_failed_read

/-- C17: fresh full view per transaction.  Whatever state the earlier
iterations left behind, every call of `read_dab_packet` made by the retry
loop receives the buffer with its view at offset 0 and `len = 4096`
(`DAB_PACKET_MAX`): this holds for the calls of any run of the loop on that
buffer, and so for the calls recorded with every reply; the backing array
handed to the next iteration has the length it had. -/
theorem C17_fresh_full_view {σ : Type} (B : Bus σ) (fuel : Nat) (junk : Nat → Nat)
    (fd0 : σ) (dab_data nn : List Nat) (msg : Option (List Nat)) (r : Reply σ)
    (h : main_iter B fuel junk ⟨fd0, dab_data, nn⟩ msg = Step.reply r) :
    (∀ c ∈ r.await_calls, c.1 = ⟨Ptr.arr 0, (DAB_PACKET_MAX : Nat)⟩) ∧
    r.st.dab_data.length = dab_data.length ∧
    ∀ (retries : Nat) (ret : Int) (fd : σ) (mem : List Nat),
      ∀ c ∈ (await_loop B retries ret fd mem ⟨Ptr.arr 0, (DAB_PACKET_MAX : Nat)⟩ []).1,
        c.1 = ⟨Ptr.arr 0, (DAB_PACKET_MAX : Nat)⟩ := by
  have hall : ∀ (retries : Nat) (ret : Int) (fd : σ) (mem : List Nat),
      ∀ c ∈ (await_loop B retries ret fd mem ⟨Ptr.arr 0, (DAB_PACKET_MAX : Nat)⟩ []).1,
        c.1 = ⟨Ptr.arr 0, (DAB_PACKET_MAX : Nat)⟩ := by
    intro retries ret fd mem c hc
    obtain ⟨k, _, hcase⟩ := await_loop_shape B retries ret fd mem _ [] _ _ rfl
    rcases hcase with ⟨_, haw, _⟩ | ⟨haw, _⟩ | ⟨_, res, haw, _⟩
    · rw [haw] at hc
      simp only [List.nil_append, List.mem_replicate] at hc
      rw [hc.2]
    · rw [haw] at hc
      simp only [List.nil_append, List.mem_append, List.mem_replicate, List.mem_singleton] at hc
      rcases hc with hc | hc
      · rw [hc.2]
      · rw [hc]
    · rw [haw] at hc
      simp only [List.nil_append, List.mem_append, List.mem_replicate, List.mem_singleton] at hc
      rcases hc with hc | hc
      · rw [hc.2]
      · rw [hc]
  obtain ⟨nnbuf, bytes, fl, fd1, err, fd2, _, _, _, _, hcase⟩ :=
    main_iter_reply_inv B fuel junk ⟨fd0, dab_data, nn⟩ msg r h
  rcases hcase with ⟨_, _, haw, hst⟩ | ⟨_, res, haw, hst, _⟩
  · refine ⟨fun c hc => ?_, by rw [hst], hall⟩
    rw [haw] at hc
    exact absurd hc (List.not_mem_nil c)
  · refine ⟨fun c hc => ?_, ?_, hall⟩
    · have := hall 10000 0 fd2 dab_data c
      rw [haw] at this
      exact this hc
    · rw [hst]
      show res.mem.length = dab_data.length
      obtain ⟨k, _, hshape⟩ := await_loop_shape B 10000 0 fd2 dab_data _ [] _ _ haw
      rcases hshape with ⟨_, _, fd3, hout⟩ | ⟨_, hout⟩ | ⟨fd3, res2, _, hout, _, hcall⟩
      · rw [Option.some.inj hout]
      · exact absurd hout (by simp)
      · rw [Option.some.inj hout]
        exact read_dab_packet_mem_length B fd3 dab_data _ res2 hcall

/-- C17, witness: the request `[1, 2, 3]`, one empty poll, then the packet
`00 02 AA BB`. -/
theorem C17_fresh_full_view_witness :
    ∃ r, main_iter scriptBus 1 (fun _ => 0)
        ⟨⟨[some [0, 0], some [0, 0], some [0, 2], some [0, 2, 0xAA, 0xBB]], [5]⟩,
          uninit 4096 (fun _ => 0), uninit 2048 (fun _ => 0)⟩ (some [1, 2, 3]) = Step.reply r ∧
      r.await_calls.length = 2 ∧
      (∀ c ∈ r.await_calls, c.1 = ⟨Ptr.arr 0, (DAB_PACKET_MAX : Nat)⟩) ∧
      r.st.dab_data.length = (uninit 4096 (fun _ => 0)).length := by
  have hrecv := recv_request_some (uninit 2048 (fun _ => 0)) [1, 2, 3]
    (by rw [uninit_length]; decide)
  have hrun := main_iter_success scriptBus 1 (fun _ => 0)
    ⟨[some [0, 0], some [0, 0], some [0, 2], some [0, 2, 0xAA, 0xBB]], [5]⟩
    (uninit 4096 (fun _ => 0)) (uninit 2048 (fun _ => 0)) (some [1, 2, 3]) _ _ _
    ⟨[some [0, 0], some [0, 2], some [0, 2, 0xAA, 0xBB]], [5]⟩
    ⟨[some [0, 2, 0xAA, 0xBB]], []⟩ ⟨[], []⟩
    (fun i => ⟨List.drop i [some [0, 0], some [0, 2], some [0, 2, 0xAA, 0xBB]], []⟩)
    1 0 2 [0xAA, 0xBB] hrecv
    (dab_flush_nodata scriptBus 0 _ _ _ rfl)
    (write_script_request _ 5 [] (uninit 2048 (fun _ => 0)) [1, 2, 3] (uninit_length 2048 _)
      (by decide))
    (uninit_length 4096 _) (by decide)
    (fun i hi => by
      have hi0 : i = 0 := by omega
      subst hi0; rfl)
    (by decide) (by decide) (by decide) rfl rfl
  have hc := C17_fresh_full_view scriptBus 1 (fun _ => 0) _ _ _ _ _ hrun
  exact ⟨_, hrun, rfl, hc.1, hc.2.1⟩

/-- C18: flush exit condition.  Whatever `read_dab_packet` returns,
`dab_flush` returns right after the first call that returns `-EAGAIN` and not
before: every call before the last returned something else and was followed
by another call, a returning flush ends with the one NoData call, so the
number of calls is the index of the first NoData plus one, and more fuel
does not change that run.  On a bus where every peek is a short read the
flush has not returned after any number of calls, each of which returns
`11`. -/
theorem C18_flush_exit_condition {σ : Type} (B : Bus σ) (fuel : Nat) (fd : σ)
    (junk : Nat → Nat) (out : List Call) (run : Run σ)
    (h : dab_flush B fuel fd junk = (out, run)) :
    (∃ pre : List Call, (∀ c ∈ pre, ∃ v, c.2 = some v ∧ v ≠ -EAGAIN) ∧
      ((run = Run.more ∧ out = pre ∧ pre.length = fuel) ∨
        (run = Run.fault ∧ ∃ b, out = pre ++ [(b, none)]) ∨
        (∃ fd1, run = Run.done fd1 ∧ (∃ b, out = pre ++ [(b, some (-EAGAIN))]) ∧
          out.length = pre.length + 1 ∧
          ∀ k, dab_flush B (fuel + k) fd junk = (out, Run.done fd1)))) ∧
    ∀ s : Nat → σ,
      (∀ i, (read B (s i) 2).1 ≠ 2 ∧ (read B (s i) 2).2.2 = s (i + 1)) →
      ∀ n, dab_flush B n (s 0) junk
        = (List.replicate n (⟨Ptr.arr 0, 1024⟩, some 11), Run.more) := by
  constructor
  · obtain ⟨pre, hpre, hcase⟩ := flush_loop_shape B fuel fd _ _ [] out run h
    refine ⟨pre, hpre, ?_⟩
    rcases hcase with ⟨hrun, hout, hlen⟩ | ⟨hrun, _, b, hout⟩ | ⟨fd1, hrun, _, b, hout⟩
    · exact Or.inl ⟨hrun, by simpa using hout, hlen⟩
    · exact Or.inr (Or.inl ⟨hrun, b, by simpa using hout⟩)
    · refine Or.inr (Or.inr ⟨fd1, hrun, ⟨b, by simpa using hout⟩, by rw [hout]; simp, fun k => ?_⟩)
      rw [hrun] at h
      exact flush_loop_stable B fuel fd _ _ [] out fd1 k h
  · intro s hs n
    have := flush_loop_short_peeks B n s (uninit 1024 junk) ⟨Ptr.arr 0, 1024⟩ []
      (fun i _ => hs i)
    simpa [dab_flush] using this

/-- C18, witness: a flush whose first call returns `22` and whose second
call returns NoData, and a device that fails every peek. -/
theorem C18_flush_exit_condition_witness :
    (∃ pre : List Call, (∀ c ∈ pre, ∃ v, c.2 = some v ∧ v ≠ -EAGAIN) ∧
      (((Run.done ⟨[], []⟩ : Run Script) = Run.more ∧
          [((⟨Ptr.arr 0, 1024⟩ : mybuff), some (22 : Int)),
            (⟨Ptr.lit "error b398993f07ab len ≠ packet_size" 0, 38⟩, some (-EAGAIN))] = pre ∧
          pre.length = 2) ∨
        ((Run.done ⟨[], []⟩ : Run Script) = Run.fault ∧ ∃ b,
          [((⟨Ptr.arr 0, 1024⟩ : mybuff), some (22 : Int)),
            (⟨Ptr.lit "error b398993f07ab len ≠ packet_size" 0, 38⟩, some (-EAGAIN))]
            = pre ++ [(b, none)]) ∨
        (∃ fd1, (Run.done ⟨[], []⟩ : Run Script) = Run.done fd1 ∧
          (∃ b, [((⟨Ptr.arr 0, 1024⟩ : mybuff), some (22 : Int)),
            (⟨Ptr.lit "error b398993f07ab len ≠ packet_size" 0, 38⟩, some (-EAGAIN))]
            = pre ++ [(b, some (-EAGAIN))]) ∧
          [((⟨Ptr.arr 0, 1024⟩ : mybuff), some (22 : Int)),
            (⟨Ptr.lit "error b398993f07ab len ≠ packet_size" 0, 38⟩, some (-EAGAIN))].length
            = pre.length + 1 ∧
          ∀ k, dab_flush scriptBus (2 + k) ⟨[some [0, 1], none, some [0, 0]], []⟩ (fun _ => 0)
            = ([(⟨Ptr.arr 0, 1024⟩, some 22),
                (⟨Ptr.lit "error b398993f07ab len ≠ packet_size" 0, 38⟩, some (-EAGAIN))],
              Run.done fd1)))) ∧
    ∀ n, dab_flush scriptBus n ⟨[], []⟩ (fun _ => 0)
      = (List.replicate n (⟨Ptr.arr 0, 1024⟩, some 11), Run.more) :=
  have h := C18_flush_exit_condition scriptBus 2 ⟨[some [0, 1], none, some [0, 0]], []⟩
    (fun _ => 0) _ _ flush_after_failed_read
  have hdead : (read scriptBus ⟨[], []⟩ 2).1 ≠ 2 := by decide
  ⟨h.1, h.2 (fun _ => ⟨[], []⟩) (fun _ => ⟨hdead, rfl⟩)⟩

/-- C19: reply shapes.  The buffer handed to `nn_send` is one of three
things: the text `error 676b897e8412` when the write count differs from the
frame length (the retry loop then makes no call); the view left by the last
call of `read_dab_packet` when that call returned `0`; or the text
`error: e0f172e4bf58 could not read dab packet` when the retry loop ended
with `11`, `22` or `33` or after `10000` NoData polls.  The retry loop stops
at the first result other than NoData, and the texts `read_dab_packet` stores
with `22` and `33` are never the reply. -/
theorem C19_reply_shapes {σ : Type} (B : Bus σ) (fuel : Nat) (junk : Nat → Nat)
    (fd0 : σ) (dab_data nn : List Nat) (msg : Option (List Nat)) (r : Reply σ)
    (h : main_iter B fuel junk ⟨fd0, dab_data, nn⟩ msg = Step.reply r) :
    (∃ (k : Nat) (tail : List Call),
      r.await_calls =
        List.replicate k (⟨Ptr.arr 0, (DAB_PACKET_MAX : Nat)⟩, some (-EAGAIN)) ++ tail ∧
      k ≤ 10000 ∧
      ((k = 0 ∧ tail = [] ∧ r.buff = ⟨Ptr.lit "error 676b897e8412" 0, 18⟩ ∧
          ∃ nnbuf bytes fd1 err fd2, recv_request nn msg = some (nnbuf, bytes) ∧
            write B fd1 nnbuf bytes = some (err, fd2) ∧ err ≠ bytes) ∨
        (tail = [(⟨Ptr.arr 0, (DAB_PACKET_MAX : Nat)⟩, some 0)] ∧
          ∃ fd mem res, read_dab_packet B fd mem ⟨Ptr.arr 0, (DAB_PACKET_MAX : Nat)⟩ = some res ∧
            res.ret = 0 ∧ r.buff = res.buff ∧ r.st.dab_data = res.mem) ∨
        (r.buff = ⟨Ptr.lit "error: e0f172e4bf58 could not read dab packet" 0, 45⟩ ∧
          ((k = 10000 ∧ tail = []) ∨
            ∃ c, tail = [(⟨Ptr.arr 0, (DAB_PACKET_MAX : Nat)⟩, some c)] ∧
              (c = 11 ∨ c = 22 ∨ c = 33))))) ∧
    r.buff.data ≠ Ptr.lit "error b398993f07ab len ≠ packet_size" 0 ∧
    r.buff.data ≠ Ptr.lit "error 1175a1c05466 packet size mismatch" 0 := by
  obtain ⟨nnbuf, bytes, fl, fd1, err, fd2, hrecv, _, hw, _, hcase⟩ :=
    main_iter_reply_inv B fuel junk ⟨fd0, dab_data, nn⟩ msg r h
  rcases hcase with ⟨herr, hbuff, haw, _⟩ | ⟨_, res, haw, hst, _, hfin⟩
  · rw [strlen_write_failed] at hbuff
    refine ⟨⟨0, [], by rw [haw]; rfl, by omega,
      Or.inl ⟨rfl, rfl, hbuff, nnbuf, bytes, fd1, err, fd2, hrecv, hw, herr⟩⟩, ?_, ?_⟩
    · rw [hbuff]; exact write_failed_ne_short_read
    · rw [hbuff]; exact write_failed_ne_mismatch
  · have hgen : res.ret ≠ 0 →
        r.buff = ⟨Ptr.lit "error: e0f172e4bf58 could not read dab packet" 0, 45⟩ := by
      intro hne
      rcases hfin with ⟨_, hb⟩ | ⟨h0, _⟩
      · rw [hb, strlen_timeout]
      · exact absurd h0 hne
    obtain ⟨k, hk, hshape⟩ := await_loop_shape B 10000 0 fd2 dab_data _ [] _ _ haw
    rcases hshape with ⟨hk2, hawk, fd3, hout⟩ | ⟨_, hout⟩ | ⟨fd3, res2, hawk, hout, hne, hcall⟩
    · have hres : res.ret = -EAGAIN := by
        rw [Option.some.inj hout]
        show (if k = 0 then (0 : Int) else -EAGAIN) = -EAGAIN
        rw [if_neg (by omega)]
      have hb := hgen (by rw [hres]; exact neg_EAGAIN_ne_zero)
      refine ⟨⟨k, [], by rw [hawk]; simp, hk, Or.inr (Or.inr ⟨hb, Or.inl ⟨hk2, rfl⟩⟩)⟩, ?_, ?_⟩
      · rw [hb]; exact timeout_ne_short_read
      · rw [hb]; exact timeout_ne_mismatch
    · exact absurd hout (by simp)
    · have hres : res = res2 := Option.some.inj hout
      subst hres
      by_cases h0 : res.ret = 0
      · have hb : r.buff = res.buff := by
          rcases hfin with ⟨hne0, _⟩ | ⟨_, hb⟩
          · exact absurd h0 hne0
          · exact hb
        have hdata : res.buff.data = Ptr.arr (0 + 2) := by
          rcases read_dab_packet_codes B fd3 dab_data _ res hcall with
            ⟨h1, _⟩ | ⟨h1, _⟩ | ⟨_, hd⟩ | ⟨h1, _⟩ | ⟨h1, _⟩
          · rw [h1] at h0; exact absurd h0 c11_ne_zero
          · rw [h1] at h0; exact absurd h0 neg_EAGAIN_ne_zero
          · exact hd
          · rw [h1] at h0; exact absurd h0 c22_ne_zero
          · rw [h1] at h0; exact absurd h0 c33_ne_zero
        refine ⟨⟨k, [(⟨Ptr.arr 0, (DAB_PACKET_MAX : Nat)⟩, some 0)], by rw [hawk, h0]; simp, hk,
          Or.inr (Or.inl ⟨rfl, fd3, dab_data, res, hcall, h0, hb, by rw [hst]⟩)⟩, ?_, ?_⟩
        · rw [hb, hdata]; exact arr_ne_lit _ _ _
        · rw [hb, hdata]; exact arr_ne_lit _ _ _
      · have hb := hgen h0
        have hcode : res.ret = 11 ∨ res.ret = 22 ∨ res.ret = 33 := by
          rcases read_dab_packet_codes B fd3 dab_data _ res hcall with
            ⟨h1, _⟩ | ⟨h1, _⟩ | ⟨h1, _⟩ | ⟨h1, _⟩ | ⟨h1, _⟩
          · exact Or.inl h1
          · exact absurd h1 hne
          · exact absurd h1 h0
          · exact Or.inr (Or.inl h1)
          · exact Or.inr (Or.inr h1)
        refine ⟨⟨k, [(⟨Ptr.arr 0, (DAB_PACKET_MAX : Nat)⟩, some res.ret)],
          by rw [hawk]; simp, hk, Or.inr (Or.inr ⟨hb, Or.inr ⟨res.ret, rfl, hcode⟩⟩)⟩, ?_, ?_⟩
        · rw [hb]; exact timeout_ne_short_read
        · rw [hb]; exact timeout_ne_mismatch

/-- C19, witness: peek `00 02` answered by the consuming read `00 03 AA BB`:
the call returns `33`, and the reply is neither of the two texts that
`read_dab_packet` stores. -/
theorem C19_reply_shapes_witness :
    ∃ r, main_iter scriptBus 1 (fun _ => 0)
        ⟨⟨[some [0, 0], some [0, 2], some [0, 3, 0xAA, 0xBB]], [5]⟩,
          uninit 4096 (fun _ => 0), uninit 2048 (fun _ => 0)⟩ (some [1, 2, 3]) = Step.reply r ∧
      r.await_calls = [(⟨Ptr.arr 0, (DAB_PACKET_MAX : Nat)⟩, some 33)] ∧
      r.buff.data ≠ Ptr.lit "error b398993f07ab len ≠ packet_size" 0 ∧
      r.buff.data ≠ Ptr.lit "error 1175a1c05466 packet size mismatch" 0 := by
  have hrecv := recv_request_some (uninit 2048 (fun _ => 0)) [1, 2, 3]
    (by rw [uninit_length]; decide)
  have hrun := main_iter_mismatch scriptBus 1 (fun _ => 0)
    ⟨[some [0, 0], some [0, 2], some [0, 3, 0xAA, 0xBB]], [5]⟩
    (uninit 4096 (fun _ => 0)) (uninit 2048 (fun _ => 0)) (some [1, 2, 3]) _ _ _
    ⟨[some [0, 2], some [0, 3, 0xAA, 0xBB]], [5]⟩
    ⟨[some [0, 3, 0xAA, 0xBB]], []⟩ ⟨[], []⟩
    (fun _ => ⟨[some [0, 2], some [0, 3, 0xAA, 0xBB]], []⟩)
    0 [0, 2] 0 3 [0xAA, 0xBB] hrecv
    (dab_flush_nodata scriptBus 0 _ _ _ rfl)
    (write_script_request _ 5 [] (uninit 2048 (fun _ => 0)) [1, 2, 3] (uninit_length 2048 _)
      (by decide))
    (uninit_length 4096 _) (by decide)
    (fun i hi => absurd hi (by omega)) rfl (by decide) rfl (by decide)
  have hc := C19_reply_shapes scriptBus 1 (fun _ => 0) _ _ _ _ _ hrun
  exact ⟨_, hrun, rfl, hc.2.1, hc.2.2⟩

/-- C20: frame effect of an empty or failed peek.  Whenever `read_dab_packet`
returns `-EAGAIN` or `11`, the view and the content of the buffer are what
they were before the call, and the 2-byte peek is the only call made on the
bus. -/
theorem C20_peek_only_frame {σ : Type} (B : Bus σ) (fd : σ) (log : List Ev) (mem : List Nat)
    (buff : mybuff) (r : Result (σ × List Ev))
    (hr : read_dab_packet (logged B) (fd, log) mem buff = some r)
    (hret : r.ret = -EAGAIN ∨ r.ret = 11) :
    r.buff = buff ∧ r.mem = mem ∧ r.fd = ((read B fd 2).2.2, log ++ [Ev.read 2]) := by
  have hp2 := read_logged B fd log 2
  rcases read_dab_packet_inv (logged B) _ _ mem buff r _ _ hp2 hr with
    ⟨_, h⟩ | ⟨_, _, h⟩ | ⟨_, _, hcodes, _⟩
  · rw [h]; exact ⟨rfl, rfl, rfl⟩
  · rw [h]; exact ⟨rfl, rfl, rfl⟩
  · rcases hret with he | he <;> rcases hcodes with h | h | h <;> rw [h] at he
    · exact absurd he zero_ne_neg_EAGAIN
    · exact absurd he c22_ne_neg_EAGAIN
    · exact absurd he c33_ne_neg_EAGAIN
    · exact absurd he zero_ne_11
    · exact absurd he c22_ne_11
    · exact absurd he c33_ne_11

/-- C20, witness: a peek that returns one byte only. -/
theorem C20_peek_only_frame_witness :
    read_dab_packet (logged scriptBus) (⟨[some [0]], []⟩, []) [7, 7, 7, 7] ⟨Ptr.arr 0, 4⟩
      = some ⟨11, ⟨Ptr.arr 0, 4⟩, [7, 7, 7, 7], (⟨[], []⟩, [Ev.read 2]),
          [Diag.io_ac564230315f]⟩ ∧
    ((⟨Ptr.arr 0, 4⟩ : mybuff) = ⟨Ptr.arr 0, 4⟩ ∧ [7, 7, 7, 7] = [7, 7, 7, 7] ∧
      ((⟨[], []⟩, [Ev.read 2]) : Script × List Ev)
        = ((read scriptBus ⟨[some [0]], []⟩ 2).2.2, [] ++ [Ev.read 2])) :=
  ⟨rfl, C20_peek_only_frame scriptBus ⟨[some [0]], []⟩ [] [7, 7, 7, 7] ⟨Ptr.arr 0, 4⟩
    ⟨11, ⟨Ptr.arr 0, 4⟩, [7, 7, 7, 7], (⟨[], []⟩, [Ev.read 2]), [Diag.io_ac564230315f]⟩
    rfl (Or.inr rfl)⟩

end Nndab
